import Mathlib

/-!
# A read-only FAT12/16/32 image reader: embedding of `FAT.c` and `HAL.c`

The C translation unit keeps its state in file-scope variables (`s_bootInfo`, `s_local` in
`FAT.c`; `fp`, `sizeSector` in `HAL.c`).  Here that state is passed explicitly.

Conventions of the embedding.

* C unsigned integers are natural numbers; every place where the C type of an expression or of
  the assigned variable truncates, the definition carries an explicit `% 2 ^ w`.
* The disk image is a finite byte sequence: a length and a byte at every position below it.
* An execution that leaves defined behaviour (division by zero, a read outside an allocated
  buffer) yields a `Fault`; so does a loop model that exhausts its iteration budget.
* `malloc` is taken to succeed and to return a block of exactly the requested size; `fseek` is
  taken to succeed (the offset handed to it is a non-negative 32-bit value).
-/

namespace FAT

/-! ## Outcomes -/

/-- Ways in which an execution fails to produce a value. -/
inductive Fault where
  /-- An integer division whose divisor is zero. -/
  | divByZero
  /-- A load from outside the buffer that was allocated. -/
  | outOfBounds
  /-- The iteration budget handed to a loop model ran out before the loop condition failed. -/
  | outOfFuel
  deriving DecidableEq

instance instDecidableEqExcept {ε α : Type} [DecidableEq ε] [DecidableEq α] :
    DecidableEq (Except ε α)
  | .ok a, .ok b =>
    if h : a = b then isTrue (by rw [h]) else isFalse (fun h2 => h (Except.ok.inj h2))
  | .error a, .error b =>
    if h : a = b then isTrue (by rw [h]) else isFalse (fun h2 => h (Except.error.inj h2))
  | .ok _, .error _ => isFalse (fun h => by cases h)
  | .error _, .ok _ => isFalse (fun h => by cases h)

/-! ## Constants of `FAT.h` and `HAL.h` -/

abbrev SIZE_OF_NAME : Nat := 11
abbrev FIRST_CLUSTER : Nat := 2
abbrev SIZE_ROOT_ENTRY : Nat := 32

abbrev FAT_12 : Nat := 12
abbrev FAT_16 : Nat := 16
abbrev FAT_32 : Nat := 32

abbrev FAT12_CLUST_COUNT : Nat := 4085
abbrev FAT16_CLUST_COUNT : Nat := 65525

abbrev SHIFT_24_BIT : Nat := 24
abbrev SHIFT_16_BIT : Nat := 16
abbrev SHIFT_8_BIT : Nat := 8
abbrev SHIFT_4_BIT : Nat := 4

abbrev ATTR_FILE : Nat := 0x00
abbrev ATTR_READ_ONLY : Nat := 0x01
abbrev ATTR_HIDDEN : Nat := 0x02
abbrev ATTR_SYSTEM : Nat := 0x04
abbrev ATTR_LONG_FILE_NAME : Nat := 0x0F
abbrev ATTR_VOLUME_ID : Nat := 0x08
abbrev ATTR_DIRECTORY : Nat := 0x10
abbrev ATTR_ARCHIVE : Nat := 0x20

abbrev INVALID_FILE_NAME : Nat := 0x00
abbrev DELETED_FILE_NAME : Nat := 0xE5
abbrev LAST_CRUSTER_12 : Nat := 0xFF8
abbrev LAST_CRUSTER_16 : Nat := 0xFFF8
abbrev LAST_CRUSTER_32 : Nat := 0xFFFFFF8

abbrev BYTE_PER_SECTOR : Nat := 512

/-- The modulus of `uint16_t`. -/
abbrev U16 : Nat := 2 ^ 16

/-- The modulus of `uint32_t`. -/
abbrev U32 : Nat := 2 ^ 32

/-! ## Data model (`FAT.h`) -/

/-- The struct `t_bootSector`.  The comment on each field gives its C type. -/
structure t_bootSector where
  /-- Field of type `uint32_t`. -/
  bytsPerSec : Nat
  /-- Field of type `uint16_t`. -/
  secPerClus : Nat
  /-- Field of type `uint16_t`. -/
  rsvdSecCnt : Nat
  /-- Field of type `uint8_t`. -/
  numFATs : Nat
  /-- Field of type `uint16_t`. -/
  rootEntCnt : Nat
  /-- Field of type `uint16_t`. -/
  FATsz : Nat
  /-- Field of type `uint32_t`. -/
  totalSector : Nat
  /-- Field of type `uint16_t`. -/
  rootClus : Nat
  deriving DecidableEq

/-- Every field of a `t_bootSector` holds a value of its C type. -/
def t_bootSector.InRange (b : t_bootSector) : Prop :=
  b.bytsPerSec < U32 ∧ b.secPerClus < U16 ∧ b.rsvdSecCnt < U16 ∧ b.numFATs < 2 ^ 8 ∧
    b.rootEntCnt < U16 ∧ b.FATsz < U16 ∧ b.totalSector < U32 ∧ b.rootClus < U16

instance (b : t_bootSector) : Decidable b.InRange := by
  unfold t_bootSector.InRange; infer_instance

/-- The struct `t_location`; all five fields are `uint16_t`. -/
structure t_location where
  FATStartSector : Nat
  sectorInFAT : Nat
  rootDirStartSector : Nat
  sectorInRootDir : Nat
  dataStartSector : Nat
  deriving DecidableEq

/-- The struct `t_direcroryEntry`. -/
structure t_direcroryEntry where
  /-- The eleven bytes `fileName[SIZE_OF_NAME]`. -/
  fileName : List Nat
  /-- Field of type `uint8_t`. -/
  attributes : Nat
  /-- Field of type `uint16_t`. -/
  writeTime : Nat
  /-- Field of type `uint16_t`. -/
  writeDate : Nat
  /-- Field of type `uint32_t`. -/
  startCluster : Nat
  /-- Field of type `uint32_t`. -/
  fileSize : Nat
  deriving DecidableEq

/-! ## Variant and layout (`fatType`, `localEachRegion`) -/

/-- The function `fatType` of `FAT.c`: the quotient `totalSector / secPerClus` is compared with
the two cluster-count bounds.  A zero `secPerClus` makes the division undefined. -/
def fatType (b : t_bootSector) : Except Fault Nat :=
  if b.secPerClus = 0 then .error .divByZero
  else
    let totalClusters := b.totalSector / b.secPerClus
    if totalClusters < FAT12_CLUST_COUNT then .ok FAT_12
    else if totalClusters < FAT16_CLUST_COUNT then .ok FAT_16
    else .ok FAT_32

/-- The function `localEachRegion` of `FAT.c`.  The right-hand sides are computed in `int` or
`unsigned int` and then stored in the `uint16_t` fields of `s_local`; `bytsPerSec - 1` is an
`unsigned int` subtraction. -/
def localEachRegion (b : t_bootSector) : Except Fault t_location :=
  let FATStartSector := b.rsvdSecCnt % U16
  let sectorInFAT := (b.FATsz * b.numFATs) % U16
  let rootDirStartSector := (FATStartSector + sectorInFAT) % U16
  if b.bytsPerSec = 0 then .error .divByZero
  else
    let sectorInRootDir :=
      ((((SIZE_ROOT_ENTRY * b.rootEntCnt) % U32 + (b.bytsPerSec + U32 - 1) % U32) % U32)
        / b.bytsPerSec) % U16
    let dataStartSector := (rootDirStartSector + sectorInRootDir) % U16
    .ok { FATStartSector := FATStartSector
          sectorInFAT := sectorInFAT
          rootDirStartSector := rootDirStartSector
          sectorInRootDir := sectorInRootDir
          dataStartSector := dataStartSector }

/-! ## The image and the sector reader (`HAL.c`) -/

/-- The disk image behind `fp`: `size` bytes, the byte at position `p < size` being
`byte p % 256`. -/
structure Disk where
  size : Nat
  byte : Nat → Nat

/-- The file-scope state of the two translation units. -/
structure State where
  /-- The variable `s_bootInfo` of `FAT.c`. -/
  s_bootInfo : t_bootSector
  /-- The variable `s_local` of `FAT.c`. -/
  s_local : t_location
  /-- The variable `sizeSector` of `HAL.c`. -/
  sizeSector : Nat
  /-- The image opened by `HAL_Init`. -/
  disk : Disk

/-- What one call of a HAL read did: where `fseek` positioned the image, how many bytes were
asked of `fread`, how many it delivered, and the bytes stored at the destination (offset `i` of
the destination is meaningful for `i < byteRead`). -/
structure ReadResult where
  positionPointer : Nat
  requested : Nat
  byteRead : Nat
  buff : Nat → Nat

/-- The function `HAL_ReadMultiSector`: `positionPointer = index * sizeSector` and the count
`sizeSector * num` are both `uint32_t` products; `fread` delivers the bytes that exist from the
position on, at most the count. -/
def HAL_ReadMultiSector (st : State) (index num : Nat) : ReadResult :=
  let positionPointer := (index * st.sizeSector) % U32
  let requested := (st.sizeSector * num) % U32
  { positionPointer := positionPointer
    requested := requested
    byteRead := min requested (st.disk.size - positionPointer)
    buff := fun i => st.disk.byte (positionPointer + i) % 256 }

/-- The function `HAL_ReadSector`: as above for one sector; the product is formed in
`uint32_t` before it is widened to the `uint64_t` variable. -/
def HAL_ReadSector (st : State) (index : Nat) : ReadResult :=
  let positionPointer := (index * st.sizeSector) % U32
  { positionPointer := positionPointer
    requested := st.sizeSector
    byteRead := min st.sizeSector (st.disk.size - positionPointer)
    buff := fun i => st.disk.byte (positionPointer + i) % 256 }

/-- A load `buff[i]` from a block of `sz` bytes. -/
def load (sz : Nat) (buff : Nat → Nat) (i : Nat) : Except Fault Nat :=
  if i < sz then .ok (buff i) else .error .outOfBounds

/-! ## FAT entry decoding (`nextCluster`) -/

/-- The macro `LITTLE_ENDIAN(X, Y)` of `FAT.c`: `((uint32_t)(Y) << SHIFT_8_BIT) | (X)`. -/
def LITTLE_ENDIAN (X Y : Nat) : Nat :=
  ((Y <<< SHIFT_8_BIT) % U32) ||| X

/-- The function `nextCluster` of `FAT.c`.  The block `fatSector` has
`FATsz * bytsPerSec` bytes; the whole FAT is read into it; when fewer bytes arrive than that the
function returns its initial `thisEntryVal = 0`.  `thisFATOffset` is a `uint16_t`, so every
value assigned to it is reduced modulo `2 ^ 16`. -/
def nextCluster (st : State) (cluster : Nat) : Except Fault Nat := do
  let thisFatType ← fatType st.s_bootInfo
  let sz := (st.s_bootInfo.FATsz * st.s_bootInfo.bytsPerSec) % U32
  let r := HAL_ReadMultiSector st st.s_bootInfo.rsvdSecCnt st.s_bootInfo.FATsz
  if sz < r.byteRead then .error .outOfBounds
  else if r.byteRead ≠ sz then .ok 0
  else if thisFatType = FAT_12 then do
    let thisFATOffset := ((cluster + (cluster >>> 1)) % U32) % U16
    let b0 ← load sz r.buff thisFATOffset
    let b1 ← load sz r.buff (thisFATOffset + 1)
    if cluster &&& 1 ≠ 0 then
      .ok ((b0 >>> SHIFT_4_BIT) ||| ((b1 <<< SHIFT_4_BIT) % U32))
    else
      .ok (b0 ||| (((b1 &&& 0x0F) <<< SHIFT_8_BIT) % U32))
  else if thisFatType = FAT_16 then do
    let thisFATOffset := ((cluster * 2) % U32) % U16
    let b0 ← load sz r.buff thisFATOffset
    let b1 ← load sz r.buff (thisFATOffset + 1)
    .ok (b0 ||| ((b1 <<< SHIFT_8_BIT) % U32))
  else if thisFatType = FAT_32 then do
    let thisFATOffset := ((cluster * 4) % U32) % U16
    let b0 ← load sz r.buff thisFATOffset
    let b1 ← load sz r.buff (thisFATOffset + 1)
    let b2 ← load sz r.buff (thisFATOffset + 2)
    let b3 ← load sz r.buff (thisFATOffset + 3)
    .ok (b0 ||| ((b1 <<< SHIFT_8_BIT) % U32) ||| ((b2 <<< SHIFT_16_BIT) % U32)
          ||| (((b3 &&& 0x0F) <<< SHIFT_24_BIT) % U32))
  else .ok 0

/-- Byte `i` of the FAT region as `nextCluster` reads it: the image byte at
`rsvdSecCnt * sizeSector + i`. -/
def fatByte (st : State) (i : Nat) : Nat :=
  (HAL_ReadMultiSector st st.s_bootInfo.rsvdSecCnt st.s_bootInfo.FATsz).buff i

/-- The number of bytes of the FAT region that `nextCluster` allocates and expects. -/
def fatBytes (st : State) : Nat :=
  (st.s_bootInfo.FATsz * st.s_bootInfo.bytsPerSec) % U32

/-- The read of the FAT region delivers every byte that `nextCluster` expects. -/
def fatReadOk (st : State) : Prop :=
  (HAL_ReadMultiSector st st.s_bootInfo.rsvdSecCnt st.s_bootInfo.FATsz).byteRead = fatBytes st

instance (st : State) : Decidable (fatReadOk st) := by
  unfold fatReadOk; infer_instance

/-! ## Directory records (`createNewNodeAsDirEntry`, `readDirEntry`) -/

/-- The field assignments of `createNewNodeAsDirEntry` for the record at `&buff[index]`.  The
shifts of `fileSize` act on a byte promoted to `int`; the result is taken in two's complement,
i.e. modulo `2 ^ 32`. -/
def decodeDirEntry (buff : Nat → Nat) (index : Nat) : t_direcroryEntry :=
  { fileName := (List.range SIZE_OF_NAME).map (fun i => buff (index + i))
    attributes := buff (index + 0x0B)
    writeTime := (LITTLE_ENDIAN (buff (index + 0x16)) (buff (index + 0x17))) % U16
    writeDate := (LITTLE_ENDIAN (buff (index + 0x18)) (buff (index + 0x19))) % U16
    startCluster := LITTLE_ENDIAN (buff (index + 0x1A)) (buff (index + 0x1B))
    fileSize := ((buff (index + 0x1F) <<< SHIFT_24_BIT) % U32)
                  ||| ((buff (index + 0x1E) <<< SHIFT_16_BIT) % U32)
                  ||| ((buff (index + 0x1D) <<< SHIFT_8_BIT) % U32)
                  ||| buff (index + 0x1C) }

/-- The function `createNewNodeAsDirEntry` of `FAT.c` applied to `&buff[index]`, `buff` being a
block of `sz` bytes.  The function touches offsets `0 .. 0x1F` of the record, so it stays inside
the block exactly when `index + 32 ≤ sz`. -/
def createNewNodeAsDirEntry (sz : Nat) (buff : Nat → Nat) (index : Nat) :
    Except Fault t_direcroryEntry :=
  if index + 32 ≤ sz then .ok (decodeDirEntry buff index) else .error .outOfBounds

/-- The condition under which `readDirEntry` links a node into the list. -/
def keepNode (newNode : t_direcroryEntry) : Bool :=
  (newNode.attributes == ATTR_DIRECTORY ||
    newNode.attributes == ATTR_FILE ||
    newNode.attributes == ATTR_READ_ONLY ||
    newNode.attributes == ATTR_ARCHIVE) &&
  newNode.fileName.head? != some INVALID_FILE_NAME &&
  newNode.fileName.head? != some DELETED_FILE_NAME

/-- The `while` loop of `readDirEntry` over a block of `sz` bytes: the first argument bounds the
number of iterations, `index` and `head` are the loop variables.  A kept node goes behind the
last node of the list. -/
def readDirLoop (sz : Nat) (buff : Nat → Nat) :
    Nat → Nat → List t_direcroryEntry → Except Fault (List t_direcroryEntry)
  | 0, index, head => if index < sz then .error .outOfFuel else .ok head
  | fuel + 1, index, head =>
    if index < sz then
      match createNewNodeAsDirEntry sz buff index with
      | .error e => .error e
      | .ok newNode =>
        readDirLoop sz buff fuel ((index + SIZE_ROOT_ENTRY) % U32)
          (if keepNode newNode then head ++ [newNode] else head)
    else .ok head

/-- The `switch` at the head of `readDirEntry`: the number of sectors to read. -/
def readDirNum (st : State) (startEntry : Nat) : Except Fault Nat :=
  match fatType st.s_bootInfo with
  | .error e => .error e
  | .ok thisFatType =>
    if thisFatType = FAT_12 ∨ thisFatType = FAT_16 then
      if startEntry = st.s_local.rootDirStartSector then .ok st.s_local.sectorInRootDir
      else .ok st.s_bootInfo.secPerClus
    else if thisFatType = FAT_32 then .ok st.s_bootInfo.secPerClus
    else .ok 0

/-- The function `readDirEntry` of `FAT.c`: the list `head` after the call.  The block has
`bytsPerSec * num` bytes; when the read delivers another number of bytes the list is left as it
is. -/
def readDirEntry (st : State) (head : List t_direcroryEntry) (startEntry : Nat) :
    Except Fault (List t_direcroryEntry) :=
  match readDirNum st startEntry with
  | .error e => .error e
  | .ok num =>
    let sz := (st.s_bootInfo.bytsPerSec * num) % U32
    let r := HAL_ReadMultiSector st startEntry num
    if sz < r.byteRead then .error .outOfBounds
    else if r.byteRead ≠ sz then .ok head
    else readDirLoop sz r.buff sz 0 head

/-! ## Chain walks (`loadDirEntry`, `loadFile`) -/

/-- The function `deleteList` of `FAT.c`: every node is freed and `*head` becomes `NULL`. -/
def deleteList (_head : List t_direcroryEntry) : List t_direcroryEntry := []

/-- The end-of-chain bound that `loadDirEntry` and `loadFile` select for a variant. -/
def thisLastCluster (thisFatType : Nat) : Nat :=
  if thisFatType = FAT_12 then LAST_CRUSTER_12
  else if thisFatType = FAT_16 then LAST_CRUSTER_16
  else if thisFatType = FAT_32 then LAST_CRUSTER_32
  else 0

/-- The sector number `((temp - FIRST_CLUSTER) * secPerClus) + dataStartSector` as an
`unsigned int` expression. -/
def clusterSector (st : State) (temp : Nat) : Nat :=
  ((((temp + U32 - FIRST_CLUSTER) % U32) * st.s_bootInfo.secPerClus) % U32
    + st.s_local.dataStartSector) % U32

/-- One iteration of the loop of `loadDirEntry`: the value of `temp` on entry and the sector
handed to `readDirEntry`. -/
structure DirStep where
  cluster : Nat
  startEntry : Nat
  deriving DecidableEq

/-- The `while` loop of `loadDirEntry`; `startEntry` is a `uint32_t`.  The result is the list
of iterations made and the list `head` at the end. -/
def loadDirLoop (st : State) (last : Nat) :
    Nat → Nat → List t_direcroryEntry → Except Fault (List DirStep × List t_direcroryEntry)
  | 0, temp, head => if temp < last then .error .outOfFuel else .ok ([], head)
  | fuel + 1, temp, head =>
    if temp < last then
      let startEntry :=
        if temp = 0 then st.s_local.rootDirStartSector else clusterSector st temp
      match (if temp = 0 then .ok last else nextCluster st temp) with
      | .error e => .error e
      | .ok temp2 =>
        match readDirEntry st head startEntry with
        | .error e => .error e
        | .ok head2 =>
          match loadDirLoop st last fuel temp2 head2 with
          | .error e => .error e
          | .ok (steps, out) => .ok ({ cluster := temp, startEntry := startEntry } :: steps, out)
    else .ok ([], head)

/-- The function `loadDirEntry` of `FAT.c`, with an iteration budget for its loop: `deleteList`
empties the list, on FAT32 a start cluster `0` is replaced by `rootClus`. -/
def loadDirEntry (st : State) (fuel : Nat) (head : List t_direcroryEntry) (startCluster : Nat) :
    Except Fault (List DirStep × List t_direcroryEntry) :=
  match fatType st.s_bootInfo with
  | .error e => .error e
  | .ok thisFatType =>
    let temp :=
      if thisFatType = FAT_32 ∧ startCluster = 0 then st.s_bootInfo.rootClus else startCluster
    loadDirLoop st (thisLastCluster thisFatType) fuel temp (deleteList head)

/-- One iteration of the loop of `loadFile`: the value of `temp` on entry, the sector and the
sector count handed to `HAL_ReadMultiSector`, the offset of the destination inside `buff`, and
the number of bytes the read stored there. -/
structure FileStep where
  cluster : Nat
  position : Nat
  num : Nat
  offset : Nat
  byteRead : Nat
  deriving DecidableEq

/-- The `while` loop of `loadFile`; `position` and `count` are `uint16_t`, the destination
offset `bytsPerSec * secPerClus * count` is an `unsigned int` product. -/
def loadFileLoop (st : State) (last : Nat) : Nat → Nat → Nat → Except Fault (List FileStep)
  | 0, temp, _ => if temp < last then .error .outOfFuel else .ok []
  | fuel + 1, temp, count =>
    if temp < last then
      let position := clusterSector st temp % U16
      let r := HAL_ReadMultiSector st position st.s_bootInfo.secPerClus
      let offset :=
        (((st.s_bootInfo.bytsPerSec * st.s_bootInfo.secPerClus) % U32) * count) % U32
      match nextCluster st temp with
      | .error e => .error e
      | .ok temp2 =>
        match loadFileLoop st last fuel temp2 ((count + 1) % U16) with
        | .error e => .error e
        | .ok steps =>
          .ok ({ cluster := temp, position := position, num := st.s_bootInfo.secPerClus,
                 offset := offset, byteRead := r.byteRead } :: steps)
    else .ok []

/-- The function `loadFile` of `FAT.c`, with an iteration budget for its loop: the reads it
performs into `buff`, in order.  The block behind `buff` belongs to the caller and is taken to
be large enough for every one of them. -/
def loadFile (st : State) (fuel : Nat) (startCluster : Nat) : Except Fault (List FileStep) :=
  match fatType st.s_bootInfo with
  | .error e => .error e
  | .ok thisFatType => loadFileLoop st (thisLastCluster thisFatType) fuel startCluster 0

/-! ## Boot sector parsing (`initFileFAT`) -/

/-- The 32-bit expression `(uint32_t)(buff[o+3] << 24) | (uint32_t)(buff[o+2] << 16) |
(uint32_t)(buff[o+1] << 8) | buff[o]` that `initFileFAT` uses for the extended fields.  Each
shift acts on a byte promoted to `int`; the result is taken in two's complement, i.e. modulo
`2 ^ 32`. -/
def extendedField (buff : Nat → Nat) (o : Nat) : Nat :=
  ((buff (o + 3) <<< SHIFT_24_BIT) % U32)
    ||| ((buff (o + 2) <<< SHIFT_16_BIT) % U32)
    ||| ((buff (o + 1) <<< SHIFT_8_BIT) % U32)
    ||| buff o

/-- The assignments of `initFileFAT` from the first store to `s_bootInfo.bytsPerSec` up to the
store to `s_bootInfo.totalSector`: the value of `s_bootInfo` after them, `prev` being its value
before.  `fatSize` and `totalSec` are `uint32_t` locals; each store reduces the value to the C
type of the field. -/
def parseBootSector (prev : t_bootSector) (buff : Nat → Nat) : t_bootSector :=
  let fatSize0 := LITTLE_ENDIAN (buff 0x16) (buff 0x17)
  let totalSec0 := LITTLE_ENDIAN (buff 0x13) (buff 0x14)
  let totalSec := if totalSec0 = 0 then extendedField buff 0x20 else totalSec0
  let fatSize := if fatSize0 = 0 then extendedField buff 0x24 else fatSize0
  { bytsPerSec := (LITTLE_ENDIAN (buff 0x0B) (buff 0x0C)) % U32
    secPerClus := buff 0x0D % U16
    rsvdSecCnt := (LITTLE_ENDIAN (buff 0x0E) (buff 0x0F)) % U16
    numFATs := buff 0x10 % 2 ^ 8
    rootEntCnt := (LITTLE_ENDIAN (buff 0x11) (buff 0x12)) % U16
    FATsz := fatSize % U16
    totalSector := totalSec % U32
    rootClus := prev.rootClus }

/-- The function `initFileFAT` of `FAT.c` on an image that `HAL_Init` has opened: the state
after the call; the value the C function returns is the field `s_bootInfo` of that state.  The
block `buff` has `BYTE_PER_SECTOR` bytes; when the read of sector 0 delivers another number of
bytes nothing is stored.  Otherwise the fields are parsed, `fatType` is called, `rootClus` (a
`uint16_t`) is stored on FAT32 only, and `HAL_Update` sets the sector size of the reader. -/
def initFileFAT (st : State) : Except Fault State :=
  let r := HAL_ReadSector st 0
  if BYTE_PER_SECTOR < r.byteRead then .error .outOfBounds
  else if r.byteRead ≠ BYTE_PER_SECTOR then .ok st
  else
    let b := parseBootSector st.s_bootInfo r.buff
    match fatType b with
    | .error e => .error e
    | .ok thisFatType =>
      let b2 : t_bootSector :=
        if thisFatType = FAT_32 then { b with rootClus := extendedField r.buff 0x2C % U16 }
        else b
      .ok { st with s_bootInfo := b2, sizeSector := b2.bytsPerSec }

/-- The state before `initFileFAT` runs on the image `d`: the file-scope variables have their
static initial values (all fields zero, `sizeSector = BYTE_PER_SECTOR`). -/
def initialState (d : Disk) : State :=
  { s_bootInfo := { bytsPerSec := 0, secPerClus := 0, rsvdSecCnt := 0, numFATs := 0,
                    rootEntCnt := 0, FATsz := 0, totalSector := 0, rootClus := 0 }
    s_local := { FATStartSector := 0, sectorInFAT := 0, rootDirStartSector := 0,
                 sectorInRootDir := 0, dataStartSector := 0 }
    sizeSector := BYTE_PER_SECTOR
    disk := d }

/-! ## The caller's buffer (`APP` in `main.c`) -/

/-- The argument of `malloc` in `APP` for a file of `fileSize` bytes:
`((fileSize / bytsPerSec) + 1) * bytsPerSec * secPerClus`, every operation an `unsigned int`
operation; `bootInfo` is the record that `initFileFAT` returned.  A zero `bytsPerSec` makes
the division undefined. -/
def APP_buffSize (bootInfo : t_bootSector) (fileSize : Nat) : Except Fault Nat :=
  if bootInfo.bytsPerSec = 0 then .error .divByZero
  else
    .ok (((((fileSize / bootInfo.bytsPerSec + 1) % U32) * bootInfo.bytsPerSec) % U32
      * bootInfo.secPerClus) % U32)

/-! ## Reference descriptions used in the statements -/

/-- The little-endian 16-bit value of the two bytes at offsets `o`, `o + 1`. -/
def le16 (buff : Nat → Nat) (o : Nat) : Nat :=
  buff o + 256 * buff (o + 1)

/-- The little-endian 24-bit value of the three bytes at offsets `o`, `o + 1`, `o + 2`. -/
def le24 (buff : Nat → Nat) (o : Nat) : Nat :=
  buff o + 256 * buff (o + 1) + 65536 * buff (o + 2)

/-- The little-endian 32-bit value of the four bytes at offsets `o` to `o + 3`. -/
def le32 (buff : Nat → Nat) (o : Nat) : Nat :=
  buff o + 256 * buff (o + 1) + 65536 * buff (o + 2) + 16777216 * buff (o + 3)

/-- The records that a scan of a block of `sz` bytes keeps: the `sz / 32` records at offsets
`0, 32, 64, ...` are decoded in that order and those passing `keepNode` are retained. -/
def scanRecords (sz : Nat) (buff : Nat → Nat) : List t_direcroryEntry :=
  ((List.range (sz / 32)).map (fun k => decodeDirEntry buff (32 * k))).filter
    (fun e => keepNode e)

/-- The records that one call `readDirEntry(head, startEntry)` contributes when it reads `num`
sectors: those of the block read when the read delivers `bytsPerSec * num` bytes, none
otherwise. -/
def dirRecords (st : State) (startEntry num : Nat) : List t_direcroryEntry :=
  if (HAL_ReadMultiSector st startEntry num).byteRead = (st.s_bootInfo.bytsPerSec * num) % U32
  then scanRecords ((st.s_bootInfo.bytsPerSec * num) % U32)
    (HAL_ReadMultiSector st startEntry num).buff
  else []

/-- The records that the directory walk takes from cluster `x`: those of the call
`readDirEntry(head, clusterSector x)`. -/
def clusterRecords (st : State) (x : Nat) : List t_direcroryEntry :=
  match readDirNum st (clusterSector st x) with
  | .ok num => dirRecords st (clusterSector st x) num
  | .error _ => []

/-- The call `readDirEntry(head, clusterSector x)` that the directory walk makes for cluster
`x` reads its block in full. -/
def clusterReadOk (st : State) (x : Nat) : Prop :=
  match readDirNum st (clusterSector st x) with
  | .ok num =>
    (HAL_ReadMultiSector st (clusterSector st x) num).byteRead
      = (st.s_bootInfo.bytsPerSec * num) % U32
  | .error _ => False

instance instDecidableClusterReadOk (st : State) (x : Nat) : Decidable (clusterReadOk st x) := by
  unfold clusterReadOk
  cases readDirNum st (clusterSector st x) <;> infer_instance

/-- The list `cs` is a chain for the decoder: every cluster is below the bound `last`,
`nextCluster` maps each cluster to the one after it, and maps the final cluster to a value at
or above `last`. -/
def IsChain (st : State) (last : Nat) : List Nat → Prop
  | [] => False
  | [c] => c < last ∧
      (match nextCluster st c with
       | .ok e => last ≤ e
       | .error _ => False)
  | c :: d :: rest => c < last ∧ nextCluster st c = .ok d ∧ IsChain st last (d :: rest)

instance instDecidableIsChain (st : State) (last : Nat) :
    (cs : List Nat) → Decidable (IsChain st last cs)
  | [] => isFalse (fun h => h)
  | [c] => by
    unfold IsChain
    cases nextCluster st c <;> infer_instance
  | c :: d :: rest => by
    unfold IsChain
    have := instDecidableIsChain st last (d :: rest)
    infer_instance

/-- The iterations that `loadFile` makes along the clusters `cs` when `count` holds the given
value at the first of them. -/
def fileSteps (st : State) : List Nat → Nat → List FileStep
  | [], _ => []
  | c :: rest, count =>
    { cluster := c
      position := clusterSector st c % U16
      num := st.s_bootInfo.secPerClus
      offset := (((st.s_bootInfo.bytsPerSec * st.s_bootInfo.secPerClus) % U32) * count) % U32
      byteRead :=
        (HAL_ReadMultiSector st (clusterSector st c % U16) st.s_bootInfo.secPerClus).byteRead }
      :: fileSteps st rest ((count + 1) % U16)


/-! ## Sample geometries -/

/-- A 1.44 MB floppy: 2880 sectors of 512 bytes, one sector per cluster, two FATs of 9
sectors, 224 root entries. -/
def floppyBoot : t_bootSector :=
  { bytsPerSec := 512, secPerClus := 1, rsvdSecCnt := 1, numFATs := 2, rootEntCnt := 224,
    FATsz := 9, totalSector := 2880, rootClus := 0 }

/-- A 16 MiB geometry: 32 reserved sectors, two FATs of 256 sectors, no fixed root. -/
def smallFat32Boot : t_bootSector :=
  { bytsPerSec := 512, secPerClus := 1, rsvdSecCnt := 32, numFATs := 2, rootEntCnt := 0,
    FATsz := 256, totalSector := 32768, rootClus := 2 }

/-- A 19.5 GiB FAT32 volume with 4 KiB clusters: 5 109 996 data clusters, whose FAT takes
40000 sectors. -/
def largeFat32Boot : t_bootSector :=
  { bytsPerSec := 512, secPerClus := 8, rsvdSecCnt := 32, numFATs := 2, rootEntCnt := 0,
    FATsz := 40000, totalSector := 40960000, rootClus := 2 }

/-! ## Sample images -/

/-- The image of `size` bytes whose bytes are listed in `table` (position, value); a position
that is not listed holds zero. -/
def diskOf (size : Nat) (table : List (Nat × Nat)) : Disk :=
  { size := size, byte := fun p => (table.lookup p).getD 0 }

/-- The two bytes of the 16-bit little-endian value `v` at position `pos`. -/
def put16 (pos v : Nat) : List (Nat × Nat) :=
  [(pos, v % 256), (pos + 1, v / 256 % 256)]

/-- The four bytes of the 32-bit little-endian value `v` at position `pos`. -/
def put32 (pos v : Nat) : List (Nat × Nat) :=
  [(pos, v % 256), (pos + 1, v / 256 % 256), (pos + 2, v / 65536 % 256),
   (pos + 3, v / 16777216 % 256)]

/-- The layout that `localEachRegion` computes for `floppyBoot`. -/
def floppyLocal : t_location :=
  { FATStartSector := 1, sectorInFAT := 18, rootDirStartSector := 19, sectorInRootDir := 14,
    dataStartSector := 33 }

/-- A floppy image.  Its first FAT starts at byte 512 and holds `0x56, 0x34, 0x12` at offsets
3 to 5 and the chain `5 → 6 → end` (entry 5 = `0x006`, entry 6 = `0xFFF`) at offsets 7 to 10.
Its root directory starts at byte `19 * 512 = 9728` and holds four noteworthy records: record 0
is a deleted archive file (first byte `0xE5`, attribute `0x20`), record 1 a long-name record
(first byte `A`, attribute `0x0F`), record 2 is all zero (first byte `0x00`), record 3 is the
directory `B` (attribute `0x10`, start cluster 5).  Cluster 5 (sector 36, byte 18432) starts
with the record of the archive file `C` (start cluster 7, 600 bytes); the second record of
cluster 6 (sector 37, byte 18944) is the read-only file `D`. -/
def fat12Disk : Disk :=
  diskOf (2880 * 512)
    [(512 + 3, 0x56), (512 + 4, 0x34), (512 + 5, 0x12),
     (512 + 7, 0x60), (512 + 8, 0x00), (512 + 9, 0xFF), (512 + 10, 0x0F),
     (9728, 0xE5), (9728 + 0x0B, 0x20),
     (9728 + 32, 0x41), (9728 + 32 + 0x0B, 0x0F),
     (9728 + 96, 0x42), (9728 + 96 + 0x0B, 0x10), (9728 + 96 + 0x1A, 5),
     (18432, 0x43), (18432 + 0x0B, 0x20), (18432 + 0x1A, 7), (18432 + 0x1C, 0x58),
     (18432 + 0x1D, 0x02),
     (18944 + 32, 0x44), (18944 + 32 + 0x0B, 0x01)]

/-- The record of the directory `B` of `fat12Disk`, decoded. -/
def entryB : t_direcroryEntry :=
  { fileName := [0x42, 0, 0, 0, 0, 0, 0, 0, 0, 0, 0], attributes := 0x10, writeTime := 0,
    writeDate := 0, startCluster := 5, fileSize := 0 }

/-- The record of the file `C` of `fat12Disk`, decoded. -/
def entryC : t_direcroryEntry :=
  { fileName := [0x43, 0, 0, 0, 0, 0, 0, 0, 0, 0, 0], attributes := 0x20, writeTime := 0,
    writeDate := 0, startCluster := 7, fileSize := 600 }

/-- The record of the file `D` of `fat12Disk`, decoded. -/
def entryD : t_direcroryEntry :=
  { fileName := [0x44, 0, 0, 0, 0, 0, 0, 0, 0, 0, 0], attributes := 0x01, writeTime := 0,
    writeDate := 0, startCluster := 0, fileSize := 0 }

/-- The state after initialisation on `fat12Disk`. -/
def fat12State : State :=
  { s_bootInfo := floppyBoot, s_local := floppyLocal, sizeSector := 512, disk := fat12Disk }

/-- A 127 MiB FAT16 volume: 65000 clusters of four 512-byte sectors, two FATs of 256 sectors,
512 root entries. -/
def fat16Boot : t_bootSector :=
  { bytsPerSec := 512, secPerClus := 4, rsvdSecCnt := 1, numFATs := 2, rootEntCnt := 512,
    FATsz := 256, totalSector := 260000, rootClus := 0 }

/-- The layout that `localEachRegion` computes for `fat16Boot`. -/
def fat16Local : t_location :=
  { FATStartSector := 1, sectorInFAT := 512, rootDirStartSector := 513, sectorInRootDir := 32,
    dataStartSector := 545 }

/-- An image of the FAT16 volume.  Its FAT starts at byte 512 and holds: entry 0 = `0xFFF8`
and entry 1 = `0xFFFF` (the two reserved entries), the chain `2 → 32770 → 32771 → end`,
entry 32768 = `0x1234`, and the one-cluster chain `20000 → end`.  Every other byte of the image
is zero. -/
def fat16Disk : Disk :=
  diskOf (260000 * 512)
    (put16 (512 + 2 * 0) 0xFFF8 ++ put16 (512 + 2 * 1) 0xFFFF ++
     put16 (512 + 2 * 2) 32770 ++ put16 (512 + 2 * 32770) 32771 ++
     put16 (512 + 2 * 32771) 0xFFFF ++ put16 (512 + 2 * 32768) 0x1234 ++
     put16 (512 + 2 * 20000) 0xFFFF)

/-- The state after initialisation on `fat16Disk`. -/
def fat16State : State :=
  { s_bootInfo := fat16Boot, s_local := fat16Local, sizeSector := 512, disk := fat16Disk }

/-- A second image of the FAT16 volume, whose FAT holds the entries
`[0xFFF8, 0xFFFF, 3, 4, 0xFFFF, 0]`: the chain `2 → 3 → 4 → end`. -/
def fat16ChainDisk : Disk :=
  diskOf (260000 * 512)
    (put16 (512 + 2 * 0) 0xFFF8 ++ put16 (512 + 2 * 1) 0xFFFF ++
     put16 (512 + 2 * 2) 3 ++ put16 (512 + 2 * 3) 4 ++ put16 (512 + 2 * 4) 0xFFFF)

/-- The state after initialisation on `fat16ChainDisk`. -/
def fat16ChainState : State :=
  { s_bootInfo := fat16Boot, s_local := fat16Local, sizeSector := 512, disk := fat16ChainDisk }

/-- A 64 MiB FAT32 volume: 131072 sectors of 512 bytes, one sector per cluster, 32 reserved
sectors, two FATs of 1024 sectors. -/
def fat32Boot : t_bootSector :=
  { bytsPerSec := 512, secPerClus := 1, rsvdSecCnt := 32, numFATs := 2, rootEntCnt := 0,
    FATsz := 1024, totalSector := 131072, rootClus := 2 }

/-- The layout that `localEachRegion` computes for `fat32Boot`. -/
def fat32Local : t_location :=
  { FATStartSector := 32, sectorInFAT := 2048, rootDirStartSector := 2080,
    sectorInRootDir := 0, dataStartSector := 2080 }

/-- An image of the FAT32 volume.  Its FAT starts at byte `32 * 512 = 16384` and holds:
entry 0 = `0x0FFFFFF8`, entry 1 = `0x0FFFFFFF`, entry 2 = end of chain, and entry 16384 =
16385.  Every other byte of the image is zero. -/
def fat32Disk : Disk :=
  diskOf (131072 * 512)
    (put32 (16384 + 4 * 0) 0x0FFFFFF8 ++ put32 (16384 + 4 * 1) 0x0FFFFFFF ++
     put32 (16384 + 4 * 2) 0x0FFFFFFF ++ put32 (16384 + 4 * 16384) 16385)

/-- The state after initialisation on `fat32Disk`. -/
def fat32State : State :=
  { s_bootInfo := fat32Boot, s_local := fat32Local, sizeSector := 512, disk := fat32Disk }

/-- A 34 GiB FAT32 volume with 512 KiB clusters: 8960000 sectors of 4096 bytes, 128 sectors
per cluster (70000 clusters), 32 reserved sectors, two FATs of 69 sectors. -/
def fat32LongBoot : t_bootSector :=
  { bytsPerSec := 4096, secPerClus := 128, rsvdSecCnt := 32, numFATs := 2, rootEntCnt := 0,
    FATsz := 69, totalSector := 8960000, rootClus := 2 }

/-- The layout that `localEachRegion` computes for `fat32LongBoot`. -/
def fat32LongLocal : t_location :=
  { FATStartSector := 32, sectorInFAT := 138, rootDirStartSector := 170, sectorInRootDir := 0,
    dataStartSector := 170 }

/-- Entry `e` of the FAT of `fat32LongDisk`: the chain `2 → 3 → ... → 8194 → end`. -/
def fat32LongEntry (e : Nat) : Nat :=
  if e < 2 then 0x0FFFFFFF else if e < 8194 then e + 1 else 0x0FFFFFFF

/-- An image of the volume `fat32LongBoot`.  Its FAT starts at byte `32 * 4096 = 131072`; the
first 8195 entries are those of `fat32LongEntry`, stored little-endian.  Every other byte of
the image is zero. -/
def fat32LongDisk : Disk :=
  { size := 8960000 * 4096
    byte := fun p =>
      if 131072 ≤ p ∧ p < 131072 + 4 * 8195 then
        (fat32LongEntry ((p - 131072) / 4) / 256 ^ ((p - 131072) % 4)) % 256
      else 0 }

/-- The state after initialisation on `fat32LongDisk`. -/
def fat32LongState : State :=
  { s_bootInfo := fat32LongBoot, s_local := fat32LongLocal, sizeSector := 4096,
    disk := fat32LongDisk }

/-! ## Sample boot sectors -/

/-- A floppy image whose sector 0 holds the fields of `floppyBoot`: 512 bytes per sector, one
sector per cluster, one reserved sector, two FATs, 224 root entries, 2880 sectors (16-bit
field), FAT size 9 (16-bit field). -/
def bootFloppyDisk : Disk :=
  diskOf (2880 * 512)
    (put16 0x0B 512 ++ [(0x0D, 1)] ++ put16 0x0E 1 ++ [(0x10, 2)] ++ put16 0x11 224 ++
     put16 0x13 2880 ++ put16 0x16 9)

/-- A FAT32 image whose sector 0 holds the fields of `fat32Boot`: both 16-bit fields (total
sectors, FAT size) are zero, the 32-bit fields hold 131072 sectors and a FAT size of 1024, the
root cluster is 2. -/
def bootFat32Disk : Disk :=
  diskOf (131072 * 512)
    (put16 0x0B 512 ++ [(0x0D, 1)] ++ put16 0x0E 32 ++ [(0x10, 2)] ++ put16 0x11 0 ++
     put16 0x13 0 ++ put16 0x16 0 ++ put32 0x20 131072 ++ put32 0x24 1024 ++ put32 0x2C 2)

/-- The boot sector of a 32 GiB FAT32 volume with 4 KiB clusters: 67108864 sectors, and a FAT
of 65536 sectors (8388608 entries for 8372220 clusters) in the 32-bit field at `0x24`. -/
def bootLargeFatDisk : Disk :=
  diskOf (67108864 * 512)
    (put16 0x0B 512 ++ [(0x0D, 8)] ++ put16 0x0E 32 ++ [(0x10, 2)] ++ put16 0x11 0 ++
     put16 0x13 0 ++ put16 0x16 0 ++ put32 0x20 67108864 ++ put32 0x24 65536 ++ put32 0x2C 2)

/-- The boot sector of the 19.5 GiB FAT32 volume of `largeFat32Boot`, whose root directory
starts at cluster 70000 (field at `0x2C`). -/
def bootHighRootDisk : Disk :=
  diskOf (40960000 * 512)
    (put16 0x0B 512 ++ [(0x0D, 8)] ++ put16 0x0E 32 ++ [(0x10, 2)] ++ put16 0x11 0 ++
     put16 0x13 0 ++ put16 0x16 0 ++ put32 0x20 40960000 ++ put32 0x24 40000 ++
     put32 0x2C 70000)

/-- An image whose boot sector announces 1000 bytes per sector (not a power of two); the other
fields are those of the floppy. -/
def bootOddSectorDisk : Disk :=
  diskOf (2880 * 1000)
    (put16 0x0B 1000 ++ [(0x0D, 1)] ++ put16 0x0E 1 ++ [(0x10, 2)] ++ put16 0x11 224 ++
     put16 0x13 2880 ++ put16 0x16 9)

/-- An image of 2880 sectors that holds only zero bytes. -/
def blankDisk : Disk :=
  diskOf (2880 * 512) []

/-! ## Further sample images -/

/-- An image of the 64 MiB FAT32 volume whose root directory is the one-cluster chain
`2 → end`; cluster 2 (sector 2080, byte 1064960) starts with the record of the archive file
`R`. -/
def fat32RootDisk : Disk :=
  diskOf (131072 * 512)
    (put32 (16384 + 4 * 0) 0x0FFFFFF8 ++ put32 (16384 + 4 * 1) 0x0FFFFFFF ++
     put32 (16384 + 4 * 2) 0x0FFFFFFF ++ [(1064960, 0x52), (1064960 + 0x0B, 0x20)])

/-- The state after initialisation on `fat32RootDisk` (root cluster 2). -/
def fat32RootState : State :=
  { s_bootInfo := fat32Boot, s_local := fat32Local, sizeSector := 512, disk := fat32RootDisk }

/-- The record of the file `R` of `fat32RootDisk`, decoded. -/
def entryR : t_direcroryEntry :=
  { fileName := [0x52, 0, 0, 0, 0, 0, 0, 0, 0, 0, 0], attributes := 0x20, writeTime := 0,
    writeDate := 0, startCluster := 0, fileSize := 0 }

/-- A 32-byte directory record: name `FILE    TXT`, attribute `0x20`, time bytes
`0x21, 0x84`, date bytes `0x5E, 0x59`, start cluster bytes `0x07, 0x00`, size bytes
`0x78, 0x56, 0x34, 0xF2` (top byte above `0x80`). -/
def sampleRecord : Nat → Nat := fun i =>
  (([0x46, 0x49, 0x4C, 0x45, 0x20, 0x20, 0x20, 0x20, 0x54, 0x58, 0x54, 0x20,
     0, 0, 0, 0, 0, 0, 0, 0, 0, 0, 0x21, 0x84, 0x5E, 0x59, 0x07, 0x00,
     0x78, 0x56, 0x34, 0xF2] : List Nat).getD i 0) % 256

/-- The floppy image cut off after sector 36: 37 sectors, so that cluster 5 (sector 36) is
present and cluster 6 (sector 37) lies behind the end of the image. -/
def truncatedDisk : Disk :=
  { size := 37 * 512, byte := fat12Disk.byte }

/-- The state after initialisation on `truncatedDisk`. -/
def truncatedState : State :=
  { s_bootInfo := floppyBoot, s_local := floppyLocal, sizeSector := 512, disk := truncatedDisk }

/-! ## Sample images for the walk and the reader -/

/-- A third image of the FAT16 volume, whose FAT holds the entries
`[0xFFF8, 0xFFFF, 3, 2]`: entry 2 points to cluster 3 and entry 3 back to cluster 2. -/
def fat16CycleDisk : Disk :=
  diskOf (260000 * 512)
    (put16 (512 + 2 * 0) 0xFFF8 ++ put16 (512 + 2 * 1) 0xFFFF ++
     put16 (512 + 2 * 2) 3 ++ put16 (512 + 2 * 3) 2)

/-- The state after initialisation on `fat16CycleDisk`. -/
def fat16CycleState : State :=
  { s_bootInfo := fat16Boot, s_local := fat16Local, sizeSector := 512, disk := fat16CycleDisk }

/-- The state after initialisation on the image of the 19.5 GiB volume (40960000 sectors of
512 bytes): the boot record that `initFileFAT` returns for `bootHighRootDisk` and the layout
that `localEachRegion` computes for it. -/
def largeState : State :=
  { s_bootInfo := { largeFat32Boot with rootClus := 4464 }
    s_local := { FATStartSector := 32, sectorInFAT := 14464, rootDirStartSector := 14496,
                 sectorInRootDir := 0, dataStartSector := 14496 }
    sizeSector := 512
    disk := bootHighRootDisk }

/-- The boot record of a FAT32 volume with 32 KiB clusters: 512-byte sectors, 64 sectors per
cluster, 16777216 sectors (8 GiB). -/
def fat32Cluster32KBoot : t_bootSector :=
  { bytsPerSec := 512, secPerClus := 64, rsvdSecCnt := 32, numFATs := 2, rootEntCnt := 0,
    FATsz := 2048, totalSector := 16777216, rootClus := 2 }

/-- The record `sampleRecord` with the bytes at offsets `0x14`, `0x15` (the high word of the
first cluster on FAT32) set to `0x34`, `0x12`. -/
def sampleRecordHigh : Nat → Nat := fun i =>
  if i = 0x14 then 0x34 else if i = 0x15 then 0x12 else sampleRecord i

/-- The floppy image of `bootFloppyDisk` with the byte at `0x0D` (sectors per cluster) set to
zero; the other fields of sector 0 are unchanged. -/
def bootZeroClusterDisk : Disk :=
  diskOf (2880 * 512)
    (put16 0x0B 512 ++ [(0x0D, 0)] ++ put16 0x0E 1 ++ [(0x10, 2)] ++ put16 0x11 224 ++
     put16 0x13 2880 ++ put16 0x16 9)

/-! # Properties -/

/-! ## Variant classification -/

/-- C1: when `secPerClus` is not zero, `fatType` returns a value, and with
`N = totalSector / secPerClus` that value is `FAT_12` exactly when `N < 4085`, `FAT_16` exactly
when `4085 ≤ N < 65525`, and `FAT_32` exactly in the remaining case `65525 ≤ N`. -/
theorem fatType_classification (b : t_bootSector) (h : b.secPerClus ≠ 0) :
    ∃ t, fatType b = .ok t ∧
      (t = FAT_12 ↔ b.totalSector / b.secPerClus < 4085) ∧
      (t = FAT_16 ↔ (4085 ≤ b.totalSector / b.secPerClus ∧
        b.totalSector / b.secPerClus < 65525)) ∧
      (t = FAT_32 ↔ ¬ (b.totalSector / b.secPerClus < 65525)) := by
  unfold fatType
  rw [if_neg h]
  by_cases h1 : b.totalSector / b.secPerClus < 4085
  · refine ⟨FAT_12, ?_, ?_, ?_, ?_⟩
    · simp [h1]
    · simp [h1]
    · constructor
      · intro h2; exact absurd h2 (by decide)
      · intro h2; omega
    · constructor
      · intro h2; exact absurd h2 (by decide)
      · intro h2; omega
  · by_cases h2 : b.totalSector / b.secPerClus < 65525
    · refine ⟨FAT_16, ?_, ?_, ?_, ?_⟩
      · simp [h1, h2]
      · constructor
        · intro h3; exact absurd h3 (by decide)
        · intro h3; omega
      · constructor
        · intro _; omega
        · intro _; rfl
      · constructor
        · intro h3; exact absurd h3 (by decide)
        · intro h3; omega
    · refine ⟨FAT_32, ?_, ?_, ?_, ?_⟩
      · simp [h1, h2]
      · constructor
        · intro h3; exact absurd h3 (by decide)
        · intro h3; omega
      · constructor
        · intro h3; exact absurd h3 (by decide)
        · intro h3; omega
      · constructor
        · intro _; exact h2
        · intro _; rfl

/-- The floppy geometry is classified: 2880 clusters, hence `FAT_12`. -/
theorem fatType_classification_witness :
    floppyBoot.secPerClus ≠ 0 ∧
    ∃ t, fatType floppyBoot = .ok t ∧
      (t = FAT_12 ↔ floppyBoot.totalSector / floppyBoot.secPerClus < 4085) ∧
      (t = FAT_16 ↔ (4085 ≤ floppyBoot.totalSector / floppyBoot.secPerClus ∧
        floppyBoot.totalSector / floppyBoot.secPerClus < 65525)) ∧
      (t = FAT_32 ↔ ¬ (floppyBoot.totalSector / floppyBoot.secPerClus < 65525)) :=
  ⟨by decide, fatType_classification floppyBoot (by decide)⟩

/-! ## Region layout -/

/-- The layout of the floppy geometry: the data region starts at sector `1 + 18 + 14 = 33`. -/
theorem localEachRegion_floppy :
    localEachRegion floppyBoot =
      .ok { FATStartSector := 1, sectorInFAT := 18, rootDirStartSector := 19,
            sectorInRootDir := 14, dataStartSector := 33 } := by
  decide

/-- The layout of the 16 MiB geometry: the data region starts at sector `32 + 512 = 544`. -/
theorem localEachRegion_smallFat32 :
    localEachRegion smallFat32Boot =
      .ok { FATStartSector := 32, sectorInFAT := 512, rootDirStartSector := 544,
            sectorInRootDir := 0, dataStartSector := 544 } := by
  decide

/-- As long as the sector size is a 16-bit value (it is parsed from a 16-bit field) and the
data region starts below sector `2 ^ 16`, the five fields that `localEachRegion` stores are the
exact sums and products of the layout. -/
theorem localEachRegion_exact (b : t_bootSector) (hr : b.InRange) (h0 : b.bytsPerSec ≠ 0)
    (hb : b.bytsPerSec < U16) (hfit : b.rsvdSecCnt + b.FATsz * b.numFATs
      + (32 * b.rootEntCnt + b.bytsPerSec - 1) / b.bytsPerSec < U16) :
    localEachRegion b =
      .ok { FATStartSector := b.rsvdSecCnt
            sectorInFAT := b.FATsz * b.numFATs
            rootDirStartSector := b.rsvdSecCnt + b.FATsz * b.numFATs
            sectorInRootDir := (32 * b.rootEntCnt + b.bytsPerSec - 1) / b.bytsPerSec
            dataStartSector := b.rsvdSecCnt + b.FATsz * b.numFATs
              + (32 * b.rootEntCnt + b.bytsPerSec - 1) / b.bytsPerSec } := by
  obtain ⟨h1, _, h3, _, h5, _, _, _⟩ := hr
  simp only [U16, U32] at h1 h3 h5 hfit hb
  have e1 : (32 * b.rootEntCnt) % 4294967296 = 32 * b.rootEntCnt := Nat.mod_eq_of_lt (by omega)
  have e2 : (b.bytsPerSec + 4294967296 - 1) % 4294967296 = b.bytsPerSec - 1 := by omega
  have e3 : (32 * b.rootEntCnt + (b.bytsPerSec - 1)) % 4294967296
      = 32 * b.rootEntCnt + b.bytsPerSec - 1 := by clear hfit; omega
  unfold localEachRegion
  simp only [U16, U32, SIZE_ROOT_ENTRY, if_neg h0]
  norm_num only [e1, e2, e3]
  generalize (32 * b.rootEntCnt + b.bytsPerSec - 1) / b.bytsPerSec = d at hfit ⊢
  generalize b.FATsz * b.numFATs = c at hfit ⊢
  have e4 : b.rsvdSecCnt % 65536 = b.rsvdSecCnt := Nat.mod_eq_of_lt (by omega)
  have e5 : c % 65536 = c := Nat.mod_eq_of_lt (by omega)
  have e6 : (b.rsvdSecCnt + c) % 65536 = b.rsvdSecCnt + c := Nat.mod_eq_of_lt (by omega)
  have e7 : d % 65536 = d := Nat.mod_eq_of_lt (by omega)
  have e8 : (b.rsvdSecCnt + c + d) % 65536 = b.rsvdSecCnt + c + d := Nat.mod_eq_of_lt (by omega)
  simp only [e4, e5, e6, e7, e8]

/-- The floppy geometry satisfies the hypotheses of `localEachRegion_exact`. -/
theorem localEachRegion_exact_witness :
    floppyBoot.InRange ∧ floppyBoot.bytsPerSec ≠ 0 ∧
    localEachRegion floppyBoot =
      .ok { FATStartSector := 1, sectorInFAT := 18, rootDirStartSector := 19,
            sectorInRootDir := 14, dataStartSector := 33 } :=
  ⟨by decide, by decide, localEachRegion_exact floppyBoot (by decide) (by decide) (by decide)
    (by decide)⟩

/-- C2, evaluated on a 19.5 GiB FAT32 geometry (FAT of 40000 sectors, two copies): every field
is in range and `bytsPerSec` is not zero, the variant is `FAT_32`, and `localEachRegion` stores
`sectorInFAT = 14464` and `rootDirStartSector = dataStartSector = 14496`, whereas the exact
values are `80000` and `80032`: the `uint16_t` fields of `t_location` keep only the low 16
bits. -/
theorem localEachRegion_largeFat32 :
    largeFat32Boot.InRange ∧ largeFat32Boot.bytsPerSec ≠ 0 ∧
    fatType largeFat32Boot = .ok FAT_32 ∧
    localEachRegion largeFat32Boot =
      .ok { FATStartSector := 32, sectorInFAT := 14464, rootDirStartSector := 14496,
            sectorInRootDir := 0, dataStartSector := 14496 } ∧
    largeFat32Boot.rsvdSecCnt + largeFat32Boot.FATsz * largeFat32Boot.numFATs = 80032 ∧
    largeFat32Boot.rsvdSecCnt + largeFat32Boot.FATsz * largeFat32Boot.numFATs
      + (32 * largeFat32Boot.rootEntCnt + largeFat32Boot.bytsPerSec - 1)
          / largeFat32Boot.bytsPerSec = 80032 := by
  decide

/-- Each sample state is what initialisation leaves behind for its geometry: every field of
the boot record holds a value of its C type, `s_local` is the layout that `localEachRegion`
computes, and the reader works with sectors of `bytsPerSec` bytes. -/
theorem sampleStates_initialised :
    (floppyBoot.InRange ∧ localEachRegion floppyBoot = .ok floppyLocal ∧
      fat12State.sizeSector = floppyBoot.bytsPerSec) ∧
    (fat16Boot.InRange ∧ localEachRegion fat16Boot = .ok fat16Local ∧
      fat16State.sizeSector = fat16Boot.bytsPerSec ∧
      fat16ChainState.sizeSector = fat16Boot.bytsPerSec) ∧
    (fat32Boot.InRange ∧ localEachRegion fat32Boot = .ok fat32Local ∧
      fat32State.sizeSector = fat32Boot.bytsPerSec) ∧
    (fat32LongBoot.InRange ∧ localEachRegion fat32LongBoot = .ok fat32LongLocal ∧
      fat32LongState.sizeSector = fat32LongBoot.bytsPerSec) := by
  decide

/-! ## FAT entry decoding -/

/-- The value of a byte shifted by at most 24 bits fits 32 bits. -/
theorem shift_byte_mod (x k : Nat) (hk : k ≤ 24) : ((x % 256) <<< k) % U32 = (x % 256) <<< k := by
  apply Nat.mod_eq_of_lt
  rw [Nat.shiftLeft_eq]
  have h1 : x % 256 < 256 := Nat.mod_lt _ (by decide)
  have h2 : 2 ^ k ≤ 2 ^ 24 := Nat.pow_le_pow_right (by decide) hk
  calc x % 256 * 2 ^ k < 256 * 2 ^ 24 := by
        apply Nat.mul_lt_mul_of_lt_of_le h1 h2 (by positivity)
    _ = U32 := by norm_num [U32]

/-- The bytes of the FAT region are bytes. -/
theorem fatByte_lt (st : State) (i : Nat) : fatByte st i < 256 := by
  unfold fatByte HAL_ReadMultiSector
  exact Nat.mod_lt _ (by decide)

/-- C3: on a FAT12 volume whose FAT region is read in full, for every cluster number `c` whose
entry offset `o = c + (c >> 1)` is a 16-bit value (every `c ≤ 43690`, so every 12-bit cluster
number) and whose two entry bytes `o`, `o + 1` lie inside the FAT region, `nextCluster c`
returns `bytes[o] | ((bytes[o+1] & 0x0F) << 8)` when `c` is even and
`(bytes[o] >> 4) | (bytes[o+1] << 4)` when `c` is odd. -/
theorem nextCluster_fat12 (st : State) (c : Nat)
    (hT : fatType st.s_bootInfo = .ok FAT_12) (hR : fatReadOk st)
    (hc : c + (c >>> 1) < U16) (hin : c + (c >>> 1) + 1 < fatBytes st) :
    nextCluster st c =
      .ok (if c % 2 = 0 then
            fatByte st (c + (c >>> 1)) ||| ((fatByte st (c + (c >>> 1) + 1) &&& 0x0F) <<< 8)
          else
            (fatByte st (c + (c >>> 1)) >>> 4) ||| (fatByte st (c + (c >>> 1) + 1) <<< 4)) := by
  unfold fatReadOk fatBytes at hR
  unfold fatBytes at hin
  have ho : ((c + (c >>> 1)) % U32) % U16 = c + (c >>> 1) := by
    simp only [U16, U32] at hc ⊢
    omega
  have hb1 : ((fatByte st (c + (c >>> 1) + 1) <<< 4) % U32)
      = fatByte st (c + (c >>> 1) + 1) <<< 4 := by
    have := shift_byte_mod (fatByte st (c + (c >>> 1) + 1)) 4 (by decide)
    rwa [Nat.mod_eq_of_lt (fatByte_lt _ _)] at this
  have hb2 : (((fatByte st (c + (c >>> 1) + 1) &&& 0x0F) <<< 8) % U32)
      = (fatByte st (c + (c >>> 1) + 1) &&& 0x0F) <<< 8 := by
    have hlt : fatByte st (c + (c >>> 1) + 1) &&& 0x0F < 256 :=
      lt_of_le_of_lt Nat.and_le_left (fatByte_lt _ _)
    have := shift_byte_mod (fatByte st (c + (c >>> 1) + 1) &&& 0x0F) 8 (by decide)
    rwa [Nat.mod_eq_of_lt hlt] at this
  unfold nextCluster
  simp only [hT, bind, Except.bind, hR, lt_irrefl, if_false, ne_eq, not_true_eq_false, if_true,
    ho, load]
  rw [if_pos (by omega), if_pos (by omega)]
  simp only [Nat.and_one_is_mod, SHIFT_4_BIT, SHIFT_8_BIT]
  by_cases hpar : c % 2 = 0
  · simp only [hpar, not_true_eq_false, if_false, if_true]
    exact congrArg Except.ok (congrArg _ hb2)
  · simp only [hpar, not_false_eq_true, if_true, if_false]
    exact congrArg Except.ok (congrArg _ hb1)

/-- Entries 2 and 3 of the sample FAT: bytes `0x56, 0x34, 0x12` at offsets 3 to 5 decode to
`0x456` and `0x123`. -/
theorem nextCluster_fat12_witness :
    (fatType fat12State.s_bootInfo = .ok FAT_12 ∧ fatReadOk fat12State ∧
      3 + (3 >>> 1) < U16 ∧ 3 + (3 >>> 1) + 1 < fatBytes fat12State) ∧
    fatByte fat12State 3 = 0x56 ∧ fatByte fat12State 4 = 0x34 ∧ fatByte fat12State 5 = 0x12 ∧
    nextCluster fat12State 2 = .ok 0x456 ∧ nextCluster fat12State 3 = .ok 0x123 :=
  ⟨by decide, by decide, by decide, by decide,
   (nextCluster_fat12 fat12State 2 (by decide) (by decide) (by decide) (by decide)).trans
      (by decide),
   (nextCluster_fat12 fat12State 3 (by decide) (by decide) (by decide) (by decide)).trans
      (by decide)⟩

/-- On a FAT16 volume whose FAT region is read in full, `nextCluster c` is the little-endian
16-bit value at the 16-bit offset `c * 2 mod 65536` of the region. -/
theorem nextCluster_fat16 (st : State) (c : Nat)
    (hT : fatType st.s_bootInfo = .ok FAT_16) (hR : fatReadOk st)
    (hin : (c * 2) % U16 + 1 < fatBytes st) :
    nextCluster st c =
      .ok (fatByte st ((c * 2) % U16) ||| (fatByte st ((c * 2) % U16 + 1) <<< 8)) := by
  unfold fatReadOk fatBytes at hR
  unfold fatBytes at hin
  have ho : ((c * 2) % U32) % U16 = (c * 2) % U16 := by
    simp only [U16, U32]; omega
  have hb1 : ((fatByte st ((c * 2) % U16 + 1) <<< 8) % U32)
      = fatByte st ((c * 2) % U16 + 1) <<< 8 := by
    have := shift_byte_mod (fatByte st ((c * 2) % U16 + 1)) 8 (by decide)
    rwa [Nat.mod_eq_of_lt (fatByte_lt _ _)] at this
  unfold nextCluster
  simp only [hT, bind, Except.bind, hR, lt_irrefl, if_false, ne_eq, not_true_eq_false, if_true,
    ho, load, eq_false (by decide : ¬ FAT_16 = FAT_12)]
  rw [if_pos (by omega), if_pos (by omega)]
  exact congrArg Except.ok (congrArg _ hb1)

/-- On a FAT32 volume whose FAT region is read in full, `nextCluster c` is the little-endian
32-bit value at the 16-bit offset `c * 4 mod 65536` of the region, without its top four
bits. -/
theorem nextCluster_fat32 (st : State) (c : Nat)
    (hT : fatType st.s_bootInfo = .ok FAT_32) (hR : fatReadOk st)
    (hin : (c * 4) % U16 + 3 < fatBytes st) :
    nextCluster st c =
      .ok (fatByte st ((c * 4) % U16) ||| (fatByte st ((c * 4) % U16 + 1) <<< 8)
        ||| (fatByte st ((c * 4) % U16 + 2) <<< 16)
        ||| ((fatByte st ((c * 4) % U16 + 3) &&& 0x0F) <<< 24)) := by
  unfold fatReadOk fatBytes at hR
  unfold fatBytes at hin
  have ho : ((c * 4) % U32) % U16 = (c * 4) % U16 := by
    simp only [U16, U32]; omega
  have hb1 : ((fatByte st ((c * 4) % U16 + 1) <<< 8) % U32)
      = fatByte st ((c * 4) % U16 + 1) <<< 8 := by
    have := shift_byte_mod (fatByte st ((c * 4) % U16 + 1)) 8 (by decide)
    rwa [Nat.mod_eq_of_lt (fatByte_lt _ _)] at this
  have hb2 : ((fatByte st ((c * 4) % U16 + 2) <<< 16) % U32)
      = fatByte st ((c * 4) % U16 + 2) <<< 16 := by
    have := shift_byte_mod (fatByte st ((c * 4) % U16 + 2)) 16 (by decide)
    rwa [Nat.mod_eq_of_lt (fatByte_lt _ _)] at this
  have hb3 : (((fatByte st ((c * 4) % U16 + 3) &&& 0x0F) <<< 24) % U32)
      = (fatByte st ((c * 4) % U16 + 3) &&& 0x0F) <<< 24 := by
    have hlt : fatByte st ((c * 4) % U16 + 3) &&& 0x0F < 256 :=
      lt_of_le_of_lt Nat.and_le_left (fatByte_lt _ _)
    have := shift_byte_mod (fatByte st ((c * 4) % U16 + 3) &&& 0x0F) 24 (by decide)
    rwa [Nat.mod_eq_of_lt hlt] at this
  unfold nextCluster
  simp only [hT, bind, Except.bind, hR, lt_irrefl, if_false, ne_eq, not_true_eq_false, if_true,
    ho, load, eq_false (by decide : ¬ FAT_32 = FAT_12), eq_false (by decide : ¬ FAT_32 = FAT_16)]
  rw [if_pos (by omega), if_pos (by omega), if_pos (by omega), if_pos (by omega)]
  simp only [SHIFT_8_BIT, SHIFT_16_BIT, SHIFT_24_BIT, fatByte] at hb1 hb2 hb3 ⊢
  rw [hb1, hb2, hb3]

/-- C4, evaluated on a FAT16 volume whose FAT region (131072 bytes) is read in full: entry
32768 lies inside it, at byte offsets 65536 and 65537, and holds `0x1234`; `nextCluster 32768`
returns `0xFFF8`, the value of entry 0, because the `uint16_t` offset `32768 * 2` is `0`. -/
theorem nextCluster_fat16_wraps :
    fatType fat16State.s_bootInfo = .ok FAT_16 ∧ fatReadOk fat16State ∧
    32768 * 2 + 1 < fatBytes fat16State ∧
    (fatByte fat16State (32768 * 2) ||| (fatByte fat16State (32768 * 2 + 1) <<< 8)) = 0x1234 ∧
    (fatByte fat16State 0 ||| (fatByte fat16State 1 <<< 8)) = 0xFFF8 ∧
    nextCluster fat16State 32768 = .ok 0xFFF8 := by
  decide

/-- C5, evaluated on a FAT32 volume whose FAT region (524288 bytes) is read in full: entry
16384 lies inside it, at byte offsets 65536 to 65539, and holds 16385; `nextCluster 16384`
returns `0x0FFFFFF8`, the value of entry 0, because the `uint16_t` offset `16384 * 4` is `0`. -/
theorem nextCluster_fat32_wraps :
    fatType fat32State.s_bootInfo = .ok FAT_32 ∧ fatReadOk fat32State ∧
    16384 * 4 + 3 < fatBytes fat32State ∧
    (fatByte fat32State (16384 * 4) ||| (fatByte fat32State (16384 * 4 + 1) <<< 8)
      ||| (fatByte fat32State (16384 * 4 + 2) <<< 16)
      ||| ((fatByte fat32State (16384 * 4 + 3) &&& 0x0F) <<< 24)) = 16385 ∧
    nextCluster fat32State 16384 = .ok 0x0FFFFFF8 := by
  decide

/-! ## Directory scanning -/

/-- The loop of `readDirEntry` over a block whose size is a multiple of 32, started at record
`j`: it returns, and appends the kept records `j, j + 1, ...` in that order. -/
theorem readDirLoop_eq (sz : Nat) (buff : Nat → Nat) (hsz : sz < U32) (hdiv : 32 ∣ sz) :
    ∀ (fuel j : Nat) (head : List t_direcroryEntry), j ≤ sz / 32 → sz / 32 - j ≤ fuel →
      readDirLoop sz buff fuel (32 * j) head =
        .ok (head ++ ((List.range' j (sz / 32 - j)).map
          (fun k => decodeDirEntry buff (32 * k))).filter (fun e => keepNode e)) := by
  obtain ⟨n, rfl⟩ := hdiv
  have hn : 32 * n / 32 = n := Nat.mul_div_cancel_left n (by decide)
  rw [hn]
  intro fuel
  induction fuel with
  | zero =>
    intro j head hj hf
    have : j = n := by omega
    subst this
    simp [readDirLoop]
  | succ fuel ih =>
    intro j head hj hf
    by_cases hjn : j = n
    · subst hjn
      simp [readDirLoop]
    · have hlt : j < n := lt_of_le_of_ne hj hjn
      have h1 : 32 * j < 32 * n := by omega
      have h2 : 32 * j + 32 ≤ 32 * n := by omega
      have h3 : (32 * j + SIZE_ROOT_ENTRY) % U32 = 32 * (j + 1) := by
        simp only [U32, SIZE_ROOT_ENTRY] at hsz ⊢
        omega
      have h4 : n - j = (n - (j + 1)) + 1 := by omega
      rw [readDirLoop, if_pos h1]
      simp only [createNewNodeAsDirEntry, if_pos h2, h3]
      rw [ih (j + 1) _ (by omega) (by omega), h4, List.range'_succ]
      by_cases hk : keepNode (decodeDirEntry buff (32 * j)) = true
      · simp [hk, List.filter_cons]
      · simp [hk, List.filter_cons]

/-- The loop of `readDirEntry` as the function starts it. -/
theorem readDirLoop_scan (sz : Nat) (buff : Nat → Nat) (hsz : sz < U32) (hdiv : 32 ∣ sz)
    (head : List t_direcroryEntry) :
    readDirLoop sz buff sz 0 head = .ok (head ++ scanRecords sz buff) := by
  have h := readDirLoop_eq sz buff hsz hdiv sz 0 head (Nat.zero_le _)
    (by have := Nat.div_le_self sz 32; omega)
  simp only [Nat.mul_zero, Nat.sub_zero] at h
  rw [h, scanRecords, List.range_eq_range']

/-- The function `readDirEntry` in closed form, when the read does not overrun the block. -/
theorem readDirEntry_eq (st : State) (head : List t_direcroryEntry) (startEntry num : Nat)
    (hn : readDirNum st startEntry = .ok num)
    (hle : (HAL_ReadMultiSector st startEntry num).byteRead
      ≤ (st.s_bootInfo.bytsPerSec * num) % U32)
    (hdiv : 32 ∣ (st.s_bootInfo.bytsPerSec * num) % U32) :
    readDirEntry st head startEntry = .ok (head ++ dirRecords st startEntry num) := by
  have hlt : (st.s_bootInfo.bytsPerSec * num) % U32 < U32 := Nat.mod_lt _ (by decide)
  unfold readDirEntry dirRecords
  simp only [hn, not_lt.mpr hle, if_false]
  by_cases hr : (HAL_ReadMultiSector st startEntry num).byteRead
      = (st.s_bootInfo.bytsPerSec * num) % U32
  · simp only [hr, ne_eq, not_true_eq_false, if_false, if_true]
    exact readDirLoop_scan _ _ hlt hdiv head
  · simp only [hr, ne_eq, not_false_eq_true, if_true, if_false, List.append_nil]

/-- The first name byte of a decoded record. -/
theorem decodeDirEntry_head (buff : Nat → Nat) (index : Nat) :
    (decodeDirEntry buff index).fileName.head? = some (buff index) := by
  simp [decodeDirEntry, List.range, List.range.loop]

/-- The test of `readDirEntry` on a decoded record, in terms of the bytes of the record. -/
theorem keepNode_decode (buff : Nat → Nat) (index : Nat) :
    keepNode (decodeDirEntry buff index) =
      decide (buff index ≠ 0x00 ∧ buff index ≠ 0xE5 ∧
        (buff (index + 0x0B) = 0x00 ∨ buff (index + 0x0B) = 0x01 ∨
          buff (index + 0x0B) = 0x10 ∨ buff (index + 0x0B) = 0x20)) := by
  unfold keepNode
  rw [decodeDirEntry_head]
  simp only [decodeDirEntry, ATTR_DIRECTORY, ATTR_FILE, ATTR_READ_ONLY, ATTR_ARCHIVE,
    INVALID_FILE_NAME, DELETED_FILE_NAME]
  by_cases h0 : buff index = 0 <;> by_cases h1 : buff index = 229 <;>
    by_cases a0 : buff (index + 11) = 0 <;> by_cases a1 : buff (index + 11) = 1 <;>
    by_cases a2 : buff (index + 11) = 16 <;> by_cases a3 : buff (index + 11) = 32 <;>
    simp [h0, h1, a0, a1, a2, a3]

/-- The kept records of a block, selected by the bytes of each record. -/
theorem scanRecords_eq (sz : Nat) (buff : Nat → Nat) :
    scanRecords sz buff =
      ((List.range (sz / 32)).filter (fun k =>
        decide (buff (32 * k) ≠ 0x00 ∧ buff (32 * k) ≠ 0xE5 ∧
          (buff (32 * k + 0x0B) = 0x00 ∨ buff (32 * k + 0x0B) = 0x01 ∨
            buff (32 * k + 0x0B) = 0x10 ∨ buff (32 * k + 0x0B) = 0x20)))).map
        (fun k => decodeDirEntry buff (32 * k)) := by
  unfold scanRecords
  rw [List.filter_map]
  congr 1
  apply List.filter_congr
  intro k _
  simp only [Function.comp, keepNode_decode]

/-- C7: when `readDirEntry` reads a block of `L` bytes in full (`L` a multiple of 32), the list
after the call is the list before it followed by the decoded records `k < L / 32` whose first
name byte is neither `0x00` nor `0xE5` and whose attribute byte (offset `0x0B`) is one of
`0x00`, `0x01`, `0x10`, `0x20`, and by no other record.  Hence no appended record starts with
`0x00` or `0xE5` or has attribute `0x0F`, `0x08`, `0x02` or `0x04`, and a record that passes the
test is appended also when an earlier record of the block starts with `0x00`. -/
theorem readDirEntry_filter (st : State) (head : List t_direcroryEntry) (startEntry num : Nat)
    (hn : readDirNum st startEntry = .ok num)
    (hr : (HAL_ReadMultiSector st startEntry num).byteRead
      = (st.s_bootInfo.bytsPerSec * num) % U32)
    (hdiv : 32 ∣ (st.s_bootInfo.bytsPerSec * num) % U32) :
    ∃ appended,
      readDirEntry st head startEntry = .ok (head ++ appended) ∧
      appended =
        ((List.range ((st.s_bootInfo.bytsPerSec * num) % U32 / 32)).filter (fun k =>
          decide ((HAL_ReadMultiSector st startEntry num).buff (32 * k) ≠ 0x00 ∧
            (HAL_ReadMultiSector st startEntry num).buff (32 * k) ≠ 0xE5 ∧
            ((HAL_ReadMultiSector st startEntry num).buff (32 * k + 0x0B) = 0x00 ∨
              (HAL_ReadMultiSector st startEntry num).buff (32 * k + 0x0B) = 0x01 ∨
              (HAL_ReadMultiSector st startEntry num).buff (32 * k + 0x0B) = 0x10 ∨
              (HAL_ReadMultiSector st startEntry num).buff (32 * k + 0x0B) = 0x20)))).map
          (fun k => decodeDirEntry (HAL_ReadMultiSector st startEntry num).buff (32 * k)) ∧
      (∀ e ∈ appended,
        e.fileName.head? ≠ some 0x00 ∧ e.fileName.head? ≠ some 0xE5 ∧
        e.attributes ≠ 0x0F ∧ e.attributes ≠ 0x08 ∧ e.attributes ≠ 0x02 ∧
        e.attributes ≠ 0x04) ∧
      (∀ j k, j < k → k < (st.s_bootInfo.bytsPerSec * num) % U32 / 32 →
        (HAL_ReadMultiSector st startEntry num).buff (32 * j) = 0x00 →
        (HAL_ReadMultiSector st startEntry num).buff (32 * k) ≠ 0x00 →
        (HAL_ReadMultiSector st startEntry num).buff (32 * k) ≠ 0xE5 →
        ((HAL_ReadMultiSector st startEntry num).buff (32 * k + 0x0B) = 0x00 ∨
          (HAL_ReadMultiSector st startEntry num).buff (32 * k + 0x0B) = 0x01 ∨
          (HAL_ReadMultiSector st startEntry num).buff (32 * k + 0x0B) = 0x10 ∨
          (HAL_ReadMultiSector st startEntry num).buff (32 * k + 0x0B) = 0x20) →
        decodeDirEntry (HAL_ReadMultiSector st startEntry num).buff (32 * k) ∈ appended) := by
  refine ⟨dirRecords st startEntry num, readDirEntry_eq st head startEntry num hn (le_of_eq hr)
    hdiv, ?_, ?_, ?_⟩
  · rw [dirRecords, if_pos hr, scanRecords_eq]
  · intro e he
    rw [dirRecords, if_pos hr, scanRecords_eq] at he
    obtain ⟨k, hk, rfl⟩ := List.mem_map.mp he
    have hk2 := (List.mem_filter.mp hk).2
    simp only [decide_eq_true_eq] at hk2
    obtain ⟨h0, h1, ha⟩ := hk2
    rw [decodeDirEntry_head]
    refine ⟨fun h => h0 (Option.some.inj h), fun h => h1 (Option.some.inj h), ?_⟩
    simp only [decodeDirEntry]
    rcases ha with ha | ha | ha | ha <;> rw [ha] <;> decide
  · intro j k _ hk _ h0 h1 ha
    rw [dirRecords, if_pos hr, scanRecords_eq]
    apply List.mem_map.mpr
    refine ⟨k, List.mem_filter.mpr ⟨List.mem_range.mpr hk, ?_⟩, rfl⟩
    simp only [decide_eq_true_eq]
    exact ⟨h0, h1, ha⟩

/-- The root directory of the sample floppy (14 sectors, 224 records) satisfies the hypotheses
of `readDirEntry_filter`; of its records only the directory `B` is appended: the deleted file
and the long-name record are skipped, and `B` is appended although the record before it starts
with `0x00`. -/
theorem readDirEntry_filter_witness :
    (readDirNum fat12State 19 = .ok 14 ∧
      (HAL_ReadMultiSector fat12State 19 14).byteRead
        = (fat12State.s_bootInfo.bytsPerSec * 14) % U32 ∧
      32 ∣ (fat12State.s_bootInfo.bytsPerSec * 14) % U32) ∧
    (∃ appended,
      readDirEntry fat12State [] 19 = .ok ([] ++ appended) ∧
      ∀ e ∈ appended,
        e.fileName.head? ≠ some 0x00 ∧ e.fileName.head? ≠ some 0xE5 ∧
        e.attributes ≠ 0x0F ∧ e.attributes ≠ 0x08 ∧ e.attributes ≠ 0x02 ∧
        e.attributes ≠ 0x04) ∧
    readDirEntry fat12State [] 19 = .ok [entryB] :=
  ⟨⟨by decide, by decide, by decide⟩,
   (readDirEntry_filter fat12State [] 19 14 (by decide) (by decide) (by decide)).imp
     (fun _ h => ⟨h.1, h.2.2.1⟩),
   by decide!⟩

/-! ## Chain walks -/

/-- The loop of `loadFile` stops at once at a value that is not below the bound. -/
theorem loadFileLoop_done (st : State) (last fuel temp count : Nat) (h : ¬ temp < last) :
    loadFileLoop st last fuel temp count = .ok [] := by
  cases fuel <;> simp [loadFileLoop, h]

/-- The loop of `loadDirEntry` stops at once at a value that is not below the bound. -/
theorem loadDirLoop_done (st : State) (last fuel temp : Nat) (head : List t_direcroryEntry)
    (h : ¬ temp < last) : loadDirLoop st last fuel temp head = .ok ([], head) := by
  cases fuel <;> simp [loadDirLoop, h]

/-- A one-cluster chain: the cluster is below the bound and its successor is not. -/
theorem IsChain_single (st : State) (last c : Nat) (h : IsChain st last [c]) :
    c < last ∧ ∃ e, nextCluster st c = .ok e ∧ last ≤ e := by
  unfold IsChain at h
  refine ⟨h.1, ?_⟩
  cases hc : nextCluster st c with
  | error e => rw [hc] at h; exact absurd h.2 id
  | ok e => rw [hc] at h; exact ⟨e, rfl, h.2⟩

/-- Along a chain, the loop of `loadFile` returns and makes one iteration per cluster, in
order. -/
theorem loadFileLoop_chain (st : State) (last : Nat) :
    ∀ (rest : List Nat) (c fuel count : Nat), IsChain st last (c :: rest) →
      rest.length + 1 ≤ fuel →
      loadFileLoop st last fuel c count = .ok (fileSteps st (c :: rest) count) := by
  intro rest
  induction rest with
  | nil =>
    intro c fuel count hch hf
    obtain ⟨hlt, e, he, hle⟩ := IsChain_single st last c hch
    obtain ⟨f, rfl⟩ : ∃ f, fuel = f + 1 := ⟨fuel - 1, by simp at hf; omega⟩
    rw [loadFileLoop, if_pos hlt]
    simp only [he, loadFileLoop_done st last f e _ (not_lt.mpr hle), fileSteps]
  | cons d rest ih =>
    intro c fuel count hch hf
    unfold IsChain at hch
    obtain ⟨hlt, hd, hrest⟩ := hch
    obtain ⟨f, rfl⟩ : ∃ f, fuel = f + 1 := ⟨fuel - 1, by simp at hf; omega⟩
    rw [loadFileLoop, if_pos hlt]
    simp only [hd, ih d f _ hrest (by simp at hf ⊢; omega)]
    simp only [fileSteps]

/-- The clusters of the iterations listed by `fileSteps`. -/
theorem fileSteps_cluster (st : State) :
    ∀ (cs : List Nat) (count : Nat), (fileSteps st cs count).map (fun x => x.cluster) = cs := by
  intro cs
  induction cs with
  | nil => intro count; rfl
  | cons c rest ih => intro count; simp only [fileSteps, List.map_cons, ih]

/-- Along a chain for the decoder, `loadFile` returns; it visits exactly the clusters of the
chain, in order. -/
theorem loadFile_chain (st : State) (t : Nat) (hT : fatType st.s_bootInfo = .ok t)
    (c : Nat) (rest : List Nat) (hch : IsChain st (thisLastCluster t) (c :: rest))
    (fuel : Nat) (hf : rest.length + 1 ≤ fuel) :
    loadFile st fuel c = .ok (fileSteps st (c :: rest) 0) ∧
    (fileSteps st (c :: rest) 0).map (fun x => x.cluster) = c :: rest := by
  refine ⟨?_, fileSteps_cluster st _ _⟩
  unfold loadFile
  simp only [hT]
  exact loadFileLoop_chain st _ rest c fuel 0 hch hf

/-- The chain `2 → 3 → 4 → end` of the second FAT16 image satisfies the hypotheses of
`loadFile_chain`, and the walk visits `[2, 3, 4]`. -/
theorem loadFile_chain_witness :
    fatType fat16ChainState.s_bootInfo = .ok FAT_16 ∧
    IsChain fat16ChainState (thisLastCluster FAT_16) [2, 3, 4] ∧
    (loadFile fat16ChainState 3 2 = .ok (fileSteps fat16ChainState [2, 3, 4] 0) ∧
      (fileSteps fat16ChainState [2, 3, 4] 0).map (fun x => x.cluster) = [2, 3, 4]) :=
  ⟨by decide, by decide,
   loadFile_chain fat16ChainState FAT_16 (by decide) 2 [3, 4] (by decide) 3 (by decide)⟩

/-- The switch of `readDirEntry` yields a sector count whenever the variant is defined. -/
theorem readDirNum_ok (st : State) (t : Nat) (hT : fatType st.s_bootInfo = .ok t)
    (startEntry : Nat) : ∃ num, readDirNum st startEntry = .ok num := by
  unfold readDirNum
  simp only [hT]
  split_ifs <;> exact ⟨_, rfl⟩

/-- With the sector size of the reader equal to `bytsPerSec` and a multiple of 32, the call
`readDirEntry(head, clusterSector x)` returns and appends the records of cluster `x`. -/
theorem readDirEntry_cluster (st : State) (t : Nat) (hT : fatType st.s_bootInfo = .ok t)
    (hs : st.sizeSector = st.s_bootInfo.bytsPerSec) (hdiv : 32 ∣ st.s_bootInfo.bytsPerSec)
    (head : List t_direcroryEntry) (x : Nat) :
    readDirEntry st head (clusterSector st x) = .ok (head ++ clusterRecords st x) := by
  obtain ⟨num, hn⟩ := readDirNum_ok st t hT (clusterSector st x)
  have hd : 32 ∣ (st.s_bootInfo.bytsPerSec * num) % U32 :=
    (Nat.dvd_mod_iff (by decide : 32 ∣ U32)).mpr (Dvd.dvd.mul_right hdiv num)
  have hle : (HAL_ReadMultiSector st (clusterSector st x) num).byteRead
      ≤ (st.s_bootInfo.bytsPerSec * num) % U32 := by
    simp only [HAL_ReadMultiSector, hs]
    exact Nat.min_le_left _ _
  rw [readDirEntry_eq st head _ num hn hle hd, clusterRecords, hn]

/-- Along a chain of nonzero clusters, the loop of `loadDirEntry` returns, makes one iteration
per cluster in order, and appends the records of the clusters in that order. -/
theorem loadDirLoop_chain (st : State) (t : Nat) (hT : fatType st.s_bootInfo = .ok t)
    (hs : st.sizeSector = st.s_bootInfo.bytsPerSec) (hdiv : 32 ∣ st.s_bootInfo.bytsPerSec)
    (last : Nat) :
    ∀ (rest : List Nat) (c fuel : Nat) (head : List t_direcroryEntry),
      IsChain st last (c :: rest) → (∀ x ∈ c :: rest, x ≠ 0) → rest.length + 1 ≤ fuel →
      loadDirLoop st last fuel c head =
        .ok ((c :: rest).map (fun x => { cluster := x, startEntry := clusterSector st x }),
             head ++ ((c :: rest).map (fun x => clusterRecords st x)).flatten) := by
  intro rest
  induction rest with
  | nil =>
    intro c fuel head hch hnz hf
    obtain ⟨hlt, e, he, hle⟩ := IsChain_single st last c hch
    obtain ⟨f, rfl⟩ : ∃ f, fuel = f + 1 := ⟨fuel - 1, by simp at hf; omega⟩
    have hc0 : c ≠ 0 := hnz c (List.mem_cons_self _ _)
    rw [loadDirLoop, if_pos hlt]
    simp only [if_neg hc0, he, readDirEntry_cluster st t hT hs hdiv,
      loadDirLoop_done st last f e _ (not_lt.mpr hle)]
    simp
  | cons d rest ih =>
    intro c fuel head hch hnz hf
    unfold IsChain at hch
    obtain ⟨hlt, hd, hrest⟩ := hch
    obtain ⟨f, rfl⟩ : ∃ f, fuel = f + 1 := ⟨fuel - 1, by simp at hf; omega⟩
    have hc0 : c ≠ 0 := hnz c (List.mem_cons_self _ _)
    have hnz2 : ∀ x ∈ d :: rest, x ≠ 0 := fun x hx => hnz x (List.mem_cons_of_mem _ hx)
    rw [loadDirLoop, if_pos hlt]
    simp only [if_neg hc0, hd, readDirEntry_cluster st t hT hs hdiv,
      ih d f _ hrest hnz2 (by simp at hf ⊢; omega)]
    simp

/-- C6, evaluated on a FAT16 volume whose FAT region is read in full and whose entries link
`2 → 32770 → 32771 → end` (three distinct clusters, all at least 2 and below `0xFFF8`, the
entry of the last one `0xFFFF`): started at cluster 2, neither the walk of `loadFile` nor the
walk of `loadDirEntry` ever stops, whatever the number of iterations allowed.  After cluster
32770 the decoder reads the entry at the 16-bit offset `32770 * 2 mod 65536 = 4`, which is
entry 2 again, so the walk visits `2, 32770, 32770, 32770, ...`. -/
theorem chainWalk_fat16_high_cluster :
    fatType fat16State.s_bootInfo = .ok FAT_16 ∧ fatReadOk fat16State ∧
    32771 * 2 + 1 < fatBytes fat16State ∧
    LITTLE_ENDIAN (fatByte fat16State (2 * 2)) (fatByte fat16State (2 * 2 + 1)) = 32770 ∧
    LITTLE_ENDIAN (fatByte fat16State (32770 * 2)) (fatByte fat16State (32770 * 2 + 1))
      = 32771 ∧
    LITTLE_ENDIAN (fatByte fat16State (32771 * 2)) (fatByte fat16State (32771 * 2 + 1))
      = 0xFFFF ∧
    nextCluster fat16State 2 = .ok 32770 ∧
    nextCluster fat16State 32770 = .ok 32770 ∧
    (∀ fuel, loadFile fat16State fuel 2 = .error .outOfFuel) ∧
    (∀ fuel head, loadDirEntry fat16State fuel head 2 = .error .outOfFuel) := by
  have hT : fatType fat16State.s_bootInfo = .ok FAT_16 := by decide
  have h2 : nextCluster fat16State 2 = .ok 32770 := by decide
  have h3 : nextCluster fat16State 32770 = .ok 32770 := by decide
  have hlast : thisLastCluster FAT_16 = 65528 := by decide
  have hF : ∀ fuel count, loadFileLoop fat16State 65528 fuel 32770 count
      = .error .outOfFuel := by
    intro fuel
    induction fuel with
    | zero => intro count; simp [loadFileLoop]
    | succ f ih =>
      intro count
      rw [loadFileLoop, if_pos (by decide)]
      simp only [h3, ih]
  have hD : ∀ fuel head, loadDirLoop fat16State 65528 fuel 32770 head
      = .error .outOfFuel := by
    intro fuel
    induction fuel with
    | zero => intro head; simp [loadDirLoop]
    | succ f ih =>
      intro head
      rw [loadDirLoop, if_pos (by decide)]
      simp only [if_neg (by decide : ¬ (32770 : Nat) = 0), h3,
        readDirEntry_cluster fat16State FAT_16 hT rfl (by decide), ih]
  refine ⟨hT, by decide, by decide, by decide, by decide, by decide, h2, h3, ?_, ?_⟩
  · intro fuel
    unfold loadFile
    simp only [hT, hlast]
    cases fuel with
    | zero => simp [loadFileLoop]
    | succ f =>
      rw [loadFileLoop, if_pos (by decide)]
      simp only [h2, hF]
  · intro fuel head
    unfold loadDirEntry
    simp only [hT, hlast]
    rw [if_neg (by decide)]
    cases fuel with
    | zero => simp [loadDirLoop]
    | succ f =>
      rw [loadDirLoop, if_pos (by decide)]
      simp only [if_neg (by decide : ¬ (2 : Nat) = 0), h2,
        readDirEntry_cluster fat16State FAT_16 hT rfl (by decide), hD]

/-- The chain walk on the FAT16 entries `[_, _, 3, 4, 0xFFFF, _]` from cluster 2: `loadFile`
and `loadDirEntry` both visit `[2, 3, 4]` and stop. -/
theorem chainWalk_fat16_scenario :
    (loadFile fat16ChainState 3 2).map (fun steps => steps.map (fun x => x.cluster))
      = .ok [2, 3, 4] ∧
    (loadDirEntry fat16ChainState 3 [] 2).map (fun r => r.1.map (fun x => x.cluster))
      = .ok [2, 3, 4] := by
  constructor
  · decide
  · decide!

/-- C10, evaluated on the FAT16 volume (`dataStartSector = 545`, four sectors per cluster) at
the one-cluster chain `20000 → end`: the cluster starts at sector
`545 + (20000 - 2) * 4 = 80537`; `loadDirEntry` hands `readDirEntry` the sector `80537`, and
`readDirEntry` reads four sectors there; `loadFile` reads four sectors at sector `15001`, the
low 16 bits of `80537`, because its variable `position` is a `uint16_t`. -/
theorem loadFile_position_truncates :
    fatType fat16State.s_bootInfo = .ok FAT_16 ∧
    fat16State.s_local.dataStartSector + (20000 - 2) * fat16State.s_bootInfo.secPerClus
      = 80537 ∧
    loadDirEntry fat16State 1 [] 20000 = .ok ([{ cluster := 20000, startEntry := 80537 }], []) ∧
    readDirNum fat16State 80537 = .ok 4 ∧
    loadFile fat16State 1 20000 =
      .ok [{ cluster := 20000, position := 15001, num := 4, offset := 0, byteRead := 2048 }] :=
  by decide!

/-! ## Destination offsets of `loadFile` -/

/-- A 16-bit value is the bitwise or of its low byte and its high byte shifted by 8. -/
theorem or_bytes16 (v : Nat) (hv : v < 65536) :
    (v % 256) ||| ((v / 256 % 256) <<< 8) = v := by
  rw [Nat.shiftLeft_eq, Nat.or_comm, Nat.mul_comm,
    ← Nat.mul_add_lt_is_or (Nat.mod_lt v (by decide)) (v / 256 % 256)]
  omega

/-- Consecutive clusters `c, c + 1, ..., c + n` form a chain when the decoder maps each to the
next and the last to a value at or above the bound. -/
theorem isChain_range (st : State) (last : Nat) :
    ∀ (n c e : Nat), (∀ x, c ≤ x → x < c + n → nextCluster st x = .ok (x + 1)) →
      c + n < last → nextCluster st (c + n) = .ok e → last ≤ e →
      IsChain st last (List.range' c (n + 1)) := by
  intro n
  induction n with
  | zero =>
    intro c e _ hlt he hle
    simp only [Nat.add_zero] at hlt he
    simp only [Nat.zero_add, List.range'_one]
    unfold IsChain
    simp only [he]
    exact ⟨hlt, hle⟩
  | succ n ih =>
    intro c e hstep hlt he hle
    rw [List.range'_succ, List.range'_succ]
    unfold IsChain
    refine ⟨by omega, hstep c (le_refl _) (by omega), ?_⟩
    rw [← List.range'_succ]
    apply ih (c + 1) e
    · intro x hx1 hx2
      exact hstep x (by omega) (by omega)
    · omega
    · rw [show c + 1 + n = c + (n + 1) by omega]; exact he
    · exact hle

/-- The number of iterations listed by `fileSteps`. -/
theorem fileSteps_length (st : State) :
    ∀ (cs : List Nat) (count : Nat), (fileSteps st cs count).length = cs.length := by
  intro cs
  induction cs with
  | nil => intro count; rfl
  | cons c rest ih => intro count; simp only [fileSteps, List.length_cons, ih]

/-- The destination offset of iteration `k` of `loadFile`: the 32-bit product of the cluster
size in bytes and the 16-bit counter. -/
theorem fileSteps_offset (st : State) :
    ∀ (cs : List Nat) (count k : Nat), k < cs.length → count < U16 →
      ((fileSteps st cs count).map (fun x => x.offset))[k]? =
        some ((((st.s_bootInfo.bytsPerSec * st.s_bootInfo.secPerClus) % U32)
          * ((count + k) % U16)) % U32) := by
  intro cs
  induction cs with
  | nil => intro count k hk; simp at hk
  | cons c rest ih =>
    intro count k hk hc
    cases k with
    | zero =>
      simp only [fileSteps, List.map_cons, List.getElem?_cons_zero, Nat.add_zero,
        Nat.mod_eq_of_lt hc]
    | succ k =>
      simp only [fileSteps, List.map_cons, List.getElem?_cons_succ]
      rw [ih ((count + 1) % U16) k (by simpa using hk) (Nat.mod_lt _ (by decide))]
      have : ((count + 1) % U16 + k) % U16 = (count + (k + 1)) % U16 := by
        simp only [U16]
        omega
      rw [this]

/-- Every iteration listed by `fileSteps` reads at a 16-bit sector number, and stores the
bytes that the reader delivers for that sector. -/
theorem fileSteps_read (st : State) :
    ∀ (cs : List Nat) (count : Nat), ∀ x ∈ fileSteps st cs count,
      x.position < U16 ∧ x.num = st.s_bootInfo.secPerClus ∧
      x.byteRead = (HAL_ReadMultiSector st x.position x.num).byteRead := by
  intro cs
  induction cs with
  | nil => intro count x hx; simp [fileSteps] at hx
  | cons c rest ih =>
    intro count x hx
    simp only [fileSteps, List.mem_cons] at hx
    rcases hx with rfl | hx
    · exact ⟨Nat.mod_lt _ (by decide), rfl, rfl⟩
    · exact ih _ x hx

/-- In the long-chain image the decoder maps every cluster from 2 to 8193 to the next one. -/
theorem fat32Long_next (c : Nat) (h2 : 2 ≤ c) (h : c < 8194) :
    nextCluster fat32LongState c = .ok (c + 1) := by
  have hoff : (c * 4) % U16 = 4 * c := by
    simp only [U16]; omega
  have hbuf : ∀ j, j < 4 → fatByte fat32LongState (4 * c + j) = ((c + 1) / 256 ^ j) % 256 := by
    intro j hj
    have e1 : (131072 + (4 * c + j) - 131072) / 4 = c := by omega
    have e2 : (131072 + (4 * c + j) - 131072) % 4 = j := by omega
    have e3 : 131072 ≤ 131072 + (4 * c + j) ∧ 131072 + (4 * c + j) < 131072 + 4 * 8195 := by
      omega
    simp only [fatByte, HAL_ReadMultiSector, fat32LongState, fat32LongBoot, fat32LongDisk, U32]
    norm_num only
    rw [if_pos e3, e1, e2, fat32LongEntry, if_neg (by omega), if_pos h]
    exact Nat.mod_mod _ _
  have hb0 := hbuf 0 (by decide)
  have hb1 := hbuf 1 (by decide)
  have hb2 := hbuf 2 (by decide)
  have hb3 := hbuf 3 (by decide)
  simp only [Nat.add_zero, pow_zero, Nat.div_one, pow_one] at hb0 hb1
  have hz2 : (c + 1) / 256 ^ 2 % 256 = 0 := by
    rw [Nat.div_eq_of_lt (by norm_num; omega)]
  have hz3 : (c + 1) / 256 ^ 3 % 256 = 0 := by
    rw [Nat.div_eq_of_lt (by norm_num; omega)]
  rw [hz2] at hb2
  rw [hz3] at hb3
  rw [nextCluster_fat32 fat32LongState c (by decide) (by decide)
    (by rw [hoff]; simp only [fatBytes, fat32LongState, fat32LongBoot, U32]; omega)]
  rw [hoff, hb0, hb1, hb2, hb3]
  simp only [Nat.zero_shiftLeft, Nat.zero_and, Nat.or_zero]
  exact congrArg Except.ok (or_bytes16 (c + 1) (by omega))

/-- C9, evaluated on a FAT32 volume with 512 KiB clusters (4096-byte sectors, 128 sectors per
cluster) whose FAT holds the chain `2 → 3 → ... → 8194 → end` of 8193 clusters: `loadFile`
returns after 8193 iterations, one per cluster of the chain in order, every read delivers the
`128 * 4096` bytes of a cluster, and the destination offset of the last cluster (`k = 8192`) is
`0`, the offset of the first one, whereas `k * secPerClus * bytsPerSec` is `2 ^ 32`: the
offset is an `unsigned int` product. -/
theorem loadFile_offset_wraps :
    fat32LongBoot.InRange ∧ localEachRegion fat32LongBoot = .ok fat32LongLocal ∧
    fatType fat32LongState.s_bootInfo = .ok FAT_32 ∧
    IsChain fat32LongState (thisLastCluster FAT_32) (List.range' 2 8193) ∧
    ∃ steps, loadFile fat32LongState 8193 2 = .ok steps ∧
      steps.length = 8193 ∧
      steps.map (fun x => x.cluster) = List.range' 2 8193 ∧
      (∀ x ∈ steps, x.num = 128 ∧ x.byteRead = 128 * 4096) ∧
      (steps.map (fun x => x.offset))[0]? = some 0 ∧
      (steps.map (fun x => x.offset))[8192]? = some 0 ∧
      8192 * 128 * 4096 = 4294967296 := by
  have hT : fatType fat32LongState.s_bootInfo = .ok FAT_32 := by decide
  have hch : IsChain fat32LongState (thisLastCluster FAT_32) (List.range' 2 8193) := by
    apply isChain_range fat32LongState _ 8192 2 0x0FFFFFFF
    · intro x hx1 hx2
      exact fat32Long_next x hx1 (by omega)
    · decide
    · decide
    · decide
  have hcons : List.range' 2 8193 = 2 :: List.range' 3 8192 := List.range'_succ 2 8192 1
  have hch2 : IsChain fat32LongState (thisLastCluster FAT_32) (2 :: List.range' 3 8192) := by
    rw [← hcons]; exact hch
  have hlen : (List.range' 3 8192).length + 1 ≤ 8193 := by
    rw [List.length_range']
  have hrun := (loadFile_chain fat32LongState FAT_32 hT 2 (List.range' 3 8192) hch2 8193 hlen).1
  rw [← hcons] at hrun
  refine ⟨by decide, by decide, hT, hch, fileSteps fat32LongState (List.range' 2 8193) 0, hrun,
    ?_, fileSteps_cluster _ _ _, ?_, ?_, ?_, by decide⟩
  · rw [fileSteps_length, List.length_range']
  · intro x hx
    obtain ⟨hp, hn, hb⟩ := fileSteps_read fat32LongState _ _ x hx
    refine ⟨hn, ?_⟩
    rw [hb, hn]
    simp only [HAL_ReadMultiSector, fat32LongState, fat32LongBoot, fat32LongDisk, U32, U16]
      at hp ⊢
    omega
  · rw [fileSteps_offset fat32LongState _ 0 0 (by rw [List.length_range']; decide)
      (by decide)]
    decide
  · rw [fileSteps_offset fat32LongState _ 0 8192 (by rw [List.length_range']; decide)
      (by decide)]
    decide

/-- Along a chain whose clusters are all read in full by a reader working with sectors of
`bytsPerSec` bytes, and whose total size `n * secPerClus * bytsPerSec` does not exceed `2 ^ 32`
(with at most `2 ^ 16` clusters), `loadFile` returns, stores `n * secPerClus * bytsPerSec` bytes
in all, and stores the block of the `k`-th cluster at offset `k * secPerClus * bytsPerSec`. -/
theorem loadFile_chain_layout (st : State) (t : Nat) (hT : fatType st.s_bootInfo = .ok t)
    (c : Nat) (rest : List Nat) (hch : IsChain st (thisLastCluster t) (c :: rest))
    (fuel : Nat) (hf : rest.length + 1 ≤ fuel)
    (hread : ∀ x ∈ c :: rest,
      (HAL_ReadMultiSector st (clusterSector st x % U16) st.s_bootInfo.secPerClus).byteRead
        = st.s_bootInfo.secPerClus * st.s_bootInfo.bytsPerSec)
    (hfit : (rest.length + 1) * (st.s_bootInfo.secPerClus * st.s_bootInfo.bytsPerSec) ≤ U32)
    (hcnt : rest.length + 1 ≤ U16) :
    ∃ steps, loadFile st fuel c = .ok steps ∧
      steps.map (fun x => x.cluster) = c :: rest ∧
      (steps.map (fun x => x.byteRead)).sum
        = (rest.length + 1) * st.s_bootInfo.secPerClus * st.s_bootInfo.bytsPerSec ∧
      ∀ k, k < rest.length + 1 →
        (steps.map (fun x => x.offset))[k]?
          = some (k * st.s_bootInfo.secPerClus * st.s_bootInfo.bytsPerSec) := by
  obtain ⟨hrun, hcl⟩ := loadFile_chain st t hT c rest hch fuel hf
  refine ⟨fileSteps st (c :: rest) 0, hrun, hcl, ?_, ?_⟩
  · have hsum : ∀ (cs : List Nat) (count : Nat),
        (∀ x ∈ cs, (HAL_ReadMultiSector st (clusterSector st x % U16)
          st.s_bootInfo.secPerClus).byteRead
            = st.s_bootInfo.secPerClus * st.s_bootInfo.bytsPerSec) →
        ((fileSteps st cs count).map (fun x => x.byteRead)).sum
          = cs.length * (st.s_bootInfo.secPerClus * st.s_bootInfo.bytsPerSec) := by
      intro cs
      induction cs with
      | nil => intro count _; simp [fileSteps]
      | cons d ds ih =>
        intro count hd
        simp only [fileSteps, List.map_cons, List.sum_cons, List.length_cons]
        rw [hd d (List.mem_cons_self _ _),
          ih _ (fun x hx => hd x (List.mem_cons_of_mem _ hx))]
        ring
    rw [hsum _ _ hread, List.length_cons, Nat.mul_assoc]
  · intro k hk
    rw [fileSteps_offset st (c :: rest) 0 k (by simpa using hk) (by decide)]
    have hk16 : (0 + k) % U16 = k := by
      rw [Nat.zero_add]
      exact Nat.mod_eq_of_lt (by omega)
    rw [hk16]
    generalize hB : st.s_bootInfo.secPerClus * st.s_bootInfo.bytsPerSec = B at hfit
    have hB2 : st.s_bootInfo.bytsPerSec * st.s_bootInfo.secPerClus = B := by
      rw [Nat.mul_comm]; exact hB
    have hkB : k * B < U32 := by
      have h1 : (k + 1) * B ≤ (rest.length + 1) * B := Nat.mul_le_mul_right _ (by omega)
      by_cases hz : B = 0
      · subst hz; simp [U32]
      · have : k * B < (k + 1) * B := by
          rw [Nat.add_mul, Nat.one_mul]; omega
        omega
    have hmod : (B % U32 * k) % U32 = (B * k) % U32 := by
      rw [Nat.mul_mod (B % U32), Nat.mod_mod, ← Nat.mul_mod]
    rw [hB2, hmod, Nat.mul_comm B k, Nat.mod_eq_of_lt hkB, Nat.mul_assoc, hB]

/-- The chain `5 → 6` of the sample floppy (512-byte sectors, one sector per cluster) satisfies
the hypotheses of `loadFile_chain_layout`: `loadFile` stores `2 * 1 * 512 = 1024` bytes, the
block of cluster 5 at offset 0 and the block of cluster 6 at offset 512. -/
theorem loadFile_chain_layout_witness :
    (fatType fat12State.s_bootInfo = .ok FAT_12 ∧
      IsChain fat12State (thisLastCluster FAT_12) [5, 6]) ∧
    ∃ steps, loadFile fat12State 2 5 = .ok steps ∧
      steps.map (fun x => x.cluster) = [5, 6] ∧
      (steps.map (fun x => x.byteRead)).sum
        = (([6] : List Nat).length + 1) * fat12State.s_bootInfo.secPerClus
          * fat12State.s_bootInfo.bytsPerSec ∧
      ∀ k, k < ([6] : List Nat).length + 1 →
        (steps.map (fun x => x.offset))[k]?
          = some (k * fat12State.s_bootInfo.secPerClus * fat12State.s_bootInfo.bytsPerSec) :=
  ⟨⟨by decide, by decide⟩,
   loadFile_chain_layout fat12State FAT_12 (by decide) 5 [6] (by decide) 2 (by decide)
     (by decide) (by decide) (by decide)⟩

/-- The file of the sample floppy that occupies the chain `5 → 6`: `loadFile` makes two reads
of 512 bytes, to offsets 0 and 512, 1024 bytes in all. -/
theorem loadFile_floppy_scenario :
    loadFile fat12State 2 5 =
      .ok [{ cluster := 5, position := 36, num := 1, offset := 0, byteRead := 512 },
           { cluster := 6, position := 37, num := 1, offset := 512, byteRead := 512 }] := by
  decide

/-! ## Little-endian fields -/

/-- A bitwise or with a value below `2 ^ k` is a sum when the other operand is a multiple of
`2 ^ k`. -/
theorem or_eq_add (a b k : Nat) (hb : b < 2 ^ k) (ha : 2 ^ k ∣ a) : a ||| b = a + b := by
  obtain ⟨c, rfl⟩ := ha
  exact (Nat.mul_add_lt_is_or hb c).symm

/-- The macro `LITTLE_ENDIAN` applied to two bytes is their little-endian 16-bit value. -/
theorem LITTLE_ENDIAN_eq (x y : Nat) (hx : x < 256) (hy : y < 256) :
    LITTLE_ENDIAN x y = x + 256 * y := by
  unfold LITTLE_ENDIAN
  have h1 : (y <<< SHIFT_8_BIT) % U32 = 256 * y := by
    rw [Nat.shiftLeft_eq]
    simp only [SHIFT_8_BIT, U32]
    omega
  rw [h1, or_eq_add (256 * y) x 8 (by omega) ⟨y, by norm_num⟩]
  omega

/-- The extended-field expression applied to four bytes is their little-endian 32-bit
value, whatever the top byte. -/
theorem extendedField_eq (buff : Nat → Nat) (o : Nat) (hb : ∀ i, buff i < 256) :
    extendedField buff o = le32 buff o := by
  unfold extendedField le32
  have h0 := hb o
  have h1 := hb (o + 1)
  have h2 := hb (o + 2)
  have h3 := hb (o + 3)
  have e3 : (buff (o + 3) <<< SHIFT_24_BIT) % U32 = 16777216 * buff (o + 3) := by
    rw [Nat.shiftLeft_eq]
    simp only [SHIFT_24_BIT, U32]
    omega
  have e2 : (buff (o + 2) <<< SHIFT_16_BIT) % U32 = 65536 * buff (o + 2) := by
    rw [Nat.shiftLeft_eq]
    simp only [SHIFT_16_BIT, U32]
    omega
  have e1 : (buff (o + 1) <<< SHIFT_8_BIT) % U32 = 256 * buff (o + 1) := by
    rw [Nat.shiftLeft_eq]
    simp only [SHIFT_8_BIT, U32]
    omega
  rw [e3, e2, e1,
    or_eq_add (16777216 * buff (o + 3)) (65536 * buff (o + 2)) 24 (by omega)
      ⟨buff (o + 3), by norm_num⟩,
    or_eq_add _ (256 * buff (o + 1)) 16 (by omega)
      ⟨256 * buff (o + 3) + buff (o + 2), by norm_num; ring⟩,
    or_eq_add _ (buff o) 8 (by omega)
      ⟨65536 * buff (o + 3) + 256 * buff (o + 2) + buff (o + 1), by norm_num; ring⟩]
  omega

/-- The bytes that a HAL read stores are bytes. -/
theorem HAL_ReadSector_byte (st : State) (index i : Nat) :
    (HAL_ReadSector st index).buff i < 256 := by
  unfold HAL_ReadSector
  exact Nat.mod_lt _ (by decide)

/-! ## Boot sector parsing -/

/-- With a nonzero `secPerClus`, `fatType` returns one of the three variants. -/
theorem fatType_ok (b : t_bootSector) (h : b.secPerClus ≠ 0) :
    ∃ t, fatType b = .ok t ∧ (t = FAT_12 ∨ t = FAT_16 ∨ t = FAT_32) := by
  unfold fatType
  rw [if_neg h]
  simp only
  split_ifs
  · exact ⟨_, rfl, Or.inl rfl⟩
  · exact ⟨_, rfl, Or.inr (Or.inl rfl)⟩
  · exact ⟨_, rfl, Or.inr (Or.inr rfl)⟩


/-- The little-endian 16-bit value of two bytes is below `2 ^ 16`. -/
theorem le16_lt (buff : Nat → Nat) (o : Nat) (hb : ∀ i, buff i < 256) : le16 buff o < 65536 := by
  unfold le16
  have h0 := hb o
  have h1 := hb (o + 1)
  omega

/-- The little-endian 32-bit value of four bytes is below `2 ^ 32`. -/
theorem le32_lt (buff : Nat → Nat) (o : Nat) (hb : ∀ i, buff i < 256) :
    le32 buff o < 4294967296 := by
  unfold le32
  have h0 := hb o
  have h1 := hb (o + 1)
  have h2 := hb (o + 2)
  have h3 := hb (o + 3)
  omega

/-- The fields that `initFileFAT` stores, in terms of the little-endian fields of the boot
sector: five fields are stored exactly, `totalSector` is the 16-bit field or, when that is
zero, the 32-bit field, and `FATsz` is the corresponding choice reduced to 16 bits. -/
theorem parseBootSector_eq (prev : t_bootSector) (buff : Nat → Nat) (hb : ∀ i, buff i < 256) :
    parseBootSector prev buff =
      { bytsPerSec := le16 buff 0x0B
        secPerClus := buff 0x0D
        rsvdSecCnt := le16 buff 0x0E
        numFATs := buff 0x10
        rootEntCnt := le16 buff 0x11
        FATsz := (if le16 buff 0x16 = 0 then le32 buff 0x24 else le16 buff 0x16) % U16
        totalSector := if le16 buff 0x13 = 0 then le32 buff 0x20 else le16 buff 0x13
        rootClus := prev.rootClus } := by
  have hle : ∀ o, LITTLE_ENDIAN (buff o) (buff (o + 1)) = le16 buff o :=
    fun o => LITTLE_ENDIAN_eq _ _ (hb o) (hb (o + 1))
  have h16 : ∀ o, le16 buff o % U16 = le16 buff o :=
    fun o => Nat.mod_eq_of_lt (le16_lt buff o hb)
  have h16' : ∀ o, le16 buff o % U32 = le16 buff o :=
    fun o => Nat.mod_eq_of_lt (lt_trans (le16_lt buff o hb) (by decide))
  have h32 : ∀ o, le32 buff o % U32 = le32 buff o :=
    fun o => Nat.mod_eq_of_lt (le32_lt buff o hb)
  have hB : ∀ o, buff o % U16 = buff o :=
    fun o => Nat.mod_eq_of_lt (lt_trans (hb o) (by decide))
  have hB8 : ∀ o, buff o % 2 ^ 8 = buff o := fun o => Nat.mod_eq_of_lt (hb o)
  unfold parseBootSector
  simp only [hle 0x0B, hle 0x0E, hle 0x11, hle 0x13, hle 0x16, extendedField_eq buff _ hb,
    h16, h16', hB, hB8]
  congr 1
  split_ifs
  · exact h32 _
  · exact h16' _


/-- When sector 0 is read in full and the byte at `0x0D` is not zero, `initFileFAT` returns:
the fields parsed from the sector are stored, `rootClus` is stored on FAT32, and the reader
takes over the parsed sector size. -/
theorem initFileFAT_eq (st : State) (hr : (HAL_ReadSector st 0).byteRead = BYTE_PER_SECTOR)
    (hspc : (HAL_ReadSector st 0).buff 0x0D ≠ 0) :
    ∃ t, fatType (parseBootSector st.s_bootInfo (HAL_ReadSector st 0).buff) = .ok t ∧
      initFileFAT st =
        .ok { st with
              s_bootInfo :=
                if t = FAT_32 then
                  { parseBootSector st.s_bootInfo (HAL_ReadSector st 0).buff with
                    rootClus := extendedField (HAL_ReadSector st 0).buff 0x2C % U16 }
                else parseBootSector st.s_bootInfo (HAL_ReadSector st 0).buff
              sizeSector := le16 (HAL_ReadSector st 0).buff 0x0B } := by
  have hb := HAL_ReadSector_byte st 0
  have hp := parseBootSector_eq st.s_bootInfo _ hb
  have hs : (parseBootSector st.s_bootInfo (HAL_ReadSector st 0).buff).secPerClus ≠ 0 := by
    rw [hp]; exact hspc
  obtain ⟨t, ht, _⟩ := fatType_ok _ hs
  refine ⟨t, ht, ?_⟩
  unfold initFileFAT
  simp only [hr, lt_irrefl, if_false, ne_eq, not_true_eq_false, ht]
  by_cases h32 : t = FAT_32
  · simp only [h32, if_true]
    rw [hp]
  · simp only [h32, if_false]
    rw [hp]

/-- The geometry fields on the path where the division is defined: when `initFileFAT` reads the
512 bytes of sector 0, the fields it stores are `bytsPerSec` = the little-endian 16-bit value
at `0x0B`, `secPerClus` = the byte at `0x0D`, `rsvdSecCnt` = the little-endian 16-bit value at
`0x0E`, `numFATs` = the byte at `0x10` and `rootEntCnt` = the little-endian 16-bit value at
`0x11`; and when the byte at `0x0D` is not zero the function returns a record with these five
fields. -/
theorem initFileFAT_geometry (st : State)
    (hr : (HAL_ReadSector st 0).byteRead = BYTE_PER_SECTOR) :
    ((parseBootSector st.s_bootInfo (HAL_ReadSector st 0).buff).bytsPerSec
        = le16 (HAL_ReadSector st 0).buff 0x0B ∧
      (parseBootSector st.s_bootInfo (HAL_ReadSector st 0).buff).secPerClus
        = (HAL_ReadSector st 0).buff 0x0D ∧
      (parseBootSector st.s_bootInfo (HAL_ReadSector st 0).buff).rsvdSecCnt
        = le16 (HAL_ReadSector st 0).buff 0x0E ∧
      (parseBootSector st.s_bootInfo (HAL_ReadSector st 0).buff).numFATs
        = (HAL_ReadSector st 0).buff 0x10 ∧
      (parseBootSector st.s_bootInfo (HAL_ReadSector st 0).buff).rootEntCnt
        = le16 (HAL_ReadSector st 0).buff 0x11) ∧
    ((HAL_ReadSector st 0).buff 0x0D ≠ 0 →
      ∃ st2, initFileFAT st = .ok st2 ∧
        st2.s_bootInfo.bytsPerSec = le16 (HAL_ReadSector st 0).buff 0x0B ∧
        st2.s_bootInfo.secPerClus = (HAL_ReadSector st 0).buff 0x0D ∧
        st2.s_bootInfo.rsvdSecCnt = le16 (HAL_ReadSector st 0).buff 0x0E ∧
        st2.s_bootInfo.numFATs = (HAL_ReadSector st 0).buff 0x10 ∧
        st2.s_bootInfo.rootEntCnt = le16 (HAL_ReadSector st 0).buff 0x11) := by
  have hp := parseBootSector_eq st.s_bootInfo _ (HAL_ReadSector_byte st 0)
  constructor
  · rw [hp]
    exact ⟨rfl, rfl, rfl, rfl, rfl⟩
  · intro hspc
    obtain ⟨t, _, hinit⟩ := initFileFAT_eq st hr hspc
    refine ⟨_, hinit, ?_⟩
    by_cases h32 : t = FAT_32
    · simp only [h32, if_true]
      rw [hp]
      exact ⟨rfl, rfl, rfl, rfl, rfl⟩
    · simp only [h32, if_false]
      rw [hp]
      exact ⟨rfl, rfl, rfl, rfl, rfl⟩

/-- The boot sector of the floppy image is read in full and its byte at `0x0D` is 1:
`initFileFAT` returns 512 bytes per sector, 1 sector per cluster, 1 reserved sector, 2 FATs and
224 root entries; the whole record it returns is `floppyBoot`. -/
theorem initFileFAT_geometry_witness :
    (HAL_ReadSector (initialState bootFloppyDisk) 0).byteRead = BYTE_PER_SECTOR ∧
    (HAL_ReadSector (initialState bootFloppyDisk) 0).buff 0x0D ≠ 0 ∧
    (∃ st2, initFileFAT (initialState bootFloppyDisk) = .ok st2 ∧
      st2.s_bootInfo.bytsPerSec = 512 ∧ st2.s_bootInfo.secPerClus = 1 ∧
      st2.s_bootInfo.rsvdSecCnt = 1 ∧ st2.s_bootInfo.numFATs = 2 ∧
      st2.s_bootInfo.rootEntCnt = 224) ∧
    (initFileFAT (initialState bootFloppyDisk)).map (fun s => (s.s_bootInfo, s.sizeSector))
      = .ok (floppyBoot, 512) :=
  ⟨by decide, by decide,
   ((initFileFAT_geometry (initialState bootFloppyDisk) (by decide)).2 (by decide)).imp
     (fun _ h => ⟨h.1, h.2.1.trans (by decide), h.2.2.1.trans (by decide),
       h.2.2.2.1.trans (by decide), h.2.2.2.2.1.trans (by decide),
       h.2.2.2.2.2.trans (by decide)⟩),
   by decide⟩

/-- With a zero byte at `0x0D` in a sector 0 that is read in full, `initFileFAT` does not
return: the division `totalSector / secPerClus` in `fatType` has a zero divisor. -/
theorem initFileFAT_zero_secPerClus (st : State)
    (hr : (HAL_ReadSector st 0).byteRead = BYTE_PER_SECTOR)
    (hz : (HAL_ReadSector st 0).buff 0x0D = 0) :
    initFileFAT st = .error .divByZero := by
  have hp := parseBootSector_eq st.s_bootInfo _ (HAL_ReadSector_byte st 0)
  have hs : (parseBootSector st.s_bootInfo (HAL_ReadSector st 0).buff).secPerClus = 0 := by
    rw [hp]
    exact hz
  have hf : fatType (parseBootSector st.s_bootInfo (HAL_ReadSector st 0).buff)
      = .error .divByZero := by
    unfold fatType
    rw [if_pos hs]
  unfold initFileFAT
  simp only [hr, lt_irrefl, if_false, ne_eq, not_true_eq_false, hf]

/-- C11 fails on the code: sector 0 of `bootZeroClusterDisk` is read in full (512 bytes) and
holds 512 bytes per sector, a zero byte at `0x0D`, 1 reserved sector, 2 FATs and 224 root
entries.  `initFileFAT` stores these five fields and then calls `fatType`, whose division
`totalSector / secPerClus` has a zero divisor: no record is returned. -/
theorem initFileFAT_zero_cluster_size :
    (HAL_ReadSector (initialState bootZeroClusterDisk) 0).byteRead = BYTE_PER_SECTOR ∧
    le16 (HAL_ReadSector (initialState bootZeroClusterDisk) 0).buff 0x0B = 512 ∧
    (HAL_ReadSector (initialState bootZeroClusterDisk) 0).buff 0x0D = 0 ∧
    le16 (HAL_ReadSector (initialState bootZeroClusterDisk) 0).buff 0x0E = 1 ∧
    (HAL_ReadSector (initialState bootZeroClusterDisk) 0).buff 0x10 = 2 ∧
    le16 (HAL_ReadSector (initialState bootZeroClusterDisk) 0).buff 0x11 = 224 ∧
    parseBootSector (initialState bootZeroClusterDisk).s_bootInfo
        (HAL_ReadSector (initialState bootZeroClusterDisk) 0).buff
      = { bytsPerSec := 512, secPerClus := 0, rsvdSecCnt := 1, numFATs := 2, rootEntCnt := 224,
          FATsz := 9, totalSector := 2880, rootClus := 0 } ∧
    fatType (parseBootSector (initialState bootZeroClusterDisk).s_bootInfo
        (HAL_ReadSector (initialState bootZeroClusterDisk) 0).buff) = .error .divByZero ∧
    (initFileFAT (initialState bootZeroClusterDisk)).map (fun s => s.s_bootInfo)
      = .error .divByZero := by
  refine ⟨by decide, by decide, by decide, by decide, by decide, by decide, by decide,
    by decide, ?_⟩
  rw [initFileFAT_zero_secPerClus (initialState bootZeroClusterDisk) (by decide) (by decide)]
  rfl

/-- C12: when `initFileFAT` reads the 512 bytes of sector 0, the value it stores in
`totalSector` is the little-endian 16-bit field at `0x13` when that field is not zero, and the
full little-endian 32-bit field at `0x20` otherwise; when the byte at `0x0D` is not zero the
function returns a record with that `totalSector`. -/
theorem initFileFAT_totalSector (st : State)
    (hr : (HAL_ReadSector st 0).byteRead = BYTE_PER_SECTOR) :
    (parseBootSector st.s_bootInfo (HAL_ReadSector st 0).buff).totalSector =
      (if le16 (HAL_ReadSector st 0).buff 0x13 ≠ 0 then le16 (HAL_ReadSector st 0).buff 0x13
       else le32 (HAL_ReadSector st 0).buff 0x20) ∧
    ((HAL_ReadSector st 0).buff 0x0D ≠ 0 →
      ∃ st2, initFileFAT st = .ok st2 ∧
        st2.s_bootInfo.totalSector =
          (if le16 (HAL_ReadSector st 0).buff 0x13 ≠ 0 then
            le16 (HAL_ReadSector st 0).buff 0x13
           else le32 (HAL_ReadSector st 0).buff 0x20)) := by
  have hp := parseBootSector_eq st.s_bootInfo _ (HAL_ReadSector_byte st 0)
  have hpt : (parseBootSector st.s_bootInfo (HAL_ReadSector st 0).buff).totalSector =
      (if le16 (HAL_ReadSector st 0).buff 0x13 ≠ 0 then le16 (HAL_ReadSector st 0).buff 0x13
       else le32 (HAL_ReadSector st 0).buff 0x20) := by
    rw [hp]
    by_cases h : le16 (HAL_ReadSector st 0).buff 0x13 = 0
    · simp only [h, ne_eq, not_true_eq_false, if_true, if_false]
    · simp only [h, ne_eq, not_false_eq_true, if_true, if_false]
  refine ⟨hpt, ?_⟩
  intro hspc
  obtain ⟨t, _, hinit⟩ := initFileFAT_eq st hr hspc
  refine ⟨_, hinit, ?_⟩
  by_cases h32 : t = FAT_32
  · simp only [h32, if_true]
    exact hpt
  · simp only [h32, if_false]
    exact hpt

/-- The boot sector of the FAT32 image is read in full, its 16-bit total-sectors field is
zero and its 32-bit field holds 131072: `initFileFAT` returns `totalSector = 131072`; the whole
record it returns is `fat32Boot`. -/
theorem initFileFAT_totalSector_witness :
    (HAL_ReadSector (initialState bootFat32Disk) 0).byteRead = BYTE_PER_SECTOR ∧
    (HAL_ReadSector (initialState bootFat32Disk) 0).buff 0x0D ≠ 0 ∧
    le16 (HAL_ReadSector (initialState bootFat32Disk) 0).buff 0x13 = 0 ∧
    le32 (HAL_ReadSector (initialState bootFat32Disk) 0).buff 0x20 = 131072 ∧
    (∃ st2, initFileFAT (initialState bootFat32Disk) = .ok st2 ∧
      st2.s_bootInfo.totalSector = 131072) ∧
    (initFileFAT (initialState bootFat32Disk)).map (fun s => (s.s_bootInfo, s.sizeSector))
      = .ok (fat32Boot, 512) ∧
    (initFileFAT (initialState bootFloppyDisk)).map (fun s => s.s_bootInfo.totalSector)
      = .ok 2880 :=
  ⟨by decide, by decide, by decide, by decide,
   ((initFileFAT_totalSector (initialState bootFat32Disk) (by decide)).2 (by decide)).imp
     (fun _ h => ⟨h.1, h.2.trans (by decide)⟩),
   by decide, by decide⟩

/-- C13, evaluated on the boot sector of a 32 GiB FAT32 volume: sector 0 is read in full, the
16-bit field at `0x16` is zero and the 32-bit field at `0x24` holds 65536; `initFileFAT`
returns, classifies the volume as FAT32 and stores `FATsz = 0`, the low 16 bits of 65536,
because the field `FATsz` of `t_bootSector` is a `uint16_t`. -/
theorem initFileFAT_FATsz_truncates :
    (HAL_ReadSector (initialState bootLargeFatDisk) 0).byteRead = BYTE_PER_SECTOR ∧
    le16 (HAL_ReadSector (initialState bootLargeFatDisk) 0).buff 0x16 = 0 ∧
    le32 (HAL_ReadSector (initialState bootLargeFatDisk) 0).buff 0x24 = 65536 ∧
    (initFileFAT (initialState bootLargeFatDisk)).map (fun s => s.s_bootInfo.FATsz) = .ok 0 ∧
    (initFileFAT (initialState bootLargeFatDisk)).bind (fun s => fatType s.s_bootInfo)
      = .ok FAT_32 := by
  decide

/-- C14, evaluated on the boot sector of a 19.5 GiB FAT32 volume whose root directory starts at
cluster 70000: sector 0 is read in full, the volume is classified as FAT32, the 32-bit field at
`0x2C` holds 70000; `initFileFAT` stores `rootClus = 4464`, the low 16 bits of 70000, because
the field `rootClus` of `t_bootSector` is a `uint16_t`. -/
theorem initFileFAT_rootClus_truncates :
    (HAL_ReadSector (initialState bootHighRootDisk) 0).byteRead = BYTE_PER_SECTOR ∧
    (initFileFAT (initialState bootHighRootDisk)).bind (fun s => fatType s.s_bootInfo)
      = .ok FAT_32 ∧
    le32 (HAL_ReadSector (initialState bootHighRootDisk) 0).buff 0x2C = 70000 ∧
    (initFileFAT (initialState bootHighRootDisk)).map (fun s => s.s_bootInfo.rootClus)
      = .ok 4464 ∧
    (initFileFAT (initialState bootHighRootDisk)).map (fun s => s.s_bootInfo.FATsz)
      = .ok 40000 := by
  decide

/-- On FAT32 the value that `initFileFAT` stores in `rootClus` is the little-endian 32-bit
field at `0x2C` reduced modulo `2 ^ 16`; on the other variants `rootClus` keeps its value. -/
theorem initFileFAT_rootClus (st : State)
    (hr : (HAL_ReadSector st 0).byteRead = BYTE_PER_SECTOR)
    (hspc : (HAL_ReadSector st 0).buff 0x0D ≠ 0) :
    ∃ st2 t, initFileFAT st = .ok st2 ∧ fatType st2.s_bootInfo = .ok t ∧
      st2.s_bootInfo.rootClus =
        (if t = FAT_32 then le32 (HAL_ReadSector st 0).buff 0x2C % U16
         else st.s_bootInfo.rootClus) ∧
      st2.s_bootInfo.FATsz =
        (if le16 (HAL_ReadSector st 0).buff 0x16 = 0 then le32 (HAL_ReadSector st 0).buff 0x24
         else le16 (HAL_ReadSector st 0).buff 0x16) % U16 := by
  have hb := HAL_ReadSector_byte st 0
  have hp := parseBootSector_eq st.s_bootInfo _ hb
  obtain ⟨t, ht, hinit⟩ := initFileFAT_eq st hr hspc
  refine ⟨_, t, hinit, ?_⟩
  by_cases h32 : t = FAT_32
  · simp only [h32, if_true]
    subst h32
    refine ⟨?_, ?_, ?_⟩
    · rw [← ht]
      simp only [fatType]
    · rw [extendedField_eq _ _ hb]
    · rw [hp]
  · simp only [h32, if_false]
    refine ⟨ht, ?_, ?_⟩
    · rw [hp]
    · rw [hp]

/-- The floppy boot sector satisfies the hypotheses of `initFileFAT_rootClus`. -/
theorem initFileFAT_rootClus_witness :
    (HAL_ReadSector (initialState bootFloppyDisk) 0).byteRead = BYTE_PER_SECTOR ∧
    (HAL_ReadSector (initialState bootFloppyDisk) 0).buff 0x0D ≠ 0 ∧
    ∃ st2 t, initFileFAT (initialState bootFloppyDisk) = .ok st2 ∧
      fatType st2.s_bootInfo = .ok t :=
  ⟨by decide, by decide,
   (initFileFAT_rootClus (initialState bootFloppyDisk) (by decide) (by decide)).imp
     (fun _ h => h.imp (fun _ h2 => ⟨h2.1, h2.2.1⟩))⟩

/-! ## The fixed root directory -/

/-- A decoded record depends only on the 32 bytes of the record. -/
theorem decodeDirEntry_congr (buff buff2 : Nat → Nat) (index : Nat)
    (h : ∀ j, j < 32 → buff (index + j) = buff2 (index + j)) :
    decodeDirEntry buff index = decodeDirEntry buff2 index := by
  unfold decodeDirEntry
  have hn : (List.range SIZE_OF_NAME).map (fun i => buff (index + i))
      = (List.range SIZE_OF_NAME).map (fun i => buff2 (index + i)) := by
    apply List.map_congr_left
    intro i hi
    exact h i (lt_trans (List.mem_range.mp hi) (by decide))
  rw [hn, h 0x0B (by decide), h 0x16 (by decide), h 0x17 (by decide), h 0x18 (by decide),
    h 0x19 (by decide), h 0x1A (by decide), h 0x1B (by decide), h 0x1C (by decide),
    h 0x1D (by decide), h 0x1E (by decide), h 0x1F (by decide)]

/-- The kept records of a block depend only on the bytes of the block. -/
theorem scanRecords_congr (sz : Nat) (buff buff2 : Nat → Nat)
    (h : ∀ i, i < sz → buff i = buff2 i) : scanRecords sz buff = scanRecords sz buff2 := by
  unfold scanRecords
  congr 1
  apply List.map_congr_left
  intro k hk
  have hk2 : k < sz / 32 := List.mem_range.mp hk
  apply decodeDirEntry_congr
  intro j hj
  apply h
  have := Nat.div_mul_le_self sz 32
  omega

/-- With start cluster 0 on FAT12 or FAT16, the loop of `loadDirEntry` makes a single
iteration: one call of `readDirEntry` at `rootDirStartSector`. -/
theorem loadDirEntry_zero (st : State) (t : Nat) (hT : fatType st.s_bootInfo = .ok t)
    (h1216 : t = FAT_12 ∨ t = FAT_16)
    (hs : st.sizeSector = st.s_bootInfo.bytsPerSec)
    (hdiv : 32 ∣ (st.s_bootInfo.bytsPerSec * st.s_local.sectorInRootDir) % U32)
    (fuel : Nat) (hf : 1 ≤ fuel) (head : List t_direcroryEntry) :
    readDirNum st st.s_local.rootDirStartSector = .ok st.s_local.sectorInRootDir ∧
    loadDirEntry st fuel head 0 =
      .ok ([{ cluster := 0, startEntry := st.s_local.rootDirStartSector }],
           dirRecords st st.s_local.rootDirStartSector st.s_local.sectorInRootDir) := by
  have hnum : readDirNum st st.s_local.rootDirStartSector = .ok st.s_local.sectorInRootDir := by
    unfold readDirNum
    simp only [hT, h1216, if_true]
  have hle : (HAL_ReadMultiSector st st.s_local.rootDirStartSector
      st.s_local.sectorInRootDir).byteRead
      ≤ (st.s_bootInfo.bytsPerSec * st.s_local.sectorInRootDir) % U32 := by
    simp only [HAL_ReadMultiSector, hs]
    exact Nat.min_le_left _ _
  have hlast : 0 < thisLastCluster t := by
    rcases h1216 with h | h <;> subst h <;> decide
  have h32 : ¬ t = FAT_32 := by
    rcases h1216 with h | h <;> subst h <;> decide
  refine ⟨hnum, ?_⟩
  obtain ⟨f, rfl⟩ : ∃ f, fuel = f + 1 := ⟨fuel - 1, by omega⟩
  unfold loadDirEntry
  simp only [hT, h32, false_and, if_false, deleteList]
  rw [loadDirLoop, if_pos hlast]
  simp only [if_true, readDirEntry_eq st [] _ _ hnum hle hdiv, List.nil_append,
    loadDirLoop_done st _ f _ _ (lt_irrefl _)]


/-- C15: on a FAT12 or FAT16 volume (reader sector size equal to `bytsPerSec`, root region a
multiple of 32 bytes), `loadDirEntry` with start cluster 0 returns after a single iteration:
one call of `readDirEntry`, which reads `sectorInRootDir` sectors starting at
`rootDirStartSector`; the list it returns holds the records of that call, which are, when the
region is read in full, exactly the kept records of the region in order; and the result is the
same for every image of the same size that has the same bytes in that region, whatever its FAT
holds: no FAT entry is consulted. -/
theorem loadDirEntry_root (st : State) (t : Nat) (hT : fatType st.s_bootInfo = .ok t)
    (h1216 : t = FAT_12 ∨ t = FAT_16)
    (hs : st.sizeSector = st.s_bootInfo.bytsPerSec)
    (hdiv : 32 ∣ (st.s_bootInfo.bytsPerSec * st.s_local.sectorInRootDir) % U32)
    (fuel : Nat) (hf : 1 ≤ fuel) (head : List t_direcroryEntry) :
    readDirNum st st.s_local.rootDirStartSector = .ok st.s_local.sectorInRootDir ∧
    loadDirEntry st fuel head 0 =
      .ok ([{ cluster := 0, startEntry := st.s_local.rootDirStartSector }],
           dirRecords st st.s_local.rootDirStartSector st.s_local.sectorInRootDir) ∧
    ((HAL_ReadMultiSector st st.s_local.rootDirStartSector
        st.s_local.sectorInRootDir).byteRead
        = (st.s_bootInfo.bytsPerSec * st.s_local.sectorInRootDir) % U32 →
      dirRecords st st.s_local.rootDirStartSector st.s_local.sectorInRootDir =
        ((List.range ((st.s_bootInfo.bytsPerSec * st.s_local.sectorInRootDir) % U32 / 32)).map
          (fun k => decodeDirEntry (HAL_ReadMultiSector st st.s_local.rootDirStartSector
            st.s_local.sectorInRootDir).buff (32 * k))).filter (fun e => keepNode e)) ∧
    (∀ d2 : Disk, d2.size = st.disk.size →
      (∀ i, i < (st.s_bootInfo.bytsPerSec * st.s_local.sectorInRootDir) % U32 →
        d2.byte ((st.s_local.rootDirStartSector * st.sizeSector) % U32 + i) % 256
          = st.disk.byte ((st.s_local.rootDirStartSector * st.sizeSector) % U32 + i) % 256) →
      loadDirEntry { st with disk := d2 } fuel head 0 = loadDirEntry st fuel head 0) := by
  obtain ⟨hnum, hrun⟩ := loadDirEntry_zero st t hT h1216 hs hdiv fuel hf head
  refine ⟨hnum, hrun, ?_, ?_⟩
  · intro hr
    rw [dirRecords, if_pos hr, scanRecords]
  · intro d2 hsize hbytes
    have hrun2 := (loadDirEntry_zero { st with disk := d2 } t hT h1216 hs hdiv fuel hf head).2
    rw [hrun, hrun2]
    have hrec : dirRecords { st with disk := d2 } st.s_local.rootDirStartSector
        st.s_local.sectorInRootDir
        = dirRecords st st.s_local.rootDirStartSector st.s_local.sectorInRootDir := by
      unfold dirRecords
      have hbr : (HAL_ReadMultiSector { st with disk := d2 } st.s_local.rootDirStartSector
          st.s_local.sectorInRootDir).byteRead
          = (HAL_ReadMultiSector st st.s_local.rootDirStartSector
            st.s_local.sectorInRootDir).byteRead := by
        simp only [HAL_ReadMultiSector, hsize]
      rw [hbr]
      by_cases hr : (HAL_ReadMultiSector st st.s_local.rootDirStartSector
          st.s_local.sectorInRootDir).byteRead
          = (st.s_bootInfo.bytsPerSec * st.s_local.sectorInRootDir) % U32
      · rw [if_pos hr, if_pos hr]
        apply scanRecords_congr
        intro i hi
        simp only [HAL_ReadMultiSector]
        exact hbytes i hi
      · rw [if_neg hr, if_neg hr]
    simp only [hrec]

set_option maxRecDepth 100000 in
/-- The sample floppy satisfies the hypotheses of `loadDirEntry_root`; with start cluster 0
the list is the single kept record of the root region (the directory `B`), read in one call of
14 sectors at sector 19. -/
theorem loadDirEntry_root_witness :
    (fatType fat12State.s_bootInfo = .ok FAT_12 ∧
      fat12State.sizeSector = fat12State.s_bootInfo.bytsPerSec ∧
      32 ∣ (fat12State.s_bootInfo.bytsPerSec * fat12State.s_local.sectorInRootDir) % U32) ∧
    readDirNum fat12State 19 = .ok 14 ∧
    loadDirEntry fat12State 1 [entryC] 0
      = .ok ([{ cluster := 0, startEntry := 19 }], [entryB]) :=
  ⟨by decide,
   (loadDirEntry_root fat12State FAT_12 (by decide) (Or.inl rfl) (by decide) (by decide) 1
     (by decide) [entryC]).1,
   ((loadDirEntry_root fat12State FAT_12 (by decide) (Or.inl rfl) (by decide) (by decide) 1
     (by decide) [entryC]).2.1).trans (by decide!)⟩

/-! ## The FAT32 root directory -/

/-- C16: on a FAT32 volume, for every image, every iteration budget and every list passed in,
`loadDirEntry` with start cluster 0 has the same outcome (iterations made and record list) as
`loadDirEntry` with start cluster `rootClus`. -/
theorem loadDirEntry_fat32_zero (st : State) (hT : fatType st.s_bootInfo = .ok FAT_32)
    (fuel : Nat) (head head2 : List t_direcroryEntry) :
    loadDirEntry st fuel head 0 = loadDirEntry st fuel head2 st.s_bootInfo.rootClus := by
  unfold loadDirEntry
  simp only [hT, deleteList, true_and, if_true]
  by_cases h0 : st.s_bootInfo.rootClus = 0
  · simp only [h0, if_true]
  · simp only [h0, if_false]

set_option maxRecDepth 100000 in
/-- On the FAT32 image with root cluster 2: start cluster 0 and start cluster 2 both yield the
one record of cluster 2. -/
theorem loadDirEntry_fat32_zero_witness :
    fatType fat32RootState.s_bootInfo = .ok FAT_32 ∧
    fat32RootState.s_bootInfo.rootClus = 2 ∧
    loadDirEntry fat32RootState 1 [] 0 = loadDirEntry fat32RootState 1 [] 2 ∧
    loadDirEntry fat32RootState 1 [] 2
      = .ok ([{ cluster := 2, startEntry := 2080 }], [entryR]) :=
  ⟨by decide, by decide,
   loadDirEntry_fat32_zero fat32RootState (by decide) 1 [] [],
   by decide!⟩

/-! ## Directory record fields -/

/-- C17: for every 32-byte record that lies inside the block, `createNewNodeAsDirEntry` returns
a node whose name is bytes 0 to 10 of the record unchanged, whose attribute is byte `0x0B`,
whose `writeTime` and `writeDate` are the little-endian 16-bit values at `0x16` and `0x18`, and
whose `fileSize` is the little-endian 32-bit value at `0x1C`, for every value of the bytes. -/
theorem createNewNodeAsDirEntry_fields (sz : Nat) (buff : Nat → Nat) (index : Nat)
    (hb : ∀ i, buff i < 256) (hin : index + 32 ≤ sz) :
    ∃ e, createNewNodeAsDirEntry sz buff index = .ok e ∧
      e.fileName = [buff index, buff (index + 1), buff (index + 2), buff (index + 3),
        buff (index + 4), buff (index + 5), buff (index + 6), buff (index + 7),
        buff (index + 8), buff (index + 9), buff (index + 10)] ∧
      e.attributes = buff (index + 0x0B) ∧
      e.writeTime = le16 buff (index + 0x16) ∧
      e.writeDate = le16 buff (index + 0x18) ∧
      e.fileSize = le32 buff (index + 0x1C) := by
  refine ⟨decodeDirEntry buff index, ?_, ?_, rfl, ?_, ?_, ?_⟩
  · rw [createNewNodeAsDirEntry, if_pos hin]
  · simp [decodeDirEntry, List.range, List.range.loop]
  · simp only [decodeDirEntry]
    rw [LITTLE_ENDIAN_eq _ _ (hb _) (hb _)]
    exact Nat.mod_eq_of_lt (le16_lt buff _ hb)
  · simp only [decodeDirEntry]
    rw [LITTLE_ENDIAN_eq _ _ (hb _) (hb _)]
    exact Nat.mod_eq_of_lt (le16_lt buff _ hb)
  · exact extendedField_eq buff (index + 0x1C) hb

/-- The sample record (size bytes `0x78, 0x56, 0x34, 0xF2`) is decoded to the name
`FILE    TXT`, attribute `0x20`, time `0x8421`, date `0x595E` and size `0xF2345678`. -/
theorem createNewNodeAsDirEntry_fields_witness :
    (∀ i, sampleRecord i < 256) ∧ 0 + 32 ≤ 32 ∧
    createNewNodeAsDirEntry 32 sampleRecord 0 =
      .ok { fileName := [0x46, 0x49, 0x4C, 0x45, 0x20, 0x20, 0x20, 0x20, 0x54, 0x58, 0x54]
            attributes := 0x20, writeTime := 0x8421, writeDate := 0x595E, startCluster := 7
            fileSize := 0xF2345678 } ∧
    ∃ e, createNewNodeAsDirEntry 32 sampleRecord 0 = .ok e ∧
      e.writeTime = le16 sampleRecord 0x16 ∧ e.fileSize = le32 sampleRecord 0x1C ∧
      le32 sampleRecord 0x1C = 0xF2345678 :=
  ⟨fun _ => Nat.mod_lt _ (by decide), by decide, by decide,
   (createNewNodeAsDirEntry_fields 32 sampleRecord 0 (fun _ => Nat.mod_lt _ (by decide))
     (by decide)).imp
     (fun _ h => ⟨h.1, h.2.2.2.1, h.2.2.2.2.2, by decide⟩)⟩

/-! ## Boot sectors that a validating reader would refuse -/

/-- C18 fails on the code: the boot sector of `bootOddSectorDisk` is read in full and announces
1000 bytes per sector, which is not a power of two; initialisation reports no error:
`initFileFAT` returns the parsed geometry, `fatType` returns `FAT_12` and `localEachRegion`
returns a layout. -/
theorem initFileFAT_accepts_odd_sector_size :
    (HAL_ReadSector (initialState bootOddSectorDisk) 0).byteRead = BYTE_PER_SECTOR ∧
    le16 (HAL_ReadSector (initialState bootOddSectorDisk) 0).buff 0x0B = 1000 ∧
    (∀ k, k < 32 → 2 ^ k ≠ 1000) ∧
    (initFileFAT (initialState bootOddSectorDisk)).map (fun s => (s.s_bootInfo, s.sizeSector))
      = .ok ({ bytsPerSec := 1000, secPerClus := 1, rsvdSecCnt := 1, numFATs := 2,
               rootEntCnt := 224, FATsz := 9, totalSector := 2880, rootClus := 0 }, 1000) ∧
    (initFileFAT (initialState bootOddSectorDisk)).bind (fun s => fatType s.s_bootInfo)
      = .ok FAT_12 ∧
    (initFileFAT (initialState bootOddSectorDisk)).bind (fun s => localEachRegion s.s_bootInfo)
      = .ok { FATStartSector := 1, sectorInFAT := 18, rootDirStartSector := 19,
              sectorInRootDir := 8, dataStartSector := 27 } := by
  decide

/-- With a nonzero `bytsPerSec`, `localEachRegion` returns a layout. -/
theorem localEachRegion_ok (b : t_bootSector) (h : b.bytsPerSec ≠ 0) :
    ∃ loc, localEachRegion b = .ok loc := by
  unfold localEachRegion
  rw [if_neg h]
  exact ⟨_, rfl⟩

/-- C18 as amended: `initFileFAT`, `fatType` and `localEachRegion` validate nothing.  For every
boot sector that is read in full and whose fields `bytes_per_sector` (at `0x0B`) and
`sectors_per_cluster` (at `0x0D`) are not zero, whether or not `bytes_per_sector` is a power of
two, `initFileFAT` returns the parsed geometry, and on it `fatType` returns a variant and
`localEachRegion` returns a layout. -/
theorem initFileFAT_no_validation (st : State)
    (hr : (HAL_ReadSector st 0).byteRead = BYTE_PER_SECTOR)
    (hspc : (HAL_ReadSector st 0).buff 0x0D ≠ 0)
    (hbps : le16 (HAL_ReadSector st 0).buff 0x0B ≠ 0) :
    ∃ st2 t loc, initFileFAT st = .ok st2 ∧
      st2.s_bootInfo.bytsPerSec = le16 (HAL_ReadSector st 0).buff 0x0B ∧
      st2.s_bootInfo.secPerClus = (HAL_ReadSector st 0).buff 0x0D ∧
      fatType st2.s_bootInfo = .ok t ∧ (t = FAT_12 ∨ t = FAT_16 ∨ t = FAT_32) ∧
      localEachRegion st2.s_bootInfo = .ok loc := by
  have hb := HAL_ReadSector_byte st 0
  have hp := parseBootSector_eq st.s_bootInfo _ hb
  obtain ⟨t, _, hinit⟩ := initFileFAT_eq st hr hspc
  have hf : ∀ b : t_bootSector, b.secPerClus = (HAL_ReadSector st 0).buff 0x0D →
      b.bytsPerSec = le16 (HAL_ReadSector st 0).buff 0x0B →
      ∃ t loc, fatType b = .ok t ∧ (t = FAT_12 ∨ t = FAT_16 ∨ t = FAT_32) ∧
        localEachRegion b = .ok loc := by
    intro b h1 h2
    obtain ⟨t2, ht2, hv⟩ := fatType_ok b (by rw [h1]; exact hspc)
    obtain ⟨loc, hloc⟩ := localEachRegion_ok b (by rw [h2]; exact hbps)
    exact ⟨t2, loc, ht2, hv, hloc⟩
  have hsp : (parseBootSector st.s_bootInfo (HAL_ReadSector st 0).buff).secPerClus
      = (HAL_ReadSector st 0).buff 0x0D := by rw [hp]
  have hbp : (parseBootSector st.s_bootInfo (HAL_ReadSector st 0).buff).bytsPerSec
      = le16 (HAL_ReadSector st 0).buff 0x0B := by rw [hp]
  by_cases h32 : t = FAT_32
  · simp only [h32, if_true] at hinit
    obtain ⟨t2, loc, h1, h2, h3⟩ :=
      hf { parseBootSector st.s_bootInfo (HAL_ReadSector st 0).buff with
           rootClus := extendedField (HAL_ReadSector st 0).buff 0x2C % U16 } hsp hbp
    exact ⟨_, t2, loc, hinit, hbp, hsp, h1, h2, h3⟩
  · simp only [h32, if_false] at hinit
    obtain ⟨t2, loc, h1, h2, h3⟩ := hf _ hsp hbp
    exact ⟨_, t2, loc, hinit, hbp, hsp, h1, h2, h3⟩

/-- The boot sector with 1000 bytes per sector satisfies the hypotheses of
`initFileFAT_no_validation`. -/
theorem initFileFAT_no_validation_witness :
    (HAL_ReadSector (initialState bootOddSectorDisk) 0).byteRead = BYTE_PER_SECTOR ∧
    (HAL_ReadSector (initialState bootOddSectorDisk) 0).buff 0x0D ≠ 0 ∧
    le16 (HAL_ReadSector (initialState bootOddSectorDisk) 0).buff 0x0B ≠ 0 ∧
    ∃ st2 t loc, initFileFAT (initialState bootOddSectorDisk) = .ok st2 ∧
      st2.s_bootInfo.bytsPerSec = 1000 ∧
      fatType st2.s_bootInfo = .ok t ∧
      localEachRegion st2.s_bootInfo = .ok loc :=
  ⟨by decide, by decide, by decide,
   (initFileFAT_no_validation (initialState bootOddSectorDisk) (by decide) (by decide)
     (by decide)).imp
     (fun _ h => h.imp (fun _ h2 => h2.imp (fun _ h3 =>
       ⟨h3.1, h3.2.1.trans (by decide), h3.2.2.2.1, h3.2.2.2.2.2⟩)))⟩

/-- The two zero divisors.  On an image of zero bytes (`sectors_per_cluster = 0`) the division
in `fatType`, called by `initFileFAT`, has a zero divisor; on a boot record with
`bytsPerSec = 0` the division in `localEachRegion` has a zero divisor. -/
theorem initFileFAT_zero_divisors :
    (HAL_ReadSector (initialState blankDisk) 0).byteRead = BYTE_PER_SECTOR ∧
    (initFileFAT (initialState blankDisk)).map (fun s => s.s_bootInfo)
      = .error .divByZero ∧
    localEachRegion { floppyBoot with bytsPerSec := 0 } = .error .divByZero := by
  decide

/-! ## Failed directory reads -/

/-- A cluster whose block is not read in full contributes no record. -/
theorem clusterRecords_of_not_ok (st : State) (x : Nat) (h : ¬ clusterReadOk st x) :
    clusterRecords st x = [] := by
  unfold clusterReadOk at h
  unfold clusterRecords
  cases hn : readDirNum st (clusterSector st x) with
  | error e => rfl
  | ok num =>
    rw [hn] at h
    simp only [dirRecords, if_neg h]

/-- Dropping the elements that contribute the empty list does not change a concatenation. -/
theorem flatten_map_filter {α β : Type} (f : α → List β) (p : α → Bool) :
    ∀ (l : List α), (∀ x ∈ l, p x = false → f x = []) →
      (l.map f).flatten = ((l.filter p).map f).flatten := by
  intro l
  induction l with
  | nil => intro _; rfl
  | cons a l ih =>
    intro h
    have ih2 := ih (fun x hx => h x (List.mem_cons_of_mem _ hx))
    by_cases hp : p a = true
    · simp only [List.map_cons, List.flatten_cons, List.filter_cons, hp, if_true, ih2]
    · have hp2 : p a = false := by simpa using hp
      have ha := h a (List.mem_cons_self _ _) hp2
      simp only [List.map_cons, List.flatten_cons, List.filter_cons, hp2, ha, List.nil_append,
        ih2]
      simp

/-- C19 fails on the code: on the floppy image cut off after sector 36, the directory chain
`5 → 6` has its first cluster present and its second cluster behind the end of the image; the
read of cluster 6 delivers 0 bytes instead of 512, yet `loadDirEntry` goes through both
clusters and returns the list `[C]`, the record of cluster 5. -/
theorem loadDirEntry_keeps_records_after_failed_read :
    fatType truncatedState.s_bootInfo = .ok FAT_12 ∧
    IsChain truncatedState (thisLastCluster FAT_12) [5, 6] ∧
    clusterReadOk truncatedState 5 ∧
    (HAL_ReadMultiSector truncatedState (clusterSector truncatedState 6) 1).byteRead = 0 ∧
    ¬ clusterReadOk truncatedState 6 ∧
    loadDirEntry truncatedState 2 [] 5 =
      .ok ([{ cluster := 5, startEntry := 36 }, { cluster := 6, startEntry := 37 }],
           [entryC]) := by
  decide!

/-- C19 as amended: a directory-cluster read that fails does not abort the enumeration and
does not empty the list.  Along a chain `c, rest` of clusters (each at least 2)
`loadDirEntry` returns after one iteration per cluster, a cluster whose read fails contributes
no record, and the list is the concatenation, in chain order, of the records of the clusters
that were read in full, those before a failing cluster as well as those after it. -/
theorem loadDirEntry_failed_read (st : State) (t : Nat) (hT : fatType st.s_bootInfo = .ok t)
    (hs : st.sizeSector = st.s_bootInfo.bytsPerSec) (hdiv : 32 ∣ st.s_bootInfo.bytsPerSec)
    (c : Nat) (rest : List Nat) (hch : IsChain st (thisLastCluster t) (c :: rest))
    (h2 : ∀ x ∈ c :: rest, 2 ≤ x) (fuel : Nat) (hf : rest.length + 1 ≤ fuel)
    (head : List t_direcroryEntry) :
    (∀ x, ¬ clusterReadOk st x → ∀ head2, readDirEntry st head2 (clusterSector st x)
      = .ok head2) ∧
    loadDirEntry st fuel head c =
      .ok ((c :: rest).map (fun x => { cluster := x, startEntry := clusterSector st x }),
           (((c :: rest).filter (fun x => decide (clusterReadOk st x))).map
              (fun x => clusterRecords st x)).flatten) := by
  constructor
  · intro x hx head2
    rw [readDirEntry_cluster st t hT hs hdiv head2 x, clusterRecords_of_not_ok st x hx,
      List.append_nil]
  · have hc0 : c ≠ 0 := by
      have := h2 c (List.mem_cons_self _ _)
      omega
    have hnz : ∀ x ∈ c :: rest, x ≠ 0 := by
      intro x hx
      have := h2 x hx
      omega
    unfold loadDirEntry
    simp only [hT, deleteList]
    rw [if_neg (fun h => hc0 h.2)]
    rw [loadDirLoop_chain st t hT hs hdiv _ rest c fuel [] hch hnz hf, List.nil_append]
    rw [flatten_map_filter (fun x => clusterRecords st x)
      (fun x => decide (clusterReadOk st x)) (c :: rest)
      (fun x _ hx => clusterRecords_of_not_ok st x (by simpa using hx))]

set_option maxRecDepth 100000 in
/-- The cut-off floppy satisfies the hypotheses of `loadDirEntry_failed_read`: the chain
`5 → 6` is walked in full, the failed read of cluster 6 leaves the list as it is, and the list
returned is `[C]`. -/
theorem loadDirEntry_failed_read_witness :
    (fatType truncatedState.s_bootInfo = .ok FAT_12 ∧
      truncatedState.sizeSector = truncatedState.s_bootInfo.bytsPerSec ∧
      32 ∣ truncatedState.s_bootInfo.bytsPerSec ∧
      IsChain truncatedState (thisLastCluster FAT_12) [5, 6]) ∧
    readDirEntry truncatedState [entryC] (clusterSector truncatedState 6) = .ok [entryC] ∧
    loadDirEntry truncatedState 2 [entryB] 5 =
      .ok ([{ cluster := 5, startEntry := 36 }, { cluster := 6, startEntry := 37 }],
           [entryC]) :=
  ⟨by decide!,
   (loadDirEntry_failed_read truncatedState FAT_12 (by decide) (by decide) (by decide) 5 [6]
     (by decide!) (by decide) 2 (by decide) [entryB]).1 6 (by decide!) [entryC],
   ((loadDirEntry_failed_read truncatedState FAT_12 (by decide) (by decide) (by decide) 5 [6]
     (by decide!) (by decide) 2 (by decide) [entryB]).2).trans (by decide!)⟩

/-- When the read of the FAT region delivers fewer bytes than the region has, `nextCluster`
returns 0 for every cluster. -/
theorem nextCluster_short_read (st : State) (t c : Nat) (hT : fatType st.s_bootInfo = .ok t)
    (hlt : (HAL_ReadMultiSector st st.s_bootInfo.rsvdSecCnt st.s_bootInfo.FATsz).byteRead
      < fatBytes st) :
    nextCluster st c = .ok 0 := by
  unfold fatBytes at hlt
  unfold nextCluster
  simp only [hT, bind, Except.bind, if_neg (not_lt.mpr (le_of_lt hlt)), ne_eq,
    if_pos (ne_of_lt hlt)]

/-! ## The FAT12 pair law -/

/-- The FAT12 branch of `nextCluster` in arithmetic form: an even cluster yields the first byte
plus 256 times the low nibble of the second, an odd cluster the high nibble of the first byte
plus 16 times the second. -/
theorem nextCluster_fat12_arith (st : State) (c : Nat)
    (hT : fatType st.s_bootInfo = .ok FAT_12) (hR : fatReadOk st)
    (hc : c + (c >>> 1) < U16) (hin : c + (c >>> 1) + 1 < fatBytes st) :
    nextCluster st c =
      .ok (if c % 2 = 0 then
            fatByte st (c + (c >>> 1)) + 256 * (fatByte st (c + (c >>> 1) + 1) % 16)
          else
            fatByte st (c + (c >>> 1)) / 16 + 16 * fatByte st (c + (c >>> 1) + 1)) := by
  unfold fatReadOk fatBytes at hR
  unfold fatBytes at hin
  have h0 := fatByte_lt st (c + (c >>> 1))
  have h1 := fatByte_lt st (c + (c >>> 1) + 1)
  have ho : ((c + (c >>> 1)) % U32) % U16 = c + (c >>> 1) := by
    simp only [U16, U32] at hc ⊢
    omega
  have hodd : (fatByte st (c + (c >>> 1)) >>> SHIFT_4_BIT)
      ||| ((fatByte st (c + (c >>> 1) + 1) <<< SHIFT_4_BIT) % U32)
      = fatByte st (c + (c >>> 1)) / 16 + 16 * fatByte st (c + (c >>> 1) + 1) := by
    have e1 : (fatByte st (c + (c >>> 1) + 1) <<< SHIFT_4_BIT) % U32
        = 16 * fatByte st (c + (c >>> 1) + 1) := by
      rw [Nat.shiftLeft_eq]
      simp only [SHIFT_4_BIT, U32]
      omega
    have e2 : fatByte st (c + (c >>> 1)) >>> SHIFT_4_BIT = fatByte st (c + (c >>> 1)) / 16 := by
      rw [Nat.shiftRight_eq_div_pow]
      rfl
    rw [e1, e2, Nat.or_comm,
      or_eq_add (16 * fatByte st (c + (c >>> 1) + 1)) (fatByte st (c + (c >>> 1)) / 16) 4
        (by omega) ⟨fatByte st (c + (c >>> 1) + 1), by norm_num⟩]
    omega
  have heven : fatByte st (c + (c >>> 1))
      ||| (((fatByte st (c + (c >>> 1) + 1) &&& 0x0F) <<< SHIFT_8_BIT) % U32)
      = fatByte st (c + (c >>> 1)) + 256 * (fatByte st (c + (c >>> 1) + 1) % 16) := by
    have e0 : fatByte st (c + (c >>> 1) + 1) &&& 0x0F = fatByte st (c + (c >>> 1) + 1) % 16 :=
      Nat.and_pow_two_sub_one_eq_mod _ 4
    have e1 : ((fatByte st (c + (c >>> 1) + 1) % 16) <<< SHIFT_8_BIT) % U32
        = 256 * (fatByte st (c + (c >>> 1) + 1) % 16) := by
      rw [Nat.shiftLeft_eq]
      simp only [SHIFT_8_BIT, U32]
      omega
    rw [e0, e1, Nat.or_comm,
      or_eq_add (256 * (fatByte st (c + (c >>> 1) + 1) % 16)) (fatByte st (c + (c >>> 1))) 8
        (by omega) ⟨fatByte st (c + (c >>> 1) + 1) % 16, by norm_num⟩]
    omega
  unfold nextCluster
  simp only [hT, bind, Except.bind, hR, lt_irrefl, if_false, ne_eq, not_true_eq_false, if_true,
    ho, load]
  rw [if_pos (by omega), if_pos (by omega)]
  simp only [Nat.and_one_is_mod]
  by_cases hpar : c % 2 = 0
  · simp only [hpar, not_true_eq_false, if_false, if_true]
    exact congrArg Except.ok heven
  · simp only [hpar, not_false_eq_true, if_true, if_false]
    exact congrArg Except.ok hodd

/-- C20: on a FAT12 volume whose FAT region is read in full, for every even cluster index `c`
(with the entry offsets of `c` and `c + 1` within the 16-bit offset variable and the three
bytes inside the region) and every content of the region, with `W` the 24-bit little-endian
word of the bytes at offsets `c + c / 2`, `c + c / 2 + 1`, `c + c / 2 + 2`: `nextCluster c` is
the low 12 bits of `W` and `nextCluster (c + 1)` the high 12 bits of `W`. -/
theorem nextCluster_fat12_pair (st : State) (c : Nat)
    (hT : fatType st.s_bootInfo = .ok FAT_12) (hR : fatReadOk st)
    (heven : c % 2 = 0) (hc : c + 1 + ((c + 1) >>> 1) < U16)
    (hin : c + c / 2 + 2 < fatBytes st) :
    nextCluster st c = .ok (le24 (fatByte st) (c + c / 2) % 4096) ∧
    nextCluster st (c + 1) = .ok (le24 (fatByte st) (c + c / 2) / 4096) := by
  have hs0 : c >>> 1 = c / 2 := by rw [Nat.shiftRight_eq_div_pow]
  have hs1 : (c + 1) >>> 1 = c / 2 := by
    rw [Nat.shiftRight_eq_div_pow]
    omega
  have hodd : ¬ (c + 1) % 2 = 0 := by omega
  have h0 := fatByte_lt st (c + c / 2)
  have h1 := fatByte_lt st (c + c / 2 + 1)
  have h2 := fatByte_lt st (c + c / 2 + 2)
  have hoff : c + 1 + c / 2 = c + c / 2 + 1 := by omega
  constructor
  · rw [nextCluster_fat12_arith st c hT hR (by rw [hs0]; rw [hs1] at hc; omega)
      (by rw [hs0]; omega), if_pos heven, hs0]
    unfold le24
    congr 1
    omega
  · rw [nextCluster_fat12_arith st (c + 1) hT hR hc (by rw [hs1]; omega), if_neg hodd, hs1,
      hoff, show c + c / 2 + 1 + 1 = c + c / 2 + 2 from by omega]
    unfold le24
    congr 1
    omega

/-- Entries 2 and 3 of the sample FAT share the bytes `0x56, 0x34, 0x12` at offsets 3 to 5:
the word is `0x123456`, entry 2 is its low half `0x456` and entry 3 its high half `0x123`. -/
theorem nextCluster_fat12_pair_witness :
    (fatType fat12State.s_bootInfo = .ok FAT_12 ∧ fatReadOk fat12State ∧ 2 % 2 = 0 ∧
      2 + 1 + ((2 + 1) >>> 1) < U16 ∧ 2 + 2 / 2 + 2 < fatBytes fat12State) ∧
    le24 (fatByte fat12State) (2 + 2 / 2) = 0x123456 ∧
    nextCluster fat12State 2 = .ok 0x456 ∧ nextCluster fat12State 3 = .ok 0x123 :=
  ⟨by decide, by decide,
   ((nextCluster_fat12_pair fat12State 2 (by decide) (by decide) (by decide) (by decide)
     (by decide)).1).trans (by decide),
   ((nextCluster_fat12_pair fat12State 2 (by decide) (by decide) (by decide) (by decide)
     (by decide)).2).trans (by decide)⟩

/-! ## The first iteration, termination and the threshold -/

/-- Every cluster of a chain is below the bound. -/
theorem IsChain_lt (st : State) (last : Nat) :
    ∀ (cs : List Nat), IsChain st last cs → ∀ x ∈ cs, x < last := by
  intro cs
  induction cs with
  | nil => intro h; exact absurd h id
  | cons c rest ih =>
    intro h x hx
    cases rest with
    | nil =>
      unfold IsChain at h
      simp only [List.mem_singleton] at hx
      rw [hx]; exact h.1
    | cons d rest2 =>
      unfold IsChain at h
      rcases List.mem_cons.mp hx with rfl | hx2
      · exact h.1
      · exact ih h.2.2 x hx2

/-- The last cluster of a chain has a successor at or above the bound. -/
theorem IsChain_getLast (st : State) (last : Nat) :
    ∀ (cs : List Nat), IsChain st last cs →
      ∀ x, cs.getLast? = some x → ∃ e, nextCluster st x = .ok e ∧ last ≤ e := by
  intro cs
  induction cs with
  | nil => intro h; exact absurd h id
  | cons c rest ih =>
    intro h x hx
    cases rest with
    | nil =>
      simp only [List.getLast?_singleton, Option.some.injEq] at hx
      subst hx
      exact (IsChain_single st last c h).2
    | cons d rest2 =>
      unfold IsChain at h
      rw [List.getLast?_cons_cons] at hx
      exact ih h.2.2 x hx

/-- A run of the loop of `loadFile` that returns has visited a chain that starts at the value
the loop was entered with. -/
theorem loadFileLoop_ok_chain (st : State) (last : Nat) :
    ∀ (fuel temp count : Nat) (steps : List FileStep),
      loadFileLoop st last fuel temp count = .ok steps → temp < last →
      ∃ rest, steps.map (fun x => x.cluster) = temp :: rest ∧ IsChain st last (temp :: rest) := by
  intro fuel
  induction fuel with
  | zero =>
    intro temp count steps h hlt
    simp [loadFileLoop, hlt] at h
  | succ f ih =>
    intro temp count steps h hlt
    rw [loadFileLoop, if_pos hlt] at h
    cases hn : nextCluster st temp with
    | error e => simp [hn] at h
    | ok n =>
      simp only [hn] at h
      cases hrec : loadFileLoop st last f n ((count + 1) % U16) with
      | error e => simp [hrec] at h
      | ok steps2 =>
        simp only [hrec, Except.ok.injEq] at h
        subst h
        by_cases hnl : n < last
        · obtain ⟨rest2, hmap, hch⟩ := ih n _ steps2 hrec hnl
          refine ⟨n :: rest2, ?_, ?_⟩
          · simp only [List.map_cons, hmap]
          · unfold IsChain
            exact ⟨hlt, hn, hch⟩
        · rw [loadFileLoop_done st last f n _ hnl] at hrec
          simp only [Except.ok.injEq] at hrec
          subst hrec
          refine ⟨[], rfl, ?_⟩
          unfold IsChain
          simp only [hn]
          exact ⟨hlt, not_lt.mp hnl⟩

/-- The loop of `loadFile`, one iteration unfolded: the read for `temp` is issued with a sector
computed from `temp` alone, and the successor of `temp` only selects what follows. -/
theorem loadFileLoop_succ (st : State) (last fuel temp count : Nat) (hlt : temp < last) :
    loadFileLoop st last (fuel + 1) temp count =
      (nextCluster st temp).bind (fun n =>
        (loadFileLoop st last fuel n ((count + 1) % U16)).map (fun steps =>
          { cluster := temp, position := clusterSector st temp % U16,
            num := st.s_bootInfo.secPerClus,
            offset :=
              (((st.s_bootInfo.bytsPerSec * st.s_bootInfo.secPerClus) % U32) * count) % U32,
            byteRead := (HAL_ReadMultiSector st (clusterSector st temp % U16)
              st.s_bootInfo.secPerClus).byteRead } :: steps)) := by
  rw [loadFileLoop, if_pos hlt]
  cases nextCluster st temp with
  | error e => rfl
  | ok n =>
    simp only [Except.bind]
    cases loadFileLoop st last fuel n ((count + 1) % U16) <;> rfl

/-- The loop of `loadDirEntry`, one iteration unfolded for a nonzero `temp`. -/
theorem loadDirLoop_succ (st : State) (last fuel temp : Nat) (head : List t_direcroryEntry)
    (hlt : temp < last) (h0 : temp ≠ 0) :
    loadDirLoop st last (fuel + 1) temp head =
      (nextCluster st temp).bind (fun n =>
        (readDirEntry st head (clusterSector st temp)).bind (fun head2 =>
          (loadDirLoop st last fuel n head2).map (fun r =>
            ({ cluster := temp, startEntry := clusterSector st temp } :: r.1, r.2)))) := by
  rw [loadDirLoop, if_pos hlt]
  simp only [if_neg h0]
  cases nextCluster st temp with
  | error e => rfl
  | ok n =>
    simp only [Except.bind]
    cases readDirEntry st head (clusterSector st temp) with
    | error e => rfl
    | ok head2 =>
      simp only
      cases loadDirLoop st last fuel n head2 with
      | error e => rfl
      | ok r => rfl

/-- C21 fails on the code: on the FAT16 volume (threshold `0xFFF8`) a walk started at cluster
`0xFFF8` makes no iteration at all, in `loadFile` and in `loadDirEntry`: the start cluster is
not visited. -/
theorem chainWalk_skips_start_at_threshold :
    fatType fat16State.s_bootInfo = .ok FAT_16 ∧ thisLastCluster FAT_16 = 0xFFF8 ∧
    (∀ fuel, loadFile fat16State fuel 0xFFF8 = .ok []) ∧
    (∀ fuel head, loadDirEntry fat16State fuel head 0xFFF8 = .ok ([], [])) := by
  have hT : fatType fat16State.s_bootInfo = .ok FAT_16 := by decide
  refine ⟨hT, by decide, ?_, ?_⟩
  · intro fuel
    unfold loadFile
    simp only [hT]
    exact loadFileLoop_done _ _ _ _ _ (by decide)
  · intro fuel head
    unfold loadDirEntry
    simp only [hT, deleteList]
    rw [if_neg (by decide)]
    exact loadDirLoop_done _ _ _ _ _ (by decide)

/-- C21 as amended: the loops of `loadFile` and `loadDirEntry` test `temp < thisLastCluster`
before every iteration, the first included.  A start cluster at or above the threshold is not
visited: the walk makes no iteration.  For a start cluster below the threshold (and not zero
for `loadDirEntry`) the first iteration is the one for the start cluster, with a sector
computed from the start cluster alone; the FAT entry of the start cluster only determines the
iterations after it. -/
theorem chainWalk_first_iteration (st : State) (t : Nat) (hT : fatType st.s_bootInfo = .ok t)
    (start fuel : Nat) (head : List t_direcroryEntry) :
    (thisLastCluster t ≤ start →
      loadFile st fuel start = .ok [] ∧
      (start ≠ 0 → loadDirEntry st fuel head start = .ok ([], []))) ∧
    (start < thisLastCluster t →
      loadFile st (fuel + 1) start =
        (nextCluster st start).bind (fun n =>
          (loadFileLoop st (thisLastCluster t) fuel n 1).map (fun steps =>
            { cluster := start, position := clusterSector st start % U16,
              num := st.s_bootInfo.secPerClus, offset := 0,
              byteRead := (HAL_ReadMultiSector st (clusterSector st start % U16)
                st.s_bootInfo.secPerClus).byteRead } :: steps)) ∧
      (start ≠ 0 →
        loadDirEntry st (fuel + 1) head start =
          (nextCluster st start).bind (fun n =>
            (readDirEntry st [] (clusterSector st start)).bind (fun head2 =>
              (loadDirLoop st (thisLastCluster t) fuel n head2).map (fun r =>
                ({ cluster := start, startEntry := clusterSector st start } :: r.1, r.2))))) ∧
      (∀ steps, loadFile st (fuel + 1) start = .ok steps →
        ∃ tail, steps.map (fun x => x.cluster) = start :: tail)) := by
  constructor
  · intro hge
    constructor
    · unfold loadFile
      simp only [hT]
      exact loadFileLoop_done _ _ _ _ _ (not_lt.mpr hge)
    · intro h0
      unfold loadDirEntry
      simp only [hT, deleteList]
      rw [if_neg (fun h => h0 h.2)]
      exact loadDirLoop_done _ _ _ _ _ (not_lt.mpr hge)
  · intro hlt
    refine ⟨?_, ?_, ?_⟩
    · unfold loadFile
      simp only [hT]
      rw [loadFileLoop_succ st _ fuel start 0 hlt]
      simp only [Nat.mul_zero, Nat.zero_mod, Nat.zero_add]
      rfl
    · intro h0
      unfold loadDirEntry
      simp only [hT, deleteList]
      rw [if_neg (fun h => h0 h.2)]
      exact loadDirLoop_succ st _ fuel start [] hlt h0
    · intro steps hrun
      unfold loadFile at hrun
      simp only [hT] at hrun
      obtain ⟨rest, hmap, _⟩ := loadFileLoop_ok_chain st _ (fuel + 1) start 0 steps hrun hlt
      exact ⟨rest, hmap⟩

/-- On the FAT16 image with the chain `2 → 3 → 4 → end`, the walk from cluster 2 satisfies the
hypothesis of `chainWalk_first_iteration`; the first iteration is the one of cluster 2. -/
theorem chainWalk_first_iteration_witness :
    fatType fat16ChainState.s_bootInfo = .ok FAT_16 ∧
    (loadFile fat16ChainState 3 2).map (fun steps => steps.map (fun x => x.cluster))
      = .ok [2, 3, 4] ∧
    ((thisLastCluster FAT_16 ≤ 2 →
      loadFile fat16ChainState 2 2 = .ok [] ∧
      ((2 : Nat) ≠ 0 → loadDirEntry fat16ChainState 2 [] 2 = .ok ([], []))) ∧
    (2 < thisLastCluster FAT_16 →
      loadFile fat16ChainState (2 + 1) 2 =
        (nextCluster fat16ChainState 2).bind (fun n =>
          (loadFileLoop fat16ChainState (thisLastCluster FAT_16) 2 n 1).map (fun steps =>
            { cluster := 2, position := clusterSector fat16ChainState 2 % U16,
              num := fat16ChainState.s_bootInfo.secPerClus, offset := 0,
              byteRead := (HAL_ReadMultiSector fat16ChainState
                (clusterSector fat16ChainState 2 % U16)
                fat16ChainState.s_bootInfo.secPerClus).byteRead } :: steps)) ∧
      ((2 : Nat) ≠ 0 →
        loadDirEntry fat16ChainState (2 + 1) [] 2 =
          (nextCluster fat16ChainState 2).bind (fun n =>
            (readDirEntry fat16ChainState [] (clusterSector fat16ChainState 2)).bind
              (fun head2 =>
                (loadDirLoop fat16ChainState (thisLastCluster FAT_16) 2 n head2).map (fun r =>
                  ({ cluster := 2, startEntry := clusterSector fat16ChainState 2 } :: r.1,
                    r.2))))) ∧
      (∀ steps, loadFile fat16ChainState (2 + 1) 2 = .ok steps →
        ∃ tail, steps.map (fun x => x.cluster) = 2 :: tail))) :=
  ⟨by decide, by decide, chainWalk_first_iteration fat16ChainState FAT_16 (by decide) 2 2 []⟩

/-- With fewer iterations allowed than a chain has clusters, the loop of `loadFile` is still
running when the budget ends. -/
theorem loadFileLoop_short (st : State) (last : Nat) :
    ∀ (rest : List Nat) (c fuel count : Nat), IsChain st last (c :: rest) →
      fuel ≤ rest.length → loadFileLoop st last fuel c count = .error .outOfFuel := by
  intro rest
  induction rest with
  | nil =>
    intro c fuel count hch hf
    obtain ⟨hlt, _⟩ := IsChain_single st last c hch
    obtain rfl : fuel = 0 := by simpa using hf
    rw [loadFileLoop, if_pos hlt]
  | cons d rest ih =>
    intro c fuel count hch hf
    unfold IsChain at hch
    obtain ⟨hlt, hn, hrest⟩ := hch
    cases fuel with
    | zero => rw [loadFileLoop, if_pos hlt]
    | succ f =>
      have hf2 : f ≤ rest.length := by simpa using hf
      rw [loadFileLoop, if_pos hlt]
      simp only [hn, ih d f _ hrest hf2]

/-- The two-cluster cycle of the sample image: the loop of `loadFile` never reaches its exit. -/
theorem loadFileLoop_cycle :
    ∀ (fuel count : Nat),
      loadFileLoop fat16CycleState (thisLastCluster FAT_16) fuel 2 count = .error .outOfFuel ∧
      loadFileLoop fat16CycleState (thisLastCluster FAT_16) fuel 3 count = .error .outOfFuel := by
  have h23 : nextCluster fat16CycleState 2 = .ok 3 := by decide
  have h32 : nextCluster fat16CycleState 3 = .ok 2 := by decide
  have h2 : 2 < thisLastCluster FAT_16 := by decide
  have h3 : 3 < thisLastCluster FAT_16 := by decide
  intro fuel
  induction fuel with
  | zero =>
    intro count
    constructor
    · rw [loadFileLoop, if_pos h2]
    · rw [loadFileLoop, if_pos h3]
  | succ f ih =>
    intro count
    constructor
    · rw [loadFileLoop, if_pos h2]
      simp only [h23, (ih _).2]
    · rw [loadFileLoop, if_pos h3]
      simp only [h32, (ih _).1]

/-- The two-cluster cycle of the sample image: the loop of `loadDirEntry` never reaches its
exit. -/
theorem loadDirLoop_cycle :
    ∀ (fuel : Nat) (head : List t_direcroryEntry),
      loadDirLoop fat16CycleState (thisLastCluster FAT_16) fuel 2 head = .error .outOfFuel ∧
      loadDirLoop fat16CycleState (thisLastCluster FAT_16) fuel 3 head = .error .outOfFuel := by
  have h23 : nextCluster fat16CycleState 2 = .ok 3 := by decide
  have h32 : nextCluster fat16CycleState 3 = .ok 2 := by decide
  have h2 : 2 < thisLastCluster FAT_16 := by decide
  have h3 : 3 < thisLastCluster FAT_16 := by decide
  have hT : fatType fat16CycleState.s_bootInfo = .ok FAT_16 := by decide
  have hrd : ∀ head x, readDirEntry fat16CycleState head (clusterSector fat16CycleState x)
      = .ok (head ++ clusterRecords fat16CycleState x) :=
    fun head x => readDirEntry_cluster fat16CycleState FAT_16 hT (by decide) (by decide) head x
  intro fuel
  induction fuel with
  | zero =>
    intro head
    constructor
    · rw [loadDirLoop, if_pos h2]
    · rw [loadDirLoop, if_pos h3]
  | succ f ih =>
    intro head
    constructor
    · rw [loadDirLoop, if_pos h2]
      simp only [if_neg (by decide : ¬ (2 : Nat) = 0), h23, hrd, (ih _).2]
    · rw [loadDirLoop, if_pos h3]
      simp only [if_neg (by decide : ¬ (3 : Nat) = 0), h32, hrd, (ih _).1]

/-- C22 fails on the code: on a FAT16 image whose entries 2 and 3 point at each other
(`2 → 3 → 2`) the walk from cluster 2 is still running after any number of iterations, in
`loadFile` and in `loadDirEntry`. -/
theorem chainWalk_cycle_never_ends :
    fatType fat16CycleState.s_bootInfo = .ok FAT_16 ∧
    nextCluster fat16CycleState 2 = .ok 3 ∧ nextCluster fat16CycleState 3 = .ok 2 ∧
    (∀ fuel, loadFile fat16CycleState fuel 2 = .error .outOfFuel) ∧
    (∀ fuel head, loadDirEntry fat16CycleState fuel head 2 = .error .outOfFuel) := by
  have hT : fatType fat16CycleState.s_bootInfo = .ok FAT_16 := by decide
  refine ⟨hT, by decide, by decide, ?_, ?_⟩
  · intro fuel
    unfold loadFile
    simp only [hT]
    exact (loadFileLoop_cycle fuel 0).1
  · intro fuel head
    unfold loadDirEntry
    simp only [hT]
    rw [if_neg (by decide)]
    exact (loadDirLoop_cycle fuel _).1

/-- C22 as amended: the walk has no cycle detection, and it terminates only on a finite chain.
From a start cluster below the threshold `loadFile` returns exactly when the FAT entries
reached from it form a chain that ends in a value at or above the threshold; it then makes one
iteration for each cluster of the chain, no fewer.  On such a chain without a zero cluster
`loadDirEntry` returns as well (sector size of the reader equal to `bytsPerSec`, a multiple
of 32). -/
theorem chainWalk_terminates_iff_chain (st : State) (t : Nat)
    (hT : fatType st.s_bootInfo = .ok t) (c : Nat) (hlt : c < thisLastCluster t) :
    ((∃ fuel steps, loadFile st fuel c = .ok steps) ↔
      ∃ rest, IsChain st (thisLastCluster t) (c :: rest)) ∧
    (∀ rest, IsChain st (thisLastCluster t) (c :: rest) →
      (∀ fuel, rest.length + 1 ≤ fuel →
        ∃ steps, loadFile st fuel c = .ok steps ∧ steps.length = rest.length + 1) ∧
      (∀ fuel, fuel ≤ rest.length → loadFile st fuel c = .error .outOfFuel) ∧
      (st.sizeSector = st.s_bootInfo.bytsPerSec → 32 ∣ st.s_bootInfo.bytsPerSec →
        (∀ x ∈ c :: rest, x ≠ 0) → ∀ fuel head, rest.length + 1 ≤ fuel →
        ∃ r, loadDirEntry st fuel head c = .ok r ∧ r.1.length = rest.length + 1)) := by
  constructor
  · constructor
    · rintro ⟨fuel, steps, hrun⟩
      unfold loadFile at hrun
      simp only [hT] at hrun
      obtain ⟨rest, _, hch⟩ := loadFileLoop_ok_chain st _ fuel c 0 steps hrun hlt
      exact ⟨rest, hch⟩
    · rintro ⟨rest, hch⟩
      exact ⟨rest.length + 1, _, (loadFile_chain st t hT c rest hch _ le_rfl).1⟩
  · intro rest hch
    refine ⟨?_, ?_, ?_⟩
    · intro fuel hf
      refine ⟨_, (loadFile_chain st t hT c rest hch fuel hf).1, ?_⟩
      have h := congrArg List.length (fileSteps_cluster st (c :: rest) 0)
      simpa using h
    · intro fuel hf
      unfold loadFile
      simp only [hT]
      exact loadFileLoop_short st _ rest c fuel 0 hch hf
    · intro hs hdiv hnz fuel head hf
      have h0 : c ≠ 0 := hnz c (List.mem_cons_self _ _)
      unfold loadDirEntry
      simp only [hT, deleteList]
      rw [if_neg (fun h => h0 h.2),
        loadDirLoop_chain st t hT hs hdiv _ rest c fuel [] hch hnz hf]
      exact ⟨_, rfl, by simp⟩

/-- On the FAT16 image with the chain `2 → 3 → 4 → end`, cluster 2 satisfies the hypotheses of
`chainWalk_terminates_iff_chain`, and `[2, 3, 4]` is the chain that makes the walk return. -/
theorem chainWalk_terminates_iff_chain_witness :
    (fatType fat16ChainState.s_bootInfo = .ok FAT_16 ∧ 2 < thisLastCluster FAT_16 ∧
      IsChain fat16ChainState (thisLastCluster FAT_16) [2, 3, 4]) ∧
    (((∃ fuel steps, loadFile fat16ChainState fuel 2 = .ok steps) ↔
      ∃ rest, IsChain fat16ChainState (thisLastCluster FAT_16) (2 :: rest)) ∧
    (∀ rest, IsChain fat16ChainState (thisLastCluster FAT_16) (2 :: rest) →
      (∀ fuel, rest.length + 1 ≤ fuel →
        ∃ steps, loadFile fat16ChainState fuel 2 = .ok steps ∧
          steps.length = rest.length + 1) ∧
      (∀ fuel, fuel ≤ rest.length → loadFile fat16ChainState fuel 2 = .error .outOfFuel) ∧
      (fat16ChainState.sizeSector = fat16ChainState.s_bootInfo.bytsPerSec →
        32 ∣ fat16ChainState.s_bootInfo.bytsPerSec →
        (∀ x ∈ 2 :: rest, x ≠ 0) → ∀ fuel head, rest.length + 1 ≤ fuel →
        ∃ r, loadDirEntry fat16ChainState fuel head 2 = .ok r ∧
          r.1.length = rest.length + 1))) :=
  ⟨⟨by decide, by decide, by decide⟩,
   chainWalk_terminates_iff_chain fat16ChainState FAT_16 (by decide) 2 (by decide)⟩

/-- C23: the thresholds are `0x0FF8` (FAT12), `0xFFF8` (FAT16) and `0x0FFFFFF8` (FAT32).  Whenever
`loadFile` returns, every cluster it issued a read for is strictly below the threshold of the
variant, consecutive reads are linked by `nextCluster`, and the successor of the cluster read
last is at or above the threshold: no read is made for that successor.  A start cluster at or
above the threshold gets no read.  On every chain `loadFile` does return, with one read per
cluster of the chain. -/
theorem loadFile_reads_below_threshold (st : State) (t : Nat)
    (hT : fatType st.s_bootInfo = .ok t) :
    (thisLastCluster FAT_12 = 0x0FF8 ∧ thisLastCluster FAT_16 = 0xFFF8 ∧
      thisLastCluster FAT_32 = 0x0FFFFFF8) ∧
    (∀ fuel start steps, loadFile st fuel start = .ok steps →
      (∀ x ∈ steps, x.cluster < thisLastCluster t) ∧
      (steps ≠ [] →
        (steps.map (fun x => x.cluster)).head? = some start ∧
        IsChain st (thisLastCluster t) (steps.map (fun x => x.cluster))) ∧
      (∀ x, (steps.map (fun x => x.cluster)).getLast? = some x →
        ∃ e, nextCluster st x = .ok e ∧ thisLastCluster t ≤ e) ∧
      (thisLastCluster t ≤ start → steps = [])) ∧
    (∀ c rest, IsChain st (thisLastCluster t) (c :: rest) → ∀ fuel, rest.length + 1 ≤ fuel →
      ∃ steps, loadFile st fuel c = .ok steps ∧ steps.map (fun x => x.cluster) = c :: rest) := by
  refine ⟨⟨by decide, by decide, by decide⟩, ?_, ?_⟩
  · intro fuel start steps hrun
    unfold loadFile at hrun
    simp only [hT] at hrun
    by_cases hlt : start < thisLastCluster t
    · obtain ⟨rest, hmap, hch⟩ := loadFileLoop_ok_chain st _ fuel start 0 steps hrun hlt
      refine ⟨?_, ?_, ?_, ?_⟩
      · intro x hx
        apply IsChain_lt st _ _ hch
        rw [← hmap]
        exact List.mem_map_of_mem (fun x => x.cluster) hx
      · intro _
        rw [hmap]
        exact ⟨rfl, hch⟩
      · intro x hx
        rw [hmap] at hx
        exact IsChain_getLast st _ _ hch x hx
      · intro hge
        exact absurd hlt (not_lt.mpr hge)
    · rw [loadFileLoop_done st _ fuel start 0 hlt] at hrun
      have hnil : steps = [] := by
        injection hrun with h
        exact h.symm
      subst hnil
      refine ⟨?_, ?_, ?_, ?_⟩
      · intro x hx
        cases hx
      · intro h
        exact absurd rfl h
      · intro x hx
        simp at hx
      · intro _
        rfl
  · intro c rest hch fuel hf
    exact ⟨_, loadFile_chain st t hT c rest hch fuel hf⟩

/-- On the FAT16 image with the chain `2 → 3 → 4 → end` the hypothesis of
`loadFile_reads_below_threshold` holds, and the reads are those of clusters 2, 3 and 4. -/
theorem loadFile_reads_below_threshold_witness :
    (fatType fat16ChainState.s_bootInfo = .ok FAT_16 ∧
      (loadFile fat16ChainState 3 2).map (fun steps => steps.map (fun x => x.cluster))
        = .ok [2, 3, 4] ∧
      nextCluster fat16ChainState 4 = .ok 0xFFFF) ∧
    ((thisLastCluster FAT_12 = 0x0FF8 ∧ thisLastCluster FAT_16 = 0xFFF8 ∧
      thisLastCluster FAT_32 = 0x0FFFFFF8) ∧
    (∀ fuel start steps, loadFile fat16ChainState fuel start = .ok steps →
      (∀ x ∈ steps, x.cluster < thisLastCluster FAT_16) ∧
      (steps ≠ [] →
        (steps.map (fun x => x.cluster)).head? = some start ∧
        IsChain fat16ChainState (thisLastCluster FAT_16) (steps.map (fun x => x.cluster))) ∧
      (∀ x, (steps.map (fun x => x.cluster)).getLast? = some x →
        ∃ e, nextCluster fat16ChainState x = .ok e ∧ thisLastCluster FAT_16 ≤ e) ∧
      (thisLastCluster FAT_16 ≤ start → steps = [])) ∧
    (∀ c rest, IsChain fat16ChainState (thisLastCluster FAT_16) (c :: rest) →
      ∀ fuel, rest.length + 1 ≤ fuel →
      ∃ steps, loadFile fat16ChainState fuel c = .ok steps ∧
        steps.map (fun x => x.cluster) = c :: rest)) :=
  ⟨⟨by decide, by decide, by decide⟩,
   loadFile_reads_below_threshold fat16ChainState FAT_16 (by decide)⟩

/-! ## The width of a FAT entry -/

/-- A load that succeeds delivers the byte at the index. -/
theorem load_ok (sz : Nat) (buff : Nat → Nat) (i v : Nat) (h : load sz buff i = .ok v) :
    v = buff i := by
  unfold load at h
  split_ifs at h
  injection h with h
  exact h.symm

/-- The bytes that a HAL read stores are bytes. -/
theorem HAL_ReadMultiSector_byte (st : State) (index num i : Nat) :
    (HAL_ReadMultiSector st index num).buff i < 256 := by
  unfold HAL_ReadMultiSector
  exact Nat.mod_lt _ (by decide)

/-- A byte shifted left by `k` bits and reduced modulo `2 ^ 32` is below `2 ^ (8 + k)`. -/
theorem shift_mod_lt (x k : Nat) (hx : x < 256) : (x <<< k) % U32 < 2 ^ (8 + k) := by
  apply lt_of_le_of_lt (Nat.mod_le _ _)
  rw [Nat.shiftLeft_eq, pow_add]
  exact Nat.mul_lt_mul_of_lt_of_le hx le_rfl (by positivity)

/-- The FAT12 value assembled by `nextCluster` fits 12 bits. -/
theorem fat12_value_lt (b0 b1 : Nat) (h0 : b0 < 256) (h1 : b1 < 256) :
    (b0 >>> SHIFT_4_BIT) ||| ((b1 <<< SHIFT_4_BIT) % U32) < 2 ^ 12 ∧
    b0 ||| (((b1 &&& 0x0F) <<< SHIFT_8_BIT) % U32) < 2 ^ 12 := by
  constructor
  · apply Nat.or_lt_two_pow
    · rw [Nat.shiftRight_eq_div_pow]
      simp only [SHIFT_4_BIT]
      omega
    · exact shift_mod_lt b1 4 h1
  · apply Nat.or_lt_two_pow
    · omega
    · apply lt_of_le_of_lt (Nat.mod_le _ _)
      have hand : b1 &&& 0x0F < 16 := lt_of_le_of_lt Nat.and_le_right (by decide)
      rw [Nat.shiftLeft_eq]
      simp only [SHIFT_8_BIT]
      omega

/-- The FAT16 value assembled by `nextCluster` fits 16 bits. -/
theorem fat16_value_lt (b0 b1 : Nat) (h0 : b0 < 256) (h1 : b1 < 256) :
    b0 ||| ((b1 <<< SHIFT_8_BIT) % U32) < 2 ^ 16 := by
  apply Nat.or_lt_two_pow
  · omega
  · exact shift_mod_lt b1 8 h1

/-- The FAT32 value assembled by `nextCluster` fits 28 bits. -/
theorem fat32_value_lt (b0 b1 b2 b3 : Nat) (h0 : b0 < 256) (h1 : b1 < 256) (h2 : b2 < 256) :
    b0 ||| ((b1 <<< SHIFT_8_BIT) % U32) ||| ((b2 <<< SHIFT_16_BIT) % U32)
      ||| (((b3 &&& 0x0F) <<< SHIFT_24_BIT) % U32) < 2 ^ 28 := by
  apply Nat.or_lt_two_pow
  · apply Nat.or_lt_two_pow
    · apply Nat.or_lt_two_pow
      · omega
      · exact lt_of_lt_of_le (shift_mod_lt b1 8 h1) (by decide)
    · exact lt_of_lt_of_le (shift_mod_lt b2 16 h2) (by decide)
  · apply lt_of_le_of_lt (Nat.mod_le _ _)
    have hand : b3 &&& 0x0F < 16 := lt_of_le_of_lt Nat.and_le_right (by decide)
    rw [Nat.shiftLeft_eq]
    simp only [SHIFT_24_BIT]
    omega

/-- Every value that `nextCluster` returns has the width of an entry of the variant. -/
theorem nextCluster_lt (st : State) (t : Nat) (hT : fatType st.s_bootInfo = .ok t)
    (c v : Nat) (h : nextCluster st c = .ok v) :
    (t = FAT_12 → v < 2 ^ 12) ∧ (t = FAT_16 → v < 2 ^ 16) ∧ (t = FAT_32 → v < 2 ^ 28) := by
  have hbyte := HAL_ReadMultiSector_byte st st.s_bootInfo.rsvdSecCnt st.s_bootInfo.FATsz
  have hz : v = 0 →
      (t = FAT_12 → v < 2 ^ 12) ∧ (t = FAT_16 → v < 2 ^ 16) ∧ (t = FAT_32 → v < 2 ^ 28) := by
    intro hv
    subst hv
    exact ⟨fun _ => by decide, fun _ => by decide, fun _ => by decide⟩
  unfold nextCluster at h
  simp only [hT, bind, Except.bind] at h
  split_ifs at h with h1 h2 h12 hodd h16 h32
  · exact hz (by injection h with h; exact h.symm)
  · -- FAT12, odd cluster
    cases hb0 : load ((st.s_bootInfo.FATsz * st.s_bootInfo.bytsPerSec) % U32)
        (HAL_ReadMultiSector st st.s_bootInfo.rsvdSecCnt st.s_bootInfo.FATsz).buff
        (((c + (c >>> 1)) % U32) % U16) with
    | error e => rw [hb0] at h; cases h
    | ok b0 =>
      rw [hb0] at h
      cases hb1 : load ((st.s_bootInfo.FATsz * st.s_bootInfo.bytsPerSec) % U32)
          (HAL_ReadMultiSector st st.s_bootInfo.rsvdSecCnt st.s_bootInfo.FATsz).buff
          (((c + (c >>> 1)) % U32) % U16 + 1) with
      | error e => rw [hb1] at h; cases h
      | ok b1 =>
        rw [hb1] at h
        injection h with h
        have e0 := load_ok _ _ _ _ hb0
        have e1 := load_ok _ _ _ _ hb1
        have hv := (fat12_value_lt b0 b1 (e0 ▸ hbyte _) (e1 ▸ hbyte _)).1
        rw [h] at hv
        refine ⟨fun _ => hv, fun h => ?_, fun h => ?_⟩
        · rw [h12] at h; exact absurd h (by decide)
        · rw [h12] at h; exact absurd h (by decide)
  · -- FAT12, even cluster
    cases hb0 : load ((st.s_bootInfo.FATsz * st.s_bootInfo.bytsPerSec) % U32)
        (HAL_ReadMultiSector st st.s_bootInfo.rsvdSecCnt st.s_bootInfo.FATsz).buff
        (((c + (c >>> 1)) % U32) % U16) with
    | error e => rw [hb0] at h; cases h
    | ok b0 =>
      rw [hb0] at h
      cases hb1 : load ((st.s_bootInfo.FATsz * st.s_bootInfo.bytsPerSec) % U32)
          (HAL_ReadMultiSector st st.s_bootInfo.rsvdSecCnt st.s_bootInfo.FATsz).buff
          (((c + (c >>> 1)) % U32) % U16 + 1) with
      | error e => rw [hb1] at h; cases h
      | ok b1 =>
        rw [hb1] at h
        injection h with h
        have e0 := load_ok _ _ _ _ hb0
        have e1 := load_ok _ _ _ _ hb1
        have hv := (fat12_value_lt b0 b1 (e0 ▸ hbyte _) (e1 ▸ hbyte _)).2
        rw [h] at hv
        refine ⟨fun _ => hv, fun h => ?_, fun h => ?_⟩
        · rw [h12] at h; exact absurd h (by decide)
        · rw [h12] at h; exact absurd h (by decide)
  · -- FAT16
    cases hb0 : load ((st.s_bootInfo.FATsz * st.s_bootInfo.bytsPerSec) % U32)
        (HAL_ReadMultiSector st st.s_bootInfo.rsvdSecCnt st.s_bootInfo.FATsz).buff
        (((c * 2) % U32) % U16) with
    | error e => rw [hb0] at h; cases h
    | ok b0 =>
      rw [hb0] at h
      cases hb1 : load ((st.s_bootInfo.FATsz * st.s_bootInfo.bytsPerSec) % U32)
          (HAL_ReadMultiSector st st.s_bootInfo.rsvdSecCnt st.s_bootInfo.FATsz).buff
          (((c * 2) % U32) % U16 + 1) with
      | error e => rw [hb1] at h; cases h
      | ok b1 =>
        rw [hb1] at h
        injection h with h
        have e0 := load_ok _ _ _ _ hb0
        have e1 := load_ok _ _ _ _ hb1
        have hv := fat16_value_lt b0 b1 (e0 ▸ hbyte _) (e1 ▸ hbyte _)
        rw [h] at hv
        refine ⟨fun h => absurd h h12, fun _ => hv, fun h => ?_⟩
        rw [h16] at h; exact absurd h (by decide)
  · -- FAT32
    cases hb0 : load ((st.s_bootInfo.FATsz * st.s_bootInfo.bytsPerSec) % U32)
        (HAL_ReadMultiSector st st.s_bootInfo.rsvdSecCnt st.s_bootInfo.FATsz).buff
        (((c * 4) % U32) % U16) with
    | error e => rw [hb0] at h; cases h
    | ok b0 =>
      rw [hb0] at h
      cases hb1 : load ((st.s_bootInfo.FATsz * st.s_bootInfo.bytsPerSec) % U32)
          (HAL_ReadMultiSector st st.s_bootInfo.rsvdSecCnt st.s_bootInfo.FATsz).buff
          (((c * 4) % U32) % U16 + 1) with
      | error e => rw [hb1] at h; cases h
      | ok b1 =>
        rw [hb1] at h
        cases hb2 : load ((st.s_bootInfo.FATsz * st.s_bootInfo.bytsPerSec) % U32)
            (HAL_ReadMultiSector st st.s_bootInfo.rsvdSecCnt st.s_bootInfo.FATsz).buff
            (((c * 4) % U32) % U16 + 2) with
        | error e => rw [hb2] at h; cases h
        | ok b2 =>
          rw [hb2] at h
          cases hb3 : load ((st.s_bootInfo.FATsz * st.s_bootInfo.bytsPerSec) % U32)
              (HAL_ReadMultiSector st st.s_bootInfo.rsvdSecCnt st.s_bootInfo.FATsz).buff
              (((c * 4) % U32) % U16 + 3) with
          | error e => rw [hb3] at h; cases h
          | ok b3 =>
            rw [hb3] at h
            injection h with h
            have e0 := load_ok _ _ _ _ hb0
            have e1 := load_ok _ _ _ _ hb1
            have e2 := load_ok _ _ _ _ hb2
            have hv := fat32_value_lt b0 b1 b2 b3 (e0 ▸ hbyte _) (e1 ▸ hbyte _) (e2 ▸ hbyte _)
            rw [h] at hv
            exact ⟨fun h => absurd h h12, fun h => absurd h h16, fun _ => hv⟩
  · exact hz (by injection h with h; exact h.symm)

/-- C24: whatever the cluster number and the bytes of the FAT, a value returned by
`nextCluster` is below `2 ^ 12` on FAT12, below `2 ^ 16` on FAT16 and below `2 ^ 28` on FAT32.
A value is returned whenever the FAT region is read in full and the bytes of the entry lie
inside it, and the value 0 is returned when the read comes up short. -/
theorem nextCluster_high_bits_zero (st : State) (t : Nat) (hT : fatType st.s_bootInfo = .ok t)
    (c : Nat) :
    (∀ v, nextCluster st c = .ok v →
      (t = FAT_12 → v < 2 ^ 12) ∧ (t = FAT_16 → v < 2 ^ 16) ∧ (t = FAT_32 → v < 2 ^ 28)) ∧
    (fatReadOk st →
      ((t = FAT_12 ∧ c + (c >>> 1) < U16 ∧ c + (c >>> 1) + 1 < fatBytes st) ∨
        (t = FAT_16 ∧ (c * 2) % U16 + 1 < fatBytes st) ∨
        (t = FAT_32 ∧ (c * 4) % U16 + 3 < fatBytes st)) →
      ∃ v, nextCluster st c = .ok v) ∧
    ((HAL_ReadMultiSector st st.s_bootInfo.rsvdSecCnt st.s_bootInfo.FATsz).byteRead
        < fatBytes st → nextCluster st c = .ok 0) := by
  refine ⟨fun v h => nextCluster_lt st t hT c v h, ?_, ?_⟩
  · intro hR hin
    rcases hin with ⟨ht, hc, hin⟩ | ⟨ht, hin⟩ | ⟨ht, hin⟩
    · subst ht
      exact ⟨_, nextCluster_fat12_arith st c hT hR hc hin⟩
    · subst ht
      exact ⟨_, nextCluster_fat16 st c hT hR hin⟩
    · subst ht
      exact ⟨_, nextCluster_fat32 st c hT hR hin⟩
  · intro hlt
    exact nextCluster_short_read st t c hT hlt

/-- On the FAT16 image with the chain `2 → 3 → 4 → end` the hypothesis of
`nextCluster_high_bits_zero` holds; entry 4 is `0xFFFF`, a 16-bit value. -/
theorem nextCluster_high_bits_zero_witness :
    (fatType fat16ChainState.s_bootInfo = .ok FAT_16 ∧
      nextCluster fat16ChainState 4 = .ok 0xFFFF) ∧
    ((∀ v, nextCluster fat16ChainState 4 = .ok v →
      (FAT_16 = FAT_12 → v < 2 ^ 12) ∧ (FAT_16 = FAT_16 → v < 2 ^ 16) ∧
        (FAT_16 = FAT_32 → v < 2 ^ 28)) ∧
    (fatReadOk fat16ChainState →
      ((FAT_16 = FAT_12 ∧ 4 + (4 >>> 1) < U16 ∧ 4 + (4 >>> 1) + 1 < fatBytes fat16ChainState) ∨
        (FAT_16 = FAT_16 ∧ (4 * 2) % U16 + 1 < fatBytes fat16ChainState) ∨
        (FAT_16 = FAT_32 ∧ (4 * 4) % U16 + 3 < fatBytes fat16ChainState)) →
      ∃ v, nextCluster fat16ChainState 4 = .ok v) ∧
    ((HAL_ReadMultiSector fat16ChainState fat16ChainState.s_bootInfo.rsvdSecCnt
        fat16ChainState.s_bootInfo.FATsz).byteRead < fatBytes fat16ChainState →
      nextCluster fat16ChainState 4 = .ok 0)) :=
  ⟨⟨by decide, by decide⟩,
   nextCluster_high_bits_zero fat16ChainState FAT_16 (by decide) 4⟩

/-! ## Byte positions of the HAL reads -/

/-- While the products fit 32 bits, the HAL reads seek to `index * sizeSector` and
`HAL_ReadMultiSector` asks for `num * sizeSector` bytes. -/
theorem HAL_position_exact (st : State) (index num : Nat)
    (hpos : index * st.sizeSector < U32) (hreq : num * st.sizeSector < U32) :
    (HAL_ReadMultiSector st index num).positionPointer = index * st.sizeSector ∧
    (HAL_ReadMultiSector st index num).requested = num * st.sizeSector ∧
    (HAL_ReadSector st index).positionPointer = index * st.sizeSector := by
  simp only [HAL_ReadMultiSector, HAL_ReadSector, Nat.mod_eq_of_lt hpos]
  refine ⟨trivial, ?_, trivial⟩
  rw [Nat.mul_comm, Nat.mod_eq_of_lt hreq]

/-- C25 fails on the code: on the 19.5 GiB volume with 512-byte sectors, sector 8388608 (the
first sector of cluster 1046766) lies at byte `2 ^ 32` of the image, and both HAL reads seek
to byte 0 for it: the block delivered is the boot sector.  A request for 8388608 sectors asks
for 0 bytes. -/
theorem HAL_position_wraps :
    (initFileFAT (initialState bootHighRootDisk)).map (fun s => (s.s_bootInfo, s.sizeSector))
      = .ok (largeState.s_bootInfo, largeState.sizeSector) ∧
    localEachRegion largeState.s_bootInfo = .ok largeState.s_local ∧
    largeState.sizeSector = 512 ∧
    8388608 < largeState.s_bootInfo.totalSector ∧
    clusterSector largeState 1046766 = 8388608 ∧
    8388608 * largeState.sizeSector = 4294967296 ∧
    8388608 * largeState.sizeSector + 512 ≤ largeState.disk.size ∧
    (HAL_ReadMultiSector largeState 8388608 1).positionPointer = 0 ∧
    (HAL_ReadSector largeState 8388608).positionPointer = 0 ∧
    (HAL_ReadMultiSector largeState 8388608 1).buff 0x0C = 2 ∧
    (HAL_ReadSector largeState 8388608).buff 0x0C = 2 ∧
    largeState.disk.byte (8388608 * largeState.sizeSector + 0x0C) = 0 ∧
    (HAL_ReadMultiSector largeState 0 8388608).requested = 0 := by
  refine ⟨by decide!, by decide, by decide, by decide, by decide, by decide, by decide,
    by decide, by decide, by decide, by decide, by decide, by decide⟩

/-! ## The buffer of the caller -/

/-- While the product fits 32 bits, the size that `APP` passes to `malloc` covers every whole
cluster of a file of `fileSize` bytes. -/
theorem APP_buffSize_exact (bootInfo : t_bootSector) (fileSize : Nat)
    (hb : 0 < bootInfo.bytsPerSec) (hs : 1 ≤ bootInfo.secPerClus)
    (hfit : (fileSize / bootInfo.bytsPerSec + 1) * bootInfo.bytsPerSec * bootInfo.secPerClus
      < U32) :
    APP_buffSize bootInfo fileSize
      = .ok ((fileSize / bootInfo.bytsPerSec + 1) * bootInfo.bytsPerSec * bootInfo.secPerClus) ∧
    (fileSize + bootInfo.bytsPerSec * bootInfo.secPerClus - 1)
        / (bootInfo.bytsPerSec * bootInfo.secPerClus)
        * bootInfo.bytsPerSec * bootInfo.secPerClus
      ≤ (fileSize / bootInfo.bytsPerSec + 1) * bootInfo.bytsPerSec * bootInfo.secPerClus := by
  generalize hbps : bootInfo.bytsPerSec = bps at *
  generalize hspc : bootInfo.secPerClus = spc at *
  have hB : 0 < bps * spc := Nat.mul_pos hb hs
  have hq : fileSize < (fileSize / bps + 1) * bps := by
    have := Nat.lt_succ_iff.mpr (le_refl (fileSize / bps))
    exact (Nat.div_lt_iff_lt_mul hb).mp this
  have hle1 : (fileSize / bps + 1) * bps ≤ (fileSize / bps + 1) * bps * spc :=
    Nat.le_mul_of_pos_right _ hs
  have h1 : (fileSize / bps + 1) * bps < U32 := lt_of_le_of_lt hle1 hfit
  have h0 : fileSize / bps + 1 < U32 :=
    lt_of_le_of_lt (Nat.le_mul_of_pos_right _ hb) h1
  constructor
  · unfold APP_buffSize
    rw [hbps, hspc, if_neg (Nat.pos_iff_ne_zero.mp hb), Nat.mod_eq_of_lt h0,
      Nat.mod_eq_of_lt h1, Nat.mod_eq_of_lt hfit]
  · have hn : (fileSize + bps * spc - 1) / (bps * spc) ≤ fileSize / bps + 1 := by
      apply Nat.le_of_lt_succ
      rw [Nat.div_lt_iff_lt_mul hB]
      have : (fileSize / bps + 1 + 1) * (bps * spc)
          = (fileSize / bps + 1) * bps * spc + bps * spc := by ring
      rw [this]
      omega
    calc (fileSize + bps * spc - 1) / (bps * spc) * bps * spc
        = (fileSize + bps * spc - 1) / (bps * spc) * (bps * spc) := by ring
      _ ≤ (fileSize / bps + 1) * (bps * spc) := Nat.mul_le_mul_right _ hn
      _ = (fileSize / bps + 1) * bps * spc := by ring

/-- C26 fails on the code: on a FAT32 volume with 512-byte sectors and 64 sectors per cluster
(32 KiB clusters) a file of 67108864 bytes occupies 2048 clusters, 67108864 bytes in all; the
size passed to `malloc` is `131073 * 512 * 64 mod 2 ^ 32 = 32768`, one cluster. -/
theorem APP_buffSize_wraps :
    fat32Cluster32KBoot.InRange ∧ fatType fat32Cluster32KBoot = .ok FAT_32 ∧
    0 < fat32Cluster32KBoot.bytsPerSec ∧ 1 ≤ fat32Cluster32KBoot.secPerClus ∧
    (0 < 67108864 ∧ 67108864 < U32) ∧
    APP_buffSize fat32Cluster32KBoot 67108864 = .ok 32768 ∧
    (67108864 + fat32Cluster32KBoot.bytsPerSec * fat32Cluster32KBoot.secPerClus - 1)
        / (fat32Cluster32KBoot.bytsPerSec * fat32Cluster32KBoot.secPerClus)
        * fat32Cluster32KBoot.bytsPerSec * fat32Cluster32KBoot.secPerClus = 67108864 ∧
    (67108864 / fat32Cluster32KBoot.bytsPerSec + 1) * fat32Cluster32KBoot.bytsPerSec
        * fat32Cluster32KBoot.secPerClus = 4294967296 + 32768 := by
  decide

/-! ## The first cluster of a record -/

/-- C27: the `startCluster` of a decoded record is the little-endian 16-bit value at offset
`0x1A` of the record, so it is below 65536; `createNewNodeAsDirEntry` returns it for every
record inside the block; a record that differs only in the bytes at `0x14`, `0x15` decodes to
the same `startCluster`; and every record that a directory read keeps, on any variant, has a
`startCluster` below 65536. -/
theorem decodeDirEntry_startCluster_low_word (buff : Nat → Nat) (index : Nat)
    (hb : ∀ i, buff i < 256) :
    (decodeDirEntry buff index).startCluster = le16 buff (index + 0x1A) ∧
    (decodeDirEntry buff index).startCluster < 65536 ∧
    (∀ sz, index + 32 ≤ sz →
      (createNewNodeAsDirEntry sz buff index).map (fun e => e.startCluster)
        = .ok (le16 buff (index + 0x1A))) ∧
    (∀ buff2 : Nat → Nat,
      (∀ i, i ≠ index + 0x14 → i ≠ index + 0x15 → buff2 i = buff i) →
      (decodeDirEntry buff2 index).startCluster = (decodeDirEntry buff index).startCluster) ∧
    (∀ (st : State) (startEntry num : Nat), ∀ e ∈ dirRecords st startEntry num,
      e.startCluster < 65536) := by
  have heq : (decodeDirEntry buff index).startCluster = le16 buff (index + 0x1A) := by
    simp only [decodeDirEntry, le16]
    exact LITTLE_ENDIAN_eq _ _ (hb _) (hb _)
  refine ⟨heq, ?_, ?_, ?_, ?_⟩
  · rw [heq]
    exact le16_lt buff _ hb
  · intro sz hin
    rw [createNewNodeAsDirEntry, if_pos hin, ← heq]
    rfl
  · intro buff2 h2
    simp only [decodeDirEntry]
    rw [h2 (index + 0x1A) (by omega) (by omega), h2 (index + 0x1B) (by omega) (by omega)]
  · intro st startEntry num e he
    unfold dirRecords at he
    split_ifs at he
    · unfold scanRecords at he
      obtain ⟨hm, _⟩ := List.mem_filter.mp he
      obtain ⟨k, _, rfl⟩ := List.mem_map.mp hm
      simp only [decodeDirEntry]
      rw [LITTLE_ENDIAN_eq _ _ (HAL_ReadMultiSector_byte _ _ _ _)
        (HAL_ReadMultiSector_byte _ _ _ _)]
      have h0 := HAL_ReadMultiSector_byte st startEntry num (32 * k + 0x1A)
      have h1 := HAL_ReadMultiSector_byte st startEntry num (32 * k + 0x1B)
      omega
    · cases he

/-- The sample record with a nonzero high word satisfies the hypothesis of
`decodeDirEntry_startCluster_low_word`; it decodes to start cluster 7, as the record without
the high word does. -/
theorem decodeDirEntry_startCluster_low_word_witness :
    ((∀ i, sampleRecordHigh i < 256) ∧
      sampleRecordHigh 0x14 + 256 * sampleRecordHigh 0x15 = 0x1234 ∧
      (decodeDirEntry sampleRecordHigh 0).startCluster = 7 ∧
      (decodeDirEntry sampleRecord 0).startCluster = 7) ∧
    ((decodeDirEntry sampleRecordHigh 0).startCluster = le16 sampleRecordHigh (0 + 0x1A) ∧
    (decodeDirEntry sampleRecordHigh 0).startCluster < 65536 ∧
    (∀ sz, 0 + 32 ≤ sz →
      (createNewNodeAsDirEntry sz sampleRecordHigh 0).map (fun e => e.startCluster)
        = .ok (le16 sampleRecordHigh (0 + 0x1A))) ∧
    (∀ buff2 : Nat → Nat,
      (∀ i, i ≠ 0 + 0x14 → i ≠ 0 + 0x15 → buff2 i = sampleRecordHigh i) →
      (decodeDirEntry buff2 0).startCluster
        = (decodeDirEntry sampleRecordHigh 0).startCluster) ∧
    (∀ (st : State) (startEntry num : Nat), ∀ e ∈ dirRecords st startEntry num,
      e.startCluster < 65536)) :=
  ⟨⟨fun i => by
      unfold sampleRecordHigh
      split_ifs
      · decide
      · decide
      · exact Nat.mod_lt _ (by decide),
    by decide, by decide, by decide⟩,
   decodeDirEntry_startCluster_low_word sampleRecordHigh 0 (fun i => by
      unfold sampleRecordHigh
      split_ifs
      · decide
      · decide
      · exact Nat.mod_lt _ (by decide))⟩

/-! ## The list passed to `loadDirEntry` -/

/-- C28: the outcome of `loadDirEntry`, iterations and list, does not depend on the list
passed in: it is the outcome for the empty list.  A second call with the list of the first
call therefore has the outcome of the first call: nothing accumulates. -/
theorem loadDirEntry_ignores_prior_list (st : State) (fuel : Nat)
    (head : List t_direcroryEntry) (startCluster : Nat) :
    loadDirEntry st fuel head startCluster = loadDirEntry st fuel [] startCluster ∧
    (loadDirEntry st fuel head startCluster).bind
        (fun r => loadDirEntry st fuel r.2 startCluster)
      = loadDirEntry st fuel head startCluster := by
  have h : ∀ head2, loadDirEntry st fuel head2 startCluster
      = loadDirEntry st fuel [] startCluster := by
    intro head2
    unfold loadDirEntry
    simp only [deleteList]
  refine ⟨h head, ?_⟩
  cases hr : loadDirEntry st fuel head startCluster with
  | error e => rfl
  | ok r =>
    simp only [Except.bind]
    rw [h r.2, ← h head, hr]

/-- On the sample floppy the root directory listed after the directory of cluster 5 was
listed is the root directory alone: the single record `B`, whatever list was there before. -/
theorem loadDirEntry_twice_scenario :
    loadDirEntry fat12State 1 [] 0 = .ok ([{ cluster := 0, startEntry := 19 }], [entryB]) ∧
    loadDirEntry fat12State 1 [entryB] 0
      = .ok ([{ cluster := 0, startEntry := 19 }], [entryB]) ∧
    loadDirEntry fat12State 1 [entryC, entryD] 0
      = .ok ([{ cluster := 0, startEntry := 19 }], [entryB]) := by
  have h := loadDirEntry_zero fat12State FAT_12 (by decide) (Or.inl rfl) (by decide)
    (by decide) 1 (by decide)
  have hrec : dirRecords fat12State fat12State.s_local.rootDirStartSector
      fat12State.s_local.sectorInRootDir = [entryB] := by decide!
  refine ⟨?_, ?_, ?_⟩
  · rw [(h []).2, hrec]; rfl
  · rw [(h [entryB]).2, hrec]; rfl
  · rw [(h [entryC, entryD]).2, hrec]; rfl

end FAT
